import Mathlib

/-!
# Cart and option logic of the storefront

A shallow embedding of the cart / option-validation code of `public/main.js`
(catalog page with quick-view modal) and `public/product.js` (product page),
and of the catalog and checkout handlers of `server.js`.

Modelling conventions

* A JavaScript string is the list of its UTF-16 code units (`JSString`), so
  `.length` is `List.length` and `.slice(0, 15)` is `List.take 15`.
* Numbers that the cart code only adds or compares (`quantity`) are integers;
  prices are exact rationals.
* An object field that may be absent (`undefined`) is an `Option`.
* The globals `SELECTIONS` and `CART` are passed explicitly as a state record;
  a handler returns the new state together with the outcome it signals to the
  presentation layer (which error it showed, or that it committed).
* DOM fields read by a handler are parameters of the handler.
* A key of `SELECTIONS` is a product id; ids are not names of properties that
  every object inherits (`constructor`, `toString`), so a missing key reads as
  `undefined`.
* The local storage is the string stored under the cart's key together with
  whether writes are refused; `JSON.stringify` and `JSON.parse` are modelled on
  code units, a `SyntaxError` being `none`.
* A handler of `server.js` is a function from the parsed request body (and
  the catalog it reads) to the answer it sends; an exception that escapes a
  handler is an answer of status 500.
* The rating of the rate handler is absent, `null`, a boolean or a number; the
  rating fields of a catalog entry are numbers or absent.
* An image source is a string, the empty string standing for an absent or
  falsy one.
-/

namespace Storefront

/-! ## Strings -/

/-- A JavaScript string, as its sequence of UTF-16 code units. -/
abbrev JSString := List Nat

/-- UTF-16 encoding of one code point. -/
def utf16 (c : Char) : List Nat :=
  if c.toNat < 65536 then [c.toNat]
  else [55296 + (c.toNat - 65536) / 1024, 56320 + (c.toNat - 65536) % 1024]

/-- The JavaScript string denoted by a string literal. -/
def js (s : String) : JSString := s.toList.flatMap utf16

/-- Truthiness of a string: `!!s` is true exactly for non-empty strings. -/
def truthy (s : JSString) : Bool := !s.isEmpty

/-- Code units removed by `String.prototype.trim`: the ECMAScript `WhiteSpace`
and `LineTerminator` productions (all of them in the basic plane). -/
def isWhiteSpace (c : Nat) : Bool :=
  c == 9 || c == 10 || c == 11 || c == 12 || c == 13 || c == 32 || c == 160 ||
  c == 5760 || (8192 ≤ c && c ≤ 8202) || c == 8232 || c == 8233 || c == 8239 ||
  c == 8287 || c == 12288 || c == 65279

/-- The method `s.trim()`. -/
def trim (s : JSString) : JSString :=
  ((s.dropWhile isWhiteSpace).reverse.dropWhile isWhiteSpace).reverse

/-- The `Canonicalize` operation of a case-insensitive regular expression
without the `u` flag, as far as matching against ASCII letters is concerned:
an ASCII lower-case letter is mapped to its upper-case form. A code unit of
value 128 or more is never canonicalised to an ASCII one (ECMAScript leaves it
alone in that case), so it is kept as it is here. -/
def canonicalize (ch : Nat) : Nat :=
  if 97 ≤ ch ∧ ch ≤ 122 then ch - 32 else ch

/-- Whether the whole of `v` matches the literal `word` under the `i` flag. -/
def matchesWord (word v : JSString) : Bool :=
  v.map canonicalize == word.map canonicalize

/-- The test `/^(blank|none)$/i.test(v)`. -/
def blankOrNoneTest (v : JSString) : Bool :=
  matchesWord (js "blank") v || matchesWord (js "none") v

/-- The function `normalizeDogName(raw)` of main.js and product.js (the two copies are the
same text); `none` is the JavaScript `null`. -/
def normalizeDogName (raw : JSString) : Option JSString :=
  let v := trim raw
  if !truthy v then none
  else if blankOrNoneTest v then some (js "none")
  else if v.length > 15 then some (v.take 15) else some v

/-! ### Reading of the specification's words for name normalisation -/

/-- ASCII lower-casing of one code unit. -/
def asciiLower (c : Nat) : Nat :=
  if 65 ≤ c ∧ c ≤ 90 then c + 32 else c

/-- Two strings are equal ignoring (ASCII) letter case. -/
def equalsIgnoringCase (a b : JSString) : Prop :=
  a.map asciiLower = b.map asciiLower

/-- A string consists of white space only (the empty string included). -/
def onlyWhiteSpace (s : JSString) : Prop := ∀ c ∈ s, isWhiteSpace c = true

instance (s : JSString) : Decidable (onlyWhiteSpace s) := by
  unfold onlyWhiteSpace; infer_instance

instance (a b : JSString) : Decidable (equalsIgnoringCase a b) := by
  unfold equalsIgnoringCase; infer_instance

/-- The trimmed input is one of the two escape tokens, ignoring letter case. -/
def isEscapeToken (raw : JSString) : Prop :=
  equalsIgnoringCase (trim raw) (js "blank") ∨ equalsIgnoringCase (trim raw) (js "none")

instance (raw : JSString) : Decidable (isEscapeToken raw) := by
  unfold isEscapeToken; infer_instance

/-! ## Data model -/

/-- One entry of `options.colors`; an absent `value` or `image` is the empty
string (both are only read through `|| ""` or a truthiness test). -/
structure ColorOption where
  value : JSString := []
  label : JSString := []
  image : JSString := []
  deriving DecidableEq

/-- One entry of `options.sizes`: a bare label or a `{value, label}` object. -/
inductive SizeItem where
  | bare (label : JSString)
  | pair (value label : JSString)
  deriving DecidableEq

/-- The options descriptor of a product; an absent boolean is `false`, an
absent list is `none`. The empty descriptor `{}` is the default value. -/
structure Options where
  colors : Option (List ColorOption) := none
  sizes : Option (List SizeItem) := none
  sizesRequired : Bool := false
  dogName : Bool := false
  dogNamePrompt : Bool := false
  note : Bool := false
  deriving DecidableEq

/-- A catalog product (the fields the cart code reads). -/
structure Product where
  id : JSString
  price : ℚ := 0
  options : Option Options := none
  deriving DecidableEq

/-- A selection `{ size, dogName, note, color }`. -/
structure Selection where
  size : JSString := []
  dogName : JSString := []
  note : JSString := []
  color : JSString := []
  deriving DecidableEq

/-- A partial selection, the `patch` argument of `setSel`. -/
structure Patch where
  size : Option JSString := none
  dogName : Option JSString := none
  note : Option JSString := none
  color : Option JSString := none
  deriving DecidableEq

/-- A cart line `{ id, quantity, size, dogName, note, color }`. The four option
fields may be absent in a line read back from storage. -/
structure CartLine where
  id : JSString
  quantity : Int
  size : Option JSString := none
  dogName : Option JSString := none
  note : Option JSString := none
  color : Option JSString := none
  deriving DecidableEq

/-- The object `SELECTIONS`, keyed by product id. -/
abbrev Selections := JSString → Option Selection

/-- The mutable globals of main.js that the cart code reads and writes. -/
structure MainState where
  SELECTIONS : Selections
  CART : List CartLine

/-- What a handler signals: it returned without effect on the cart and without
an error (`ignored`), it showed the size error, it showed the dog-name error,
it committed an add, or it committed an update. -/
inductive Outcome where
  | ignored
  | sizeRequired
  | nameRequired
  | added
  | updated
  deriving DecidableEq

/-! ## Helpers of main.js -/

/-- The expression `x || ""` for an optional string field. -/
def orEmpty (o : Option JSString) : JSString := o.getD []

/-- The lookup `PRODUCTS.find((p) => p.id === id)`. -/
def findProduct (PRODUCTS : List Product) (id : JSString) : Option Product :=
  PRODUCTS.find? (fun p => p.id == id)

/-- The expression `product?.options || {}`. -/
def getOptions (product : Option Product) : Options :=
  match product with
  | some p => p.options.getD {}
  | none => {}

/-- The assignment `SELECTIONS[productId] = v`. -/
def Selections.store (S : Selections) (productId : JSString) (v : Selection) :
    Selections :=
  fun k => if k = productId then some v else S k

/-- The function `getSel(productId)`: the stored selection, created all-empty on first
access; returns the selection and the (possibly extended) store. -/
def getSel (S : Selections) (productId : JSString) : Selection × Selections :=
  match S productId with
  | some s => (s, S)
  | none => ({}, S.store productId {})

/-- The object spread `{ ...sel, ...patch }`. -/
def Selection.merge (sel : Selection) (patch : Patch) : Selection :=
  { size := patch.size.getD sel.size
    dogName := patch.dogName.getD sel.dogName
    note := patch.note.getD sel.note
    color := patch.color.getD sel.color }

/-- The function `setSel(productId, patch)`. -/
def setSel (S : Selections) (productId : JSString) (patch : Patch) : Selections :=
  let (cur, S1) := getSel S productId
  S1.store productId (cur.merge patch)

/-- The expression `colors[0]?.value || ""`. -/
def firstColorValue (colors : List ColorOption) : JSString :=
  match colors.head? with
  | some c => c.value
  | none => []

/-- The function `cartCount()` of main.js. -/
def cartCount (CART : List CartLine) : Int :=
  CART.foldl (fun sum item => sum + item.quantity) 0

/-- The function `cartCount()` of product.js, with `item.quantity || 0`. -/
def cartCountPage (CART : List CartLine) : Int :=
  CART.foldl (fun sum item => sum + (if item.quantity ≠ 0 then item.quantity else 0)) 0

/-- The function `cartTotal()` (main.js and product.js have the same body). -/
def cartTotal (PRODUCTS : List Product) (CART : List CartLine) : ℚ :=
  CART.foldl
    (fun sum item =>
      match findProduct PRODUCTS item.id with
      | some p => sum + p.price * item.quantity
      | none => sum)
    0

/-! ## Adding to the cart -/

/-- The `keyMatch` predicate of `addToCart` (main.js). -/
def keyMatch (productId : JSString) (readySel : Selection) (item : CartLine) : Bool :=
  item.id == productId &&
  orEmpty item.size == readySel.size &&
  orEmpty item.dogName == readySel.dogName &&
  orEmpty item.note == readySel.note &&
  orEmpty item.color == readySel.color

/-- The statements `const existing = CART.find(pred); if (existing) existing.quantity += 1`:
the first line satisfying `pred` has its quantity incremented in place; `none`
when no line satisfies `pred`. -/
def incrementFirst (pred : CartLine → Bool) : List CartLine → Option (List CartLine)
  | [] => none
  | item :: rest =>
    if pred item then some ({ item with quantity := item.quantity + 1 } :: rest)
    else (incrementFirst pred rest).map (fun r => item :: r)

/-- The merge step of `addToCart` (main.js, from `keyMatch` to the `push`):
increment the first line that matches `readySel`, else append a new line of
quantity 1. -/
def mergeIntoCart (productId : JSString) (readySel : Selection) (CART : List CartLine) :
    List CartLine :=
  match incrementFirst (keyMatch productId readySel) CART with
  | some cart => cart
  | none =>
    CART ++
      [{ id := productId, quantity := 1, size := some readySel.size,
         dogName := some readySel.dogName, note := some readySel.note,
         color := some readySel.color }]

/-- The function `addToCart(productId)` of main.js. `!normalized` holds exactly for `null`:
a string returned by `normalizeDogName` is never empty. -/
def addToCart (PRODUCTS : List Product) (st : MainState) (productId : JSString) :
    Outcome × MainState :=
  match findProduct PRODUCTS productId with
  | none => (.ignored, st)
  | some p =>
    let opt := getOptions (some p)
    let (sel, S1) := getSel st.SELECTIONS productId
    -- Default first color if product has colors
    let S2 :=
      match opt.colors with
      | some colors =>
        if !truthy sel.color then setSel S1 productId { color := some (firstColorValue colors) }
        else S1
      | none => S1
    let (finalSel, S3) := getSel S2 productId
    -- Size required
    if opt.sizesRequired && !truthy finalSel.size then
      (.sizeRequired, { st with SELECTIONS := S3 })
    else
      -- Dog name required (prompted)
      let checked : Option Selections :=
        if opt.dogName && opt.dogNamePrompt then
          match normalizeDogName finalSel.dogName with
          | none => none
          | some normalized => some (setSel S3 productId { dogName := some normalized })
        else some S3
      match checked with
      | none => (.nameRequired, { st with SELECTIONS := S3 })
      | some S4 =>
        let (readySel, S5) := getSel S4 productId
        (.added, { SELECTIONS := S5, CART := mergeIntoCart productId readySel st.CART })

/-! ## The quick-view modal of main.js -/

/-- The values of the modal's inputs when a modal button is clicked:
`modalSizeEl.value`, `modalDogNameEl.value`, `modalNoteEl.value`. -/
structure ModalForm where
  size : JSString := []
  dogName : JSString := []
  note : JSString := []
  deriving DecidableEq

/-- The patch `next` that the modal handlers build from the inputs (the same
three statements in the save, add and update handlers): `next.size` is set
only with `opt.sizes`, `next.dogName` only with `opt.dogName`, `next.note` only
with `opt.note`. -/
def modalNext (opt : Options) (form : ModalForm) (dogNameValue : JSString) : Patch :=
  { size := if opt.sizes.isSome then some form.size else none
    dogName := if opt.dogName then some dogNameValue else none
    note := if opt.note then some (trim form.note) else none }

/-- The click handler of `modalAddToCartEl`. `!normalized` holds exactly for
`null`: a string returned by `normalizeDogName` is never empty. -/
def modalAddToCartClick (PRODUCTS : List Product) (st : MainState)
    (MODAL_PRODUCT_ID : Option JSString) (form : ModalForm) : Outcome × MainState :=
  match MODAL_PRODUCT_ID with
  | none => (.ignored, st)
  | some id =>
    if !truthy id then (.ignored, st)
    else
      let opt := getOptions (findProduct PRODUCTS id)
      -- Validate size
      if opt.sizesRequired && !truthy form.size then (.sizeRequired, st)
      else
        -- Validate dog name (prompted)
        let dogNameValue := trim form.dogName
        let validated : Option JSString :=
          if opt.dogName && opt.dogNamePrompt then normalizeDogName dogNameValue
          else some dogNameValue
        match validated with
        | none => (.nameRequired, st)
        | some dogNameValue1 =>
          let next : Patch := modalNext opt form dogNameValue1
          addToCart PRODUCTS { st with SELECTIONS := setSel st.SELECTIONS id next } id

/-- The click handler of `modalUpdateItemEl`. -/
def modalUpdateItemClick (PRODUCTS : List Product) (st : MainState)
    (MODAL_PRODUCT_ID : Option JSString) (EDITING_CART_INDEX : Option Nat)
    (form : ModalForm) : Outcome × MainState :=
  match EDITING_CART_INDEX, MODAL_PRODUCT_ID with
  | some idx, some id =>
    if !truthy id then (.ignored, st)
    else
      let opt := getOptions (findProduct PRODUCTS id)
      -- Validate size
      if opt.sizesRequired && !truthy form.size then (.sizeRequired, st)
      else
        -- Validate dog name (prompted)
        let dogNameValue := trim form.dogName
        let validated : Option JSString :=
          if opt.dogName && opt.dogNamePrompt then normalizeDogName dogNameValue
          else some dogNameValue
        match validated with
        | none => (.nameRequired, st)
        | some dogNameValue1 =>
          let next : Patch := modalNext opt form dogNameValue1
          let S1 := setSel st.SELECTIONS id next
          -- Update that cart line item
          match st.CART[idx]? with
          | none => (.ignored, { st with SELECTIONS := S1 })
          | some line =>
            let (sel, S2) := getSel S1 id
            let line1 : CartLine :=
              { line with
                size := some sel.size
                dogName := some sel.dogName
                note := some sel.note
                color := some (if truthy sel.color then sel.color else orEmpty line.color) }
            (.updated, { SELECTIONS := S2, CART := st.CART.set idx line1 })
  | _, _ => (.ignored, st)

/-! ## The cart drawer (main.js and product.js) -/

/-- The click handler of a `data-qty` button (same body in both files), for
the line index `idx` and the `delta` of the button. -/
def changeQuantity (CART : List CartLine) (idx : Nat) (delta : Int) : List CartLine :=
  match CART[idx]? with
  | none => CART
  | some line =>
    let quantity := line.quantity + delta
    if quantity ≤ 0 then CART.eraseIdx idx
    else CART.set idx { line with quantity := quantity }

/-! ## The product page of product.js -/

/-- The page state read by the `pAdd` click handler: the values of `#pSize`,
`#pDogName` and `#pNote` (`none` when the element is not on the page) and the
variable `selectedColor`. -/
structure PageForm where
  sizeEl : Option JSString := none
  dogEl : Option JSString := none
  noteEl : Option JSString := none
  selectedColor : JSString := []
  deriving DecidableEq

/-- The expression `el ? (el.value || "") : ""` for an input that may be absent
from the page. -/
def elValue (el : Option JSString) : JSString :=
  match el with
  | some v => v
  | none => []

/-- The `keyMatch` predicate of the `pAdd` click handler. -/
def keyMatchLine (line item : CartLine) : Bool :=
  item.id == line.id &&
  orEmpty item.size == orEmpty line.size &&
  orEmpty item.dogName == orEmpty line.dogName &&
  orEmpty item.note == orEmpty line.note &&
  orEmpty item.color == orEmpty line.color

/-- The merge step of the `pAdd` click handler ("Merge identical items"):
increment the first line that matches `line`, else push `line`. -/
def mergeLine (line : CartLine) (CART : List CartLine) : List CartLine :=
  match incrementFirst (keyMatchLine line) CART with
  | some cart => cart
  | none => CART ++ [line]

/-- The click handler of `#pAdd` in `renderProductPage(product)`. -/
def pAddClick (product : Product) (form : PageForm) (CART : List CartLine) :
    Outcome × List CartLine :=
  let opt : Options := product.options.getD {}
  -- Build selections
  let sizeVal : JSString := elValue form.sizeEl
  let dogVal : JSString := elValue form.dogEl
  let noteVal : JSString := trim (elValue form.noteEl)
  -- Validate size
  if opt.sizesRequired && !truthy sizeVal then (.sizeRequired, CART)
  else
    -- Validate dog (prompted)
    let validated : Option JSString :=
      if opt.dogName && opt.dogNamePrompt then normalizeDogName dogVal else some dogVal
    match validated with
    | none => (.nameRequired, CART)
    | some dogVal1 =>
      let line : CartLine :=
        { id := product.id
          quantity := 1
          size := some sizeVal
          dogName := some (if opt.dogName then trim dogVal1 else [])
          note := some (if opt.note then noteVal else [])
          color := some (if opt.colors.isSome then form.selectedColor else []) }
      (.added, mergeLine line CART)

/-! ## Submissions: what a shopper hands to a commit path -/

/-- The identity rule in the specification's words: `item` has the given
product id and the given four option values, an absent field counting as the
empty string. -/
def SameLine (productId size dogName note color : JSString) (item : CartLine) : Prop :=
  item.id = productId ∧ orEmpty item.size = size ∧ orEmpty item.dogName = dogName ∧
    orEmpty item.note = note ∧ orEmpty item.color = color

instance (productId size dogName note color : JSString) (item : CartLine) :
    Decidable (SameLine productId size dogName note color item) := by
  unfold SameLine; infer_instance

/-- A submitted size, dog name, note and color; an empty color means that no
swatch was chosen. -/
structure Submission where
  size : JSString := []
  dogName : JSString := []
  note : JSString := []
  color : JSString := []
  deriving DecidableEq

/-- The submission as typed into the quick-view modal. -/
def Submission.modalForm (sub : Submission) : ModalForm :=
  { size := sub.size, dogName := sub.dogName, note := sub.note }

/-- The submission as held by the product page. The template of
`renderProductPage` renders `#pSize` only for a product with a sizes list,
`#pDogName` only with `opt.dogName` and `#pNote` only with `opt.note`;
`selectedColor` starts as the first color of the product and is overwritten
by the click on a swatch. -/
def Submission.pageForm (opt : Options) (sub : Submission) : PageForm :=
  { sizeEl := if opt.sizes.isSome then some sub.size else none
    dogEl := if opt.dogName then some sub.dogName else none
    noteEl := if opt.note then some sub.note else none
    selectedColor :=
      if truthy sub.color then sub.color
      else match opt.colors with
        | some colors => firstColorValue colors
        | none => [] }

/-- A submission that the inputs shown for a product with options `opt` can
hold: without a sizes list there is no size to pick, without colors no swatch
to click. -/
def Submission.fits (opt : Options) (sub : Submission) : Prop :=
  (opt.sizes = none → sub.size = []) ∧ (opt.colors = none → sub.color = [])

instance (opt : Options) (sub : Submission) : Decidable (sub.fits opt) := by
  unfold Submission.fits; infer_instance

/-- The stored selection of the product when the modal is submitted: it holds
the chosen color, and nothing for an option the product does not offer. -/
def Submission.storedAs (opt : Options) (sub : Submission) (sel : Selection) : Prop :=
  sel.color = sub.color ∧ (opt.sizes = none → sel.size = []) ∧
    (opt.dogName = false → sel.dogName = []) ∧ (opt.note = false → sel.note = [])

instance (opt : Options) (sub : Submission) (sel : Selection) :
    Decidable (sub.storedAs opt sel) := by
  unfold Submission.storedAs; infer_instance

/-- The color an add path commits: the chosen one, else the first color of the
product. -/
def addColor (opt : Options) (sub : Submission) : JSString :=
  if truthy sub.color then sub.color
  else match opt.colors with
    | some colors => firstColorValue colors
    | none => []

/-- The note every path commits. -/
def committedNote (opt : Options) (sub : Submission) : JSString :=
  if opt.note then trim sub.note else []

/-- The stored selection after the step "Default first color if product has
colors" of `addToCart`. -/
def withDefaultColor (opt : Options) (s0 : Selection) : Selection :=
  match opt.colors with
  | some colors => if !truthy s0.color then { s0 with color := firstColorValue colors } else s0
  | none => s0

/-- A closed form, used in the proofs, of what `addToCart` does with the
stored selection `s0` of a product with options `opt`: the error it signals, or
the selection `readySel` it commits. -/
def readySelection (opt : Options) (s0 : Selection) : Except Outcome Selection :=
  let s1 : Selection := withDefaultColor opt s0
  if opt.sizesRequired && !truthy s1.size then .error .sizeRequired
  else if opt.dogName && opt.dogNamePrompt then
    match normalizeDogName s1.dogName with
    | none => .error .nameRequired
    | some normalized => .ok { s1 with dogName := normalized }
  else .ok s1

/-! ## Concrete data used by the examples -/

/-- A cart line of product `"p"` in size `"M"`, quantity 2. -/
def lineM : CartLine :=
  { id := js "p", quantity := 2, size := some (js "M"), dogName := some [], note := some [],
    color := some [] }

/-- A cart line of product `"p"` in size `"L"` whose other fields are absent. -/
def lineL : CartLine := { id := js "p", quantity := 1, size := some (js "L") }

/-- A product `"p"` that requires a size. -/
def sizedProduct : Product :=
  { id := js "p", price := 10, options := some { sizes := some [.bare (js "M")], sizesRequired := true } }

/-- A product `"p"` that offers and prompts for a dog name. -/
def namedProduct : Product :=
  { id := js "p", price := 10, options := some { dogName := true, dogNamePrompt := true } }

/-- A product `"p"` without options. -/
def plainProduct : Product := { id := js "p", price := 10 }

/-- The state of main.js with no stored selection and the given cart. -/
def freshState (CART : List CartLine) : MainState :=
  { SELECTIONS := fun _ => none, CART := CART }

/-- The state of main.js whose only stored selection is `sel`, for product
`"p"`, with the given cart. -/
def stateWith (sel : Selection) (CART : List CartLine) : MainState :=
  { SELECTIONS := fun k => if k = js "p" then some sel else none, CART := CART }

/-- A cart line of product `"p"` in color `"red"`, with the name `"Rex"`. -/
def lineRed : CartLine :=
  { id := js "p", quantity := 4, size := some [], dogName := some (js "Rex"), note := some [],
    color := some (js "red") }

/-- A product `"bandana"` priced 12.50. -/
def bandana : Product := { id := js "bandana", price := 25 / 2 }

/-- A cart with three bandanas and one line of a product that is no longer in
the catalog. -/
def staleCart : List CartLine :=
  [{ id := js "bandana", quantity := 3 }, { id := js "deleted", quantity := 1 }]

/-- The amount a line contributes to the total, in the specification's words:
price times quantity of the product its id resolves to, and 0 when the id does
not resolve. -/
def lineAmount (PRODUCTS : List Product) (item : CartLine) : ℚ :=
  match findProduct PRODUCTS item.id with
  | some p => p.price * item.quantity
  | none => 0

/-- The name every path commits for a name of at most 15 code units after
trimming: nothing without `opt.dogName`, the normalised name when the product
prompts for it, the trimmed name otherwise. -/
def committedName (opt : Options) (sub : Submission) : JSString :=
  if opt.dogName then
    if opt.dogNamePrompt then (normalizeDogName sub.dogName).getD [] else trim sub.dogName
  else []

/-- A product `"p"` offered in red and in blue. -/
def colorProduct : Product :=
  { id := js "p", price := 10,
    options := some { colors := some [{ value := js "red" }, { value := js "blue" }] } }

/-- A cart line of product `"p"` with every option empty, as stored before the
product had colors. -/
def linePlain : CartLine :=
  { id := js "p", quantity := 1, size := some [], dogName := some [], note := some [],
    color := some [] }

/-- A cart line of product `"p"` with the given dog name and quantity 1. -/
def lineNamed (name : String) : CartLine :=
  { id := js "p", quantity := 1, size := some [], dogName := some (js name), note := some [],
    color := some [] }

/-- The click handler of a `data-remove` button (product.js), for the line index
`idx`: the statement `CART.splice(idx, 1)`. -/
def removeLine (CART : List CartLine) (idx : Nat) : List CartLine :=
  CART.eraseIdx idx

/-- A cart line of product `"p"` in size `"M"` with quantity 7; it has the same
product id and option fields as `lineM`. -/
def lineM7 : CartLine := { lineM with quantity := 7 }

/-! ## Sequences of cart operations -/

/-- One event that can change the cart or the stored selections: the card's
Add button, the quick-view Add, the quick-view Update, any change of a stored
selection (swatch click, modal Save, Edit), a quantity button, the product
page's Add, and the Remove button. Each carries the catalog or product and the
inputs that the handler reads. -/
inductive CartOp where
  | add (PRODUCTS : List Product) (productId : JSString)
  | quickAdd (PRODUCTS : List Product) (MODAL_PRODUCT_ID : Option JSString) (form : ModalForm)
  | update (PRODUCTS : List Product) (MODAL_PRODUCT_ID : Option JSString)
      (EDITING_CART_INDEX : Option Nat) (form : ModalForm)
  | select (productId : JSString) (patch : Patch)
  | quantity (idx : Nat) (delta : Int)
  | pageAdd (product : Product) (form : PageForm)
  | remove (idx : Nat)

/-- The state after one event, by the handler of that event. -/
def applyOp (st : MainState) : CartOp → MainState
  | .add PRODUCTS productId => (addToCart PRODUCTS st productId).2
  | .quickAdd PRODUCTS id form => (modalAddToCartClick PRODUCTS st id form).2
  | .update PRODUCTS id idx form => (modalUpdateItemClick PRODUCTS st id idx form).2
  | .select productId patch => { st with SELECTIONS := setSel st.SELECTIONS productId patch }
  | .quantity idx delta => { st with CART := changeQuantity st.CART idx delta }
  | .pageAdd product form => { st with CART := (pAddClick product form st.CART).2 }
  | .remove idx => { st with CART := removeLine st.CART idx }

/-- Every line of the cart has a quantity of at least 1. -/
def QuantitiesPositive (CART : List CartLine) : Prop := ∀ line ∈ CART, 1 ≤ line.quantity

instance (CART : List CartLine) : Decidable (QuantitiesPositive CART) := by
  unfold QuantitiesPositive; infer_instance

/-! ## JSON text (the platform functions `JSON.stringify` and `JSON.parse`) -/

/-- A value that `JSON.parse` can return. A number is an exact rational, an
object is the list of its members in the order of the text. -/
inductive JSON where
  | null
  | bool (b : Bool)
  | num (q : ℚ)
  | str (s : JSString)
  | arr (items : List JSON)
  | obj (members : List (JSString × JSON))

/-- The lower-case hexadecimal digit of a value below 16. -/
def hexDigit (d : Nat) : Nat := if d < 10 then 48 + d else 87 + d

/-- The four hexadecimal digits of a code unit, as written after a backslash
and `u`. -/
def hex4 (c : Nat) : List Nat :=
  [hexDigit (c / 4096 % 16), hexDigit (c / 256 % 16), hexDigit (c / 16 % 16), hexDigit (c % 16)]

/-- A leading (high) surrogate. -/
def isHighSurrogate (c : Nat) : Bool := 55296 ≤ c && c ≤ 56319

/-- A trailing (low) surrogate. -/
def isLowSurrogate (c : Nat) : Bool := 56320 ≤ c && c ≤ 57343

/-- What `QuoteJSONString` writes for the code unit `c` standing between
`prev` and `next`: the two-character escapes, a `u` escape for the other
control characters and for a surrogate that is not part of a pair, and the
code unit itself otherwise. -/
def quoteUnit (prev : Option Nat) (c : Nat) (next : Option Nat) : List Nat :=
  if c = 8 then [92, 98]
  else if c = 9 then [92, 116]
  else if c = 10 then [92, 110]
  else if c = 12 then [92, 102]
  else if c = 13 then [92, 114]
  else if c = 34 then [92, 34]
  else if c = 92 then [92, 92]
  else if c < 32 then 92 :: 117 :: hex4 c
  else if isHighSurrogate c then
    (if (next.map isLowSurrogate).getD false then [c] else 92 :: 117 :: hex4 c)
  else if isLowSurrogate c then
    (if (prev.map isHighSurrogate).getD false then [c] else 92 :: 117 :: hex4 c)
  else [c]

/-- The quoted form of the code units of a string, `prev` being the code unit
before them. -/
def quoteFrom (prev : Option Nat) : List Nat → List Nat
  | [] => []
  | c :: rest => quoteUnit prev c rest.head? ++ quoteFrom (some c) rest

/-- The operation `QuoteJSONString(s)`: what `JSON.stringify` writes for a
string. -/
def quoteJSONString (s : JSString) : List Nat :=
  34 :: (quoteFrom none s ++ [34])

/-- The decimal digits of `n` before `acc`, most significant first. -/
def decimalDigits : Nat → Nat → List Nat → List Nat
  | 0, _, acc => acc
  | fuel + 1, n, acc =>
    if n < 10 then (48 + n) :: acc
    else decimalDigits fuel (n / 10) ((48 + n % 10) :: acc)

/-- What `JSON.stringify` writes for a natural number. -/
def decimalNat (n : Nat) : List Nat := decimalDigits (n + 1) n []

/-- What `JSON.stringify` writes for an integer: its decimal digits, as
JavaScript writes every integer below `10^21` in absolute value. -/
def decimalInt (q : Int) : List Nat :=
  if q < 0 then 45 :: decimalNat q.natAbs else decimalNat q.natAbs

/-- The texts joined by commas. -/
def joinComma : List (List Nat) → List Nat
  | [] => []
  | [x] => x
  | x :: y :: rest => x ++ 44 :: joinComma (y :: rest)

/-- The text of one object member, `"key":value`. -/
def memberText (key : JSString) (value : List Nat) : List Nat :=
  quoteJSONString key ++ 58 :: value

/-- The member of an optional string field: nothing is written for an absent
(`undefined`) field. -/
def optionalMember (key : JSString) (value : Option JSString) : List (List Nat) :=
  match value with
  | some s => [memberText key (quoteJSONString s)]
  | none => []

/-- What `JSON.stringify` writes for a cart line: its members in the order in
which the add handlers create them. -/
def stringifyLine (line : CartLine) : List Nat :=
  123 :: (joinComma
    ([memberText (js "id") (quoteJSONString line.id),
      memberText (js "quantity") (decimalInt line.quantity)] ++
     optionalMember (js "size") line.size ++ optionalMember (js "dogName") line.dogName ++
     optionalMember (js "note") line.note ++ optionalMember (js "color") line.color) ++ [125])

/-- The text `JSON.stringify(CART)`. -/
def stringifyCart (CART : List CartLine) : JSString :=
  91 :: (joinComma (CART.map stringifyLine) ++ [93])

/-- White space of the JSON grammar: space, tab, line feed, carriage return. -/
def isJsonWs (c : Nat) : Bool := c == 32 || c == 9 || c == 10 || c == 13

/-- The input without its leading white space. -/
def skipWs (input : List Nat) : List Nat := input.dropWhile isJsonWs

/-- The value of a hexadecimal digit, in either case. -/
def hexVal (c : Nat) : Option Nat :=
  if 48 ≤ c ∧ c ≤ 57 then some (c - 48)
  else if 97 ≤ c ∧ c ≤ 102 then some (c - 87)
  else if 65 ≤ c ∧ c ≤ 70 then some (c - 55)
  else none

/-- Four hexadecimal digits at the head of the input, as a code unit. -/
def parseHex4 (input : List Nat) : Option (Nat × List Nat) :=
  match input with
  | a :: b :: c :: d :: rest =>
    match hexVal a, hexVal b, hexVal c, hexVal d with
    | some x, some y, some z, some w => some (((x * 16 + y) * 16 + z) * 16 + w, rest)
    | _, _, _, _ => none
  | _ => none

/-- The code unit denoted by the character after a backslash, `u` apart. -/
def unescape (e : Nat) : Option Nat :=
  if e = 34 then some 34
  else if e = 92 then some 92
  else if e = 47 then some 47
  else if e = 98 then some 8
  else if e = 102 then some 12
  else if e = 110 then some 10
  else if e = 114 then some 13
  else if e = 116 then some 9
  else none

/-- The characters of a JSON string after its opening quote, up to the closing
quote; `none` is a syntax error. -/
def parseChars : Nat → List Nat → Option (JSString × List Nat)
  | 0, _ => none
  | _ + 1, [] => none
  | fuel + 1, c :: rest =>
    if c = 34 then some ([], rest)
    else if c = 92 then
      match rest with
      | [] => none
      | e :: rest2 =>
        if e = 117 then
          match parseHex4 rest2 with
          | some (u, rest3) => (parseChars fuel rest3).map (fun r => (u :: r.1, r.2))
          | none => none
        else
          match unescape e with
          | some u => (parseChars fuel rest2).map (fun r => (u :: r.1, r.2))
          | none => none
    else if c < 32 then none
    else (parseChars fuel rest).map (fun r => (c :: r.1, r.2))

/-- A decimal digit. -/
def isDigit (c : Nat) : Bool := 48 ≤ c && c ≤ 57

/-- The number written by decimal digits. -/
def digitsValue (ds : List Nat) : Nat := ds.foldl (fun acc d => 10 * acc + (d - 48)) 0

/-- The optional fraction of a JSON number: its digits and the rest. -/
def parseFraction (input : List Nat) : Option (List Nat × List Nat) :=
  match input with
  | 46 :: rest =>
    if rest.takeWhile isDigit = [] then none
    else some (rest.takeWhile isDigit, rest.dropWhile isDigit)
  | _ => some ([], input)

/-- The digits of an exponent, after `e` and the sign. -/
def exponentDigits (negative : Bool) (input : List Nat) : Option (Int × List Nat) :=
  if input.takeWhile isDigit = [] then none
  else
    some ((if negative then -(digitsValue (input.takeWhile isDigit) : Int)
           else (digitsValue (input.takeWhile isDigit) : Int)),
          input.dropWhile isDigit)

/-- The optional exponent of a JSON number and the rest. -/
def parseExponent (input : List Nat) : Option (Int × List Nat) :=
  match input with
  | c :: rest =>
    if c = 101 ∨ c = 69 then
      match rest with
      | s :: rest2 =>
        if s = 43 then exponentDigits false rest2
        else if s = 45 then exponentDigits true rest2
        else exponentDigits false rest
      | [] => none
    else some (0, input)
  | [] => some (0, input)

/-- The digits, fraction and exponent of a JSON number without its sign. -/
def parseUnsigned (input : List Nat) : Option (ℚ × List Nat) :=
  if input.takeWhile isDigit = [] then none
  else if 1 < (input.takeWhile isDigit).length ∧ (input.takeWhile isDigit).head? = some 48 then
    none
  else
    match parseFraction (input.dropWhile isDigit) with
    | none => none
    | some (fraction, rest) =>
      match parseExponent rest with
      | none => none
      | some (exponent, rest2) =>
        some (((digitsValue (input.takeWhile isDigit) : ℚ) +
                (digitsValue fraction : ℚ) / (10 : ℚ) ^ fraction.length) *
              (10 : ℚ) ^ exponent, rest2)

/-- A JSON number at the head of the input. -/
def parseNumber (input : List Nat) : Option (ℚ × List Nat) :=
  match input with
  | c :: rest =>
    if c = 45 then (parseUnsigned rest).map (fun r => (-r.1, r.2))
    else parseUnsigned input
  | [] => none

mutual
/-- A JSON value at the head of the input, after white space. -/
def parseValue : Nat → List Nat → Option (JSON × List Nat)
  | 0, _ => none
  | fuel + 1, input =>
    match skipWs input with
    | [] => none
    | c :: rest =>
      if c = 34 then (parseChars (rest.length + 1) rest).map (fun r => (JSON.str r.1, r.2))
      else if c = 91 then
        match skipWs rest with
        | 93 :: rest2 => some (JSON.arr [], rest2)
        | _ => (parseElements fuel rest).map (fun r => (JSON.arr r.1, r.2))
      else if c = 123 then
        match skipWs rest with
        | 125 :: rest2 => some (JSON.obj [], rest2)
        | _ => (parseMembers fuel rest).map (fun r => (JSON.obj r.1, r.2))
      else
        match c :: rest with
        | 116 :: 114 :: 117 :: 101 :: rest2 => some (JSON.bool true, rest2)
        | 102 :: 97 :: 108 :: 115 :: 101 :: rest2 => some (JSON.bool false, rest2)
        | 110 :: 117 :: 108 :: 108 :: rest2 => some (JSON.null, rest2)
        | other => (parseNumber other).map (fun r => (JSON.num r.1, r.2))
/-- The elements of an array after its opening bracket, up to the closing
bracket. -/
def parseElements : Nat → List Nat → Option (List JSON × List Nat)
  | 0, _ => none
  | fuel + 1, input =>
    match parseValue fuel input with
    | none => none
    | some (v, rest) =>
      match skipWs rest with
      | 44 :: rest2 => (parseElements fuel rest2).map (fun r => (v :: r.1, r.2))
      | 93 :: rest2 => some ([v], rest2)
      | _ => none
/-- The members of an object after its opening brace, up to the closing
brace. -/
def parseMembers : Nat → List Nat → Option (List (JSString × JSON) × List Nat)
  | 0, _ => none
  | fuel + 1, input =>
    match skipWs input with
    | 34 :: rest =>
      match parseChars (rest.length + 1) rest with
      | none => none
      | some (key, rest1) =>
        match skipWs rest1 with
        | 58 :: rest2 =>
          match parseValue fuel rest2 with
          | none => none
          | some (v, rest3) =>
            match skipWs rest3 with
            | 44 :: rest4 => (parseMembers fuel rest4).map (fun r => ((key, v) :: r.1, r.2))
            | 125 :: rest4 => some ([(key, v)], rest4)
            | _ => none
        | _ => none
    | _ => none
end

/-- The function `JSON.parse(text)`; `none` stands for the `SyntaxError` it
throws. Every step of the parser consumes input, so the fuel given here is
never exhausted before the text is. -/
def JSON.parse (text : JSString) : Option JSON :=
  match parseValue (2 * text.length + 2) text with
  | some (v, rest) => if skipWs rest = [] then some v else none
  | none => none
/-- The input ends the value before it: it starts with a comma, a closing
brace or a closing bracket. -/
def Closes (rest : List Nat) : Prop :=
  ∃ c r, rest = c :: r ∧ (c = 44 ∨ c = 125 ∨ c = 93)

/-- The text is read back as the value `v` by a parser with at least `k` units
of fuel, whatever closes it. -/
def EncodesAt (k : Nat) (text : List Nat) (v : JSON) : Prop :=
  ∀ fuel rest, k ≤ fuel → Closes rest → parseValue fuel (text ++ rest) = some (v, rest)

/-! ## The cart in local storage -/

/-- The member of an optional string field in the value of a cart line. -/
def optionalValue (key : JSString) (value : Option JSString) : List (JSString × JSON) :=
  match value with
  | some s => [(key, JSON.str s)]
  | none => []

/-- The cart line as a JavaScript object: its members in the order in which
the add handlers create them, an absent field having no member. -/
def lineValue (line : CartLine) : JSON :=
  JSON.obj
    ([(js "id", JSON.str line.id), (js "quantity", JSON.num line.quantity)] ++
     optionalValue (js "size") line.size ++ optionalValue (js "dogName") line.dogName ++
     optionalValue (js "note") line.note ++ optionalValue (js "color") line.color)

/-- The cart as a JavaScript value: the array of its lines. -/
def cartValue (CART : List CartLine) : JSON := JSON.arr (CART.map lineValue)

/-- The property `v[key]` of a parsed value, for the keys the cart code reads:
the last member of that name of an object, `none` (`undefined`) otherwise. -/
def JSON.member (v : JSON) (key : JSString) : Option JSON :=
  match v with
  | JSON.obj members => ((members.filter (fun m => m.1 == key)).getLast?).map (fun m => m.2)
  | _ => none

/-- An optional string field of a line item: absent, or a string. -/
def readField (v : JSON) (key : JSString) : Option (Option JSString) :=
  match v.member key with
  | none => some none
  | some (JSON.str s) => some (some s)
  | some _ => none

/-- The value as a line item, when it is one: an object with a string `id`, an
integer `quantity` and, where present, string `size`, `dogName`, `note` and
`color`. -/
def readLine (v : JSON) : Option CartLine :=
  match v.member (js "id"), v.member (js "quantity"), readField v (js "size"),
    readField v (js "dogName"), readField v (js "note"), readField v (js "color") with
  | some (JSON.str id), some (JSON.num q), some size, some dogName, some note, some color =>
    if q.den = 1 then
      some { id := id, quantity := q.num, size := size, dogName := dogName, note := note,
             color := color }
    else none
  | _, _, _, _, _, _ => none

/-- The values as line items, when all of them are. -/
def readLines : List JSON → Option (List CartLine)
  | [] => some []
  | v :: rest =>
    match readLine v, readLines rest with
    | some line, some lines => some (line :: lines)
    | _, _ => none

/-- The value as a cart, when it is an array of line items. -/
def readCart (v : JSON) : Option (List CartLine) :=
  match v with
  | JSON.arr items => readLines items
  | _ => none

/-- Whether the value is an array (`Array.isArray`). -/
def JSON.isArray (v : JSON) : Bool :=
  match v with
  | JSON.arr _ => true
  | _ => false

/-- The browser's local storage as far as the cart is concerned: the string
stored under the key `gf_cart_v1` (`none` when there is no entry) and whether a
write is refused (quota exceeded, storage disabled), in which case `setItem`
throws. -/
structure Storage where
  item : Option JSString := none
  rejectsWrites : Bool := false
  deriving DecidableEq

/-- The call `localStorage.setItem(LS_CART_KEY, value)`; `none` stands for the
exception it throws. -/
def Storage.setItem (ls : Storage) (value : JSString) : Option Storage :=
  if ls.rejectsWrites then none else some { ls with item := some value }

/-- The function `saveCart()` of main.js: the write is wrapped in `try`/`catch`
and a failure is ignored. -/
def saveCart (ls : Storage) (CART : List CartLine) : Storage :=
  match ls.setItem (stringifyCart CART) with
  | some ls2 => ls2
  | none => ls

/-- The function `saveCart()` of product.js: the bare write; `none` stands for
the exception that `setItem` throws and `saveCart` lets through. -/
def saveCartPage (ls : Storage) (CART : List CartLine) : Option Storage :=
  ls.setItem (stringifyCart CART)

/-- The function `loadCart()` (same text in main.js and product.js): the value
assigned to `CART`. -/
def loadCart (ls : Storage) : JSON :=
  match ls.item with
  | none => JSON.arr []
  | some raw =>
    if truthy raw then
      match JSON.parse raw with
      | some v => v
      | none => JSON.arr []
    else JSON.arr []

/-- The members of a cart line with, for each, its text and its value; used to
relate `stringifyLine` and `lineValue`. -/
def optionalEntry (key : JSString) (value : Option JSString) :
    List (JSString × List Nat × JSON) :=
  match value with
  | some s => [(key, quoteJSONString s, JSON.str s)]
  | none => []

/-- The members of a cart line with, for each, its text and its value. -/
def lineEntries (line : CartLine) : List (JSString × List Nat × JSON) :=
  [(js "id", quoteJSONString line.id, JSON.str line.id),
   (js "quantity", decimalInt line.quantity, JSON.num line.quantity)] ++
  optionalEntry (js "size") line.size ++ optionalEntry (js "dogName") line.dogName ++
  optionalEntry (js "note") line.note ++ optionalEntry (js "color") line.color

/-! ## Handlers together with their write to local storage -/

/-- How a click handler ended: whether an exception escaped it, the cart state
it left in memory, and the local storage. -/
structure Run (σ : Type) where
  threw : Bool
  state : σ
  storage : Storage

/-- The function `addToCart(productId)` of main.js with its call of
`saveCart()`, which follows the merge. -/
def addToCartStored (PRODUCTS : List Product) (st : MainState) (ls : Storage)
    (productId : JSString) : Run MainState :=
  match addToCart PRODUCTS st productId with
  | (.added, st2) => { threw := false, state := st2, storage := saveCart ls st2.CART }
  | (_, st2) => { threw := false, state := st2, storage := ls }

/-- The click handler of `modalAddToCartEl` with the `saveCart()` of the
`addToCart` it calls. -/
def modalAddToCartStored (PRODUCTS : List Product) (st : MainState) (ls : Storage)
    (MODAL_PRODUCT_ID : Option JSString) (form : ModalForm) : Run MainState :=
  match modalAddToCartClick PRODUCTS st MODAL_PRODUCT_ID form with
  | (.added, st2) => { threw := false, state := st2, storage := saveCart ls st2.CART }
  | (_, st2) => { threw := false, state := st2, storage := ls }

/-- The click handler of `modalUpdateItemEl` with its call of `saveCart()`,
which follows the rewrite of the line. -/
def modalUpdateItemStored (PRODUCTS : List Product) (st : MainState) (ls : Storage)
    (MODAL_PRODUCT_ID : Option JSString) (EDITING_CART_INDEX : Option Nat)
    (form : ModalForm) : Run MainState :=
  match modalUpdateItemClick PRODUCTS st MODAL_PRODUCT_ID EDITING_CART_INDEX form with
  | (.updated, st2) => { threw := false, state := st2, storage := saveCart ls st2.CART }
  | (_, st2) => { threw := false, state := st2, storage := ls }

/-- The click handler of a `data-qty` button of main.js with its call of
`saveCart()`; the handler returns before it when the index holds no line. -/
def changeQuantityStored (CART : List CartLine) (ls : Storage) (idx : Nat) (delta : Int) :
    Run (List CartLine) :=
  match CART[idx]? with
  | none => { threw := false, state := CART, storage := ls }
  | some _ =>
    { threw := false, state := changeQuantity CART idx delta,
      storage := saveCart ls (changeQuantity CART idx delta) }

/-- The click handler of `#pAdd` (product.js) with its call of `saveCart()`,
which follows the merge; an exception of `saveCart()` escapes the handler,
before `renderCartBadge()`, `renderCart()` and `openCart()`. -/
def pAddStored (product : Product) (form : PageForm) (CART : List CartLine) (ls : Storage) :
    Run (List CartLine) :=
  match pAddClick product form CART with
  | (.added, cart2) =>
    match saveCartPage ls cart2 with
    | some ls2 => { threw := false, state := cart2, storage := ls2 }
    | none => { threw := true, state := cart2, storage := ls }
  | (_, cart2) => { threw := false, state := cart2, storage := ls }

/-- The click handler of a `data-qty` button of product.js with its call of
`saveCart()`. -/
def changeQuantityPageStored (CART : List CartLine) (ls : Storage) (idx : Nat) (delta : Int) :
    Run (List CartLine) :=
  match CART[idx]? with
  | none => { threw := false, state := CART, storage := ls }
  | some _ =>
    match saveCartPage ls (changeQuantity CART idx delta) with
    | some ls2 => { threw := false, state := changeQuantity CART idx delta, storage := ls2 }
    | none => { threw := true, state := changeQuantity CART idx delta, storage := ls }

/-- The click handler of a `data-remove` button of product.js with its call of
`saveCart()`. -/
def removeLineStored (CART : List CartLine) (ls : Storage) (idx : Nat) :
    Run (List CartLine) :=
  match saveCartPage ls (removeLine CART idx) with
  | some ls2 => { threw := false, state := removeLine CART idx, storage := ls2 }
  | none => { threw := true, state := removeLine CART idx, storage := ls }

/-- A local storage that refuses every write. -/
def fullStorage : Storage := { item := none, rejectsWrites := true }

/-! ## The server (server.js) -/

/-- Truthiness of a parsed value. -/
def JSON.truthy (v : JSON) : Bool :=
  match v with
  | JSON.null => false
  | JSON.bool b => b
  | JSON.num q => decide (q ≠ 0)
  | JSON.str s => !s.isEmpty
  | JSON.arr _ => true
  | JSON.obj _ => true

/-- Truthiness of a property that may be `undefined`. -/
def truthyProp (v : Option JSON) : Bool :=
  match v with
  | some x => x.truthy
  | none => false

/-- The assignment `v[key] = value` on an object: the member is replaced where
it exists and added at the end otherwise. -/
def JSON.setMember (v : JSON) (key : JSString) (value : JSON) : JSON :=
  match v with
  | JSON.obj members =>
    if members.any (fun m => m.1 == key) then
      JSON.obj (members.map (fun m => if m.1 == key then (key, value) else m))
    else JSON.obj (members ++ [(key, value)])
  | other => other

/-- The answer of the admin save handler: status 400, status 500 (an exception
escaped the handler and Express answered for it), or status 200 with `ok` and
`count`, after `writeProducts(products)`. -/
inductive AdminSaveResult where
  | badRequest
  | serverError
  | saved (products : List JSON) (count : Nat)

/-- The loop `for (const p of products)` of the admin save handler. The result
is `none` when the loop returns the 400 answer and the list with the ids filled
in when it completes; `Except.error` stands for the `TypeError` thrown by
reading `p.id` of `null`. -/
def ensureIds : List JSON → Except Unit (Option (List JSON))
  | [] => .ok (some [])
  | p :: rest =>
    match p with
    | JSON.null => .error ()
    | _ =>
      if !truthyProp (p.member (js "id")) then
        match p.member (js "slug") with
        | some slug =>
          if slug.truthy then
            match ensureIds rest with
            | .ok (some done) => .ok (some (p.setMember (js "id") slug :: done))
            | other => other
          else .ok none
        | none => .ok none
      else
        match ensureIds rest with
        | .ok (some done) => .ok (some (p :: done))
        | other => other

/-- The handler of `POST /api/admin/products`, for the parsed request body. -/
def saveProducts (body : JSON) : AdminSaveResult :=
  match body with
  | JSON.arr products =>
    match ensureIds products with
    | .error _ => .serverError
    | .ok none => .badRequest
    | .ok (some done) => .saved done done.length
  | _ => .badRequest

/-- An entry of the catalog file as the checkout handler reads it. -/
structure CatalogProduct where
  id : JSString
  name : JSString := []
  description : JSString := []
  price : ℚ := 0
  deriving DecidableEq

/-- An element of `items` in the body of a checkout request: the id and the
quantity, and whatever else the client sends (a price, the options of the cart
line). -/
structure CheckoutItem where
  id : JSString
  quantity : Option Int := none
  price : Option ℚ := none
  size : Option JSString := none
  dogName : Option JSString := none
  note : Option JSString := none
  color : Option JSString := none
  deriving DecidableEq

/-- An element of `line_items` handed to the payment service. -/
structure LineItem where
  currency : JSString
  name : JSString
  description : JSString
  unit_amount : Int
  quantity : Int
  deriving DecidableEq

/-- The function `Math.round`, on exact rationals: the nearest integer, a half
rounding up. -/
def mathRound (x : ℚ) : Int := ⌊x + 1 / 2⌋

/-- The callback of `items.map` in the checkout handler; `none` stands for the
error it throws when the product is not found. -/
def lineItemFor (products : List CatalogProduct) (item : CheckoutItem) : Option LineItem :=
  match products.find? (fun p => p.id == item.id) with
  | none => none
  | some product =>
    some { currency := js "usd", name := product.name, description := product.description,
           unit_amount := mathRound (product.price * 100),
           quantity := match item.quantity with
             | some q => if q ≠ 0 then q else 1
             | none => 1 }

/-- The call `items.map(...)` of the checkout handler; `none` when the callback
throws. -/
def buildLineItems (products : List CatalogProduct) :
    List CheckoutItem → Option (List LineItem)
  | [] => some []
  | item :: rest =>
    match lineItemFor products item with
    | none => none
    | some li =>
      match buildLineItems products rest with
      | none => none
      | some lis => some (li :: lis)

/-- The answer of the checkout handler: status 500 because the payment service
is not configured, status 500 because building the line items threw, or the
call of `stripe.checkout.sessions.create` with the line items. -/
inductive CheckoutResult where
  | notConfigured
  | failed
  | session (line_items : List LineItem)
  deriving DecidableEq

/-- The handler of `POST /api/create-checkout-session`; `items` is `none` when
the body has no `items`. -/
def createCheckoutSession (stripeConfigured : Bool) (products : List CatalogProduct)
    (items : Option (List CheckoutItem)) : CheckoutResult :=
  if !stripeConfigured then .notConfigured
  else
    match items with
    | none => .failed
    | some list =>
      match buildLineItems products list with
      | none => .failed
      | some line_items => .session line_items

/-- The catalog entry of the bandana, priced 12.50. -/
def catalogBandana : CatalogProduct :=
  { id := js "bandana", name := js "Bandana", description := js "Cotton", price := 25 / 2 }

/-! ## The rate handler (server.js) -/

/-- An entry of the catalog file as the rate handler reads and writes it. A
rating field is `none` when it is absent or `null`; a number that is not finite
is written to the file as `null`. -/
structure RatedProduct where
  id : JSString
  ratingCount : Option ℚ := none
  ratingTotal : Option ℚ := none
  ratingAverage : Option ℚ := none
  deriving DecidableEq

/-- The value of `rating` in the request body, for the values that JavaScript
converts to a number without reading a text: absent, `null`, a boolean or a
number. A string, an array or an object, which the comparisons and the sum
convert as well, is not modelled. -/
inductive Rating where
  | absent
  | null
  | bool (b : Bool)
  | number (q : ℚ)
  deriving DecidableEq

/-- Truthiness of a rating. -/
def Rating.truthy : Rating → Bool
  | .absent => false
  | .null => false
  | .bool b => b
  | .number q => decide (q ≠ 0)

/-- The number that a comparison or a sum makes of a rating (`ToNumber`). An
absent rating gives `NaN`; it is not truthy, so the handler never uses its
number, which is 0 here. -/
def Rating.toNumber : Rating → ℚ
  | .absent => 0
  | .null => 0
  | .bool b => if b then 1 else 0
  | .number q => q

/-- The test `!rating || rating < 1 || rating > 5` of the rate handler. -/
def ratingRejected (rating : Rating) : Bool :=
  !rating.truthy || decide (rating.toNumber < 1) || decide (rating.toNumber > 5)

/-- The expression `x || 0` for a rating field. -/
def orZero (x : Option ℚ) : ℚ :=
  match x with
  | some q => if q ≠ 0 then q else 0
  | none => 0

/-- The five assignments of the rate handler to the product it found. The
quotient by a count of zero is not a finite number. -/
def applyRating (product : RatedProduct) (rating : Rating) : RatedProduct :=
  let ratingCount := orZero product.ratingCount + 1
  let ratingTotal := orZero product.ratingTotal + rating.toNumber
  { product with
    ratingCount := some ratingCount
    ratingTotal := some ratingTotal
    ratingAverage := if ratingCount = 0 then none else some (ratingTotal / ratingCount) }

/-- The catalog after the mutation of the object that
`products.find(p => p.id === productId)` returns: the first entry of that id is
replaced by its mutated form; `none` when no entry has the id. -/
def rateFirst (productId : JSString) (rating : Rating) :
    List RatedProduct → Option (List RatedProduct)
  | [] => none
  | p :: rest =>
    if p.id == productId then some (applyRating p rating :: rest)
    else (rateFirst productId rating rest).map (fun r => p :: r)

/-- The answer of the rate handler: status 400, status 404, or status 200 after
`writeProducts(products)` with the catalog given. -/
inductive RateResult where
  | badRequest
  | notFound
  | saved (products : List RatedProduct)
  deriving DecidableEq

/-- The handler of `POST /api/products/:id/rate`, for the catalog it reads. -/
def rateProduct (products : List RatedProduct) (productId : JSString) (rating : Rating) :
    RateResult :=
  if ratingRejected rating then .badRequest
  else
    match rateFirst productId rating products with
    | none => .notFound
    | some written => .saved written

/-- The catalog entry of the bandana before any rating. -/
def unratedBandana : RatedProduct := { id := js "bandana" }

/-! ## The gallery of the product page (product.js) -/

/-- The fields of a product that the gallery reads: `image` (the empty string
when absent), `images` (`none` when it is not an array; an entry that is not a
non-empty string is the empty string) and `options`. -/
structure GalleryProduct where
  image : JSString := []
  images : Option (List JSString) := none
  options : Option Options := none
  deriving DecidableEq

/-- The function `getDisplayImage(product, selectedColor)` of product.js. -/
def getDisplayImage (product : GalleryProduct) (selectedColor : JSString) : JSString :=
  let opt : Options := product.options.getD {}
  match opt.colors with
  | some colors =>
    if truthy selectedColor then
      match colors.find? (fun x => x.value == selectedColor) with
      | some c => if truthy c.image then c.image else product.image
      | none => product.image
    else product.image
  | none => product.image

/-- The body of the loop `for (const src of list)` of `getGalleryImages`. -/
def pushNew (out : List JSString) (src : JSString) : List JSString :=
  if truthy src && !out.contains src then out ++ [src] else out

/-- The function `getGalleryImages(product, selectedColor)` of product.js. -/
def getGalleryImages (product : GalleryProduct) (selectedColor : JSString) : List JSString :=
  let swatchImg := getDisplayImage product selectedColor
  let out0 : List JSString := if truthy swatchImg then [swatchImg] else []
  let list : List JSString := product.images.getD []
  let out1 := list.foldl pushNew out0
  let out2 := if out1.length == 0 && truthy product.image then out1 ++ [product.image] else out1
  (out2.filter truthy).take 10

/-- A product with a main image and two more images, offered in red (with a
swatch image) and in blue (without). -/
def galleryProduct : GalleryProduct :=
  { image := js "main.jpg", images := some [js "a.jpg", js "b.jpg"],
    options := some { colors := some [{ value := js "red", image := js "red.jpg" },
                                      { value := js "blue" }] } }

/-! ## Uniqueness of cart lines -/

/-- Two lines have the same product id and the same four option fields, an
absent field counting as the empty string, as the merge compares them. -/
def sameKey (a b : CartLine) : Prop :=
  a.id = b.id ∧ orEmpty a.size = orEmpty b.size ∧ orEmpty a.dogName = orEmpty b.dogName ∧
    orEmpty a.note = orEmpty b.note ∧ orEmpty a.color = orEmpty b.color

instance (a b : CartLine) : Decidable (sameKey a b) := by
  unfold sameKey; infer_instance

/-- No two lines of the cart have the same product id and option fields. -/
def UniqueLines (CART : List CartLine) : Prop :=
  CART.Pairwise (fun a b => ¬ sameKey a b)

instance (CART : List CartLine) : Decidable (UniqueLines CART) := by
  unfold UniqueLines; infer_instance

/-- Two lines have the same product id and literally the same four option
fields, an absent field differing from an empty one. -/
def sameFields (a b : CartLine) : Prop :=
  a.id = b.id ∧ a.size = b.size ∧ a.dogName = b.dogName ∧ a.note = b.note ∧ a.color = b.color

instance (a b : CartLine) : Decidable (sameFields a b) := by
  unfold sameFields; infer_instance

/-- No two lines of the cart have the same product id and literally the same
option fields. -/
def DistinctLines (CART : List CartLine) : Prop :=
  CART.Pairwise (fun a b => ¬ sameFields a b)

instance (CART : List CartLine) : Decidable (DistinctLines CART) := by
  unfold DistinctLines; infer_instance

/-- A product `"p"` that requires a size and offers and prompts for a dog
name. -/
def fullProduct : Product :=
  { id := js "p", price := 10,
    options := some { sizes := some [.bare (js "M")], sizesRequired := true, dogName := true,
                      dogNamePrompt := true } }

/-! # Theorems -/

/-! ## Name normalisation -/

theorem trim_eq_nil_iff (s : JSString) : trim s = [] ↔ onlyWhiteSpace s := by
  unfold trim onlyWhiteSpace
  rw [List.reverse_eq_nil_iff, List.dropWhile_eq_nil_iff]
  constructor
  · intro h
    have h2 : s.dropWhile isWhiteSpace = [] := by
      by_contra hne
      have hhead := List.head_dropWhile_not isWhiteSpace s hne
      have hmem : (s.dropWhile isWhiteSpace).head hne ∈ (s.dropWhile isWhiteSpace).reverse :=
        List.mem_reverse.mpr (List.head_mem hne)
      rw [h _ hmem] at hhead
      exact absurd hhead (by simp)
    exact List.dropWhile_eq_nil_iff.mp h2
  · intro h
    have h2 : s.dropWhile isWhiteSpace = [] := List.dropWhile_eq_nil_iff.mpr h
    simp [h2]

theorem canonicalize_eq_iff (a b : Nat) :
    canonicalize a = canonicalize b ↔ asciiLower a = asciiLower b := by
  unfold canonicalize asciiLower
  split_ifs <;> omega

theorem matchesWord_iff (word v : JSString) :
    matchesWord word v = true ↔ equalsIgnoringCase v word := by
  unfold matchesWord equalsIgnoringCase
  rw [beq_iff_eq]
  induction v generalizing word with
  | nil => cases word <;> simp
  | cons a v ih =>
    cases word with
    | nil => simp
    | cons b word =>
      simp only [List.map_cons, List.cons.injEq]
      rw [ih word, canonicalize_eq_iff]

theorem blankOrNoneTest_iff (v : JSString) :
    blankOrNoneTest v = true ↔
      (equalsIgnoringCase v (js "blank") ∨ equalsIgnoringCase v (js "none")) := by
  unfold blankOrNoneTest
  rw [Bool.or_eq_true, matchesWord_iff, matchesWord_iff]

theorem normalizeDogName_of_onlyWhiteSpace (raw : JSString) (h : onlyWhiteSpace raw) :
    normalizeDogName raw = none := by
  have h1 : trim raw = [] := (trim_eq_nil_iff raw).mpr h
  simp [normalizeDogName, truthy, h1]

theorem normalizeDogName_of_visible (raw : JSString) (h : ¬ onlyWhiteSpace raw) :
    normalizeDogName raw =
      if blankOrNoneTest (trim raw) then some (js "none")
      else if (trim raw).length > 15 then some ((trim raw).take 15) else some (trim raw) := by
  have h1 : trim raw ≠ [] := fun e => h ((trim_eq_nil_iff raw).mp e)
  simp [normalizeDogName, truthy, h1]

/-- C3. `normalizeDogName(raw)` is `null` when `raw` is empty or white space
only; `"none"` when the trimmed input is "blank" or "none" ignoring case;
otherwise the trimmed input when it has at most 15 code units and its first 15
code units when it is longer. `"  Rex  "` gives `"Rex"`, `"BLANK"` gives
`"none"`, `""` is invalid and twenty `a` give fifteen `a`. -/
theorem normalizeDogName_spec (raw : JSString) :
    (onlyWhiteSpace raw → normalizeDogName raw = none) ∧
    (¬ onlyWhiteSpace raw → isEscapeToken raw → normalizeDogName raw = some (js "none")) ∧
    (¬ onlyWhiteSpace raw → ¬ isEscapeToken raw → (trim raw).length ≤ 15 →
      normalizeDogName raw = some (trim raw)) ∧
    (¬ onlyWhiteSpace raw → ¬ isEscapeToken raw → 15 < (trim raw).length →
      normalizeDogName raw = some ((trim raw).take 15)) ∧
    normalizeDogName (js "  Rex  ") = some (js "Rex") ∧
    normalizeDogName (js "BLANK") = some (js "none") ∧
    normalizeDogName (js "") = none ∧
    normalizeDogName (List.replicate 20 97) = some (List.replicate 15 97) := by
  refine ⟨normalizeDogName_of_onlyWhiteSpace raw, ?_, ?_, ?_, by decide, by decide, by decide,
    by decide⟩
  · intro h he
    rw [normalizeDogName_of_visible raw h, if_pos ((blankOrNoneTest_iff _).mpr he)]
  · intro h he hlen
    have hb : ¬ blankOrNoneTest (trim raw) = true := fun hb => he ((blankOrNoneTest_iff _).mp hb)
    rw [normalizeDogName_of_visible raw h, if_neg hb, if_neg (by omega)]
  · intro h he hlen
    have hb : ¬ blankOrNoneTest (trim raw) = true := fun hb => he ((blankOrNoneTest_iff _).mp hb)
    rw [normalizeDogName_of_visible raw h, if_neg hb, if_pos (by omega)]

/-- Witness of C3 at the input `" A very long dog name "`: it is not white
space only, is not an escape token, its trimmed form has 20 code units, and the
result is the first 15 of them. -/
theorem normalizeDogName_spec_witness :
    ¬ onlyWhiteSpace (js " A very long dog name ") ∧
    ¬ isEscapeToken (js " A very long dog name ") ∧
    15 < (trim (js " A very long dog name ")).length ∧
    normalizeDogName (js " A very long dog name ") = some (js "A very long dog") :=
  ⟨by decide, by decide, by decide,
    ((normalizeDogName_spec (js " A very long dog name ")).2.2.2.1
      (by decide) (by decide) (by decide)).trans (by decide)⟩

/-! ## The merge step -/

theorem keyMatch_iff (productId : JSString) (readySel : Selection) (item : CartLine) :
    keyMatch productId readySel item = true ↔
      SameLine productId readySel.size readySel.dogName readySel.note readySel.color item := by
  simp [keyMatch, SameLine, and_assoc]

theorem keyMatchLine_iff (line item : CartLine) :
    keyMatchLine line item = true ↔
      SameLine line.id (orEmpty line.size) (orEmpty line.dogName) (orEmpty line.note)
        (orEmpty line.color) item := by
  simp [keyMatchLine, SameLine, and_assoc]

theorem incrementFirst_eq_none (pred : CartLine → Bool) (l : List CartLine)
    (h : ∀ x ∈ l, pred x = false) : incrementFirst pred l = none := by
  induction l with
  | nil => rfl
  | cons a l ih =>
    have ha : pred a = false := h a (List.mem_cons_self a l)
    simp [incrementFirst, ha, ih (fun x hx => h x (List.mem_cons_of_mem a hx))]

theorem incrementFirst_of_mem (pred : CartLine → Bool) (l : List CartLine)
    (h : ∃ x ∈ l, pred x = true) :
    ∃ pre item post, l = pre ++ item :: post ∧ (∀ x ∈ pre, pred x = false) ∧
      pred item = true ∧
      incrementFirst pred l =
        some (pre ++ { item with quantity := item.quantity + 1 } :: post) := by
  induction l with
  | nil => simp at h
  | cons a l ih =>
    by_cases ha : pred a = true
    · exact ⟨[], a, l, rfl, by simp, ha, by simp [incrementFirst, ha]⟩
    · have ha2 : pred a = false := by simpa using ha
      have h2 : ∃ x ∈ l, pred x = true := by
        obtain ⟨x, hx, hp⟩ := h
        rcases List.mem_cons.mp hx with rfl | hx
        · exact absurd hp ha
        · exact ⟨x, hx, hp⟩
      obtain ⟨pre, item, post, hl, hpre, hitem, hinc⟩ := ih h2
      refine ⟨a :: pre, item, post, by simp [hl], ?_, hitem, ?_⟩
      · intro x hx
        rcases List.mem_cons.mp hx with rfl | hx
        · exact ha2
        · exact hpre x hx
      · simp [incrementFirst, ha2, hinc]

/-! ## The selection store -/

theorem getSel_fst (S : Selections) (id : JSString) : (getSel S id).1 = (S id).getD {} := by
  unfold getSel; cases h : S id <;> simp

theorem getSel_snd_self (S : Selections) (id : JSString) :
    (getSel S id).2 id = some ((S id).getD {}) := by
  unfold getSel; cases h : S id <;> simp [h, Selections.store]

theorem setSel_self (S : Selections) (id : JSString) (patch : Patch) :
    setSel S id patch id = some (((S id).getD {}).merge patch) := by
  unfold setSel getSel; cases h : S id <;> simp [Selections.store]

theorem getSel_of_some (S : Selections) (id : JSString) (s : Selection) (h : S id = some s) :
    getSel S id = (s, S) := by
  unfold getSel; simp [h]

theorem getSel_setSel (S : Selections) (id : JSString) (patch : Patch) :
    getSel (setSel S id patch) id = (((S id).getD {}).merge patch, setSel S id patch) :=
  getSel_of_some _ _ _ (setSel_self S id patch)

theorem getSel_getSel (S : Selections) (id : JSString) :
    getSel (getSel S id).2 id = ((S id).getD {}, (getSel S id).2) :=
  getSel_of_some _ _ _ (getSel_snd_self S id)

/-- What `addToCart` returns for a product of the catalog, through the closed
form `readySelection`. -/
theorem addToCart_eq (PRODUCTS : List Product) (st : MainState) (id : JSString) (p : Product)
    (hp : findProduct PRODUCTS id = some p) :
    match readySelection (getOptions (some p)) ((st.SELECTIONS id).getD {}) with
    | .error o => (addToCart PRODUCTS st id).1 = o ∧ (addToCart PRODUCTS st id).2.CART = st.CART
    | .ok readySel =>
      (addToCart PRODUCTS st id).1 = .added ∧
      (addToCart PRODUCTS st id).2.CART = mergeIntoCart id readySel st.CART ∧
      (addToCart PRODUCTS st id).2.SELECTIONS id = some readySel := by
  generalize hopt : getOptions (some p) = opt
  generalize hs0 : (st.SELECTIONS id).getD {} = s0
  have e1 : getSel st.SELECTIONS id = (s0, (getSel st.SELECTIONS id).2) := by
    rw [← hs0, ← getSel_fst]
  have e2 : getSel (getSel st.SELECTIONS id).2 id = (s0, (getSel st.SELECTIONS id).2) := by
    rw [getSel_getSel, hs0]
  unfold addToCart readySelection withDefaultColor
  rw [hp]
  simp only [hopt]
  rw [e1]
  simp only []
  cases hc : opt.colors with
  | none =>
    simp only [e2]
    by_cases h1 : (opt.sizesRequired && !truthy s0.size) = true
    · simp [h1]
    · by_cases h2 : (opt.dogName && opt.dogNamePrompt) = true
      · cases hn : normalizeDogName s0.dogName with
        | none => simp [h1, h2, hn]
        | some n =>
          simp [h1, h2, hn, getSel_setSel, setSel_self, getSel_snd_self, hs0, Selection.merge]
      · simp [h1, h2, e2, getSel_snd_self, hs0]
  | some colors =>
    by_cases hcol : truthy s0.color = true
    · simp only [hcol, Bool.not_true, Bool.false_eq_true, if_false, e2]
      by_cases h1 : (opt.sizesRequired && !truthy s0.size) = true
      · simp [h1]
      · by_cases h2 : (opt.dogName && opt.dogNamePrompt) = true
        · cases hn : normalizeDogName s0.dogName with
          | none => simp [h1, h2, hn]
          | some n =>
            simp [h1, h2, hn, getSel_setSel, setSel_self, getSel_snd_self, hs0, Selection.merge]
        · simp [h1, h2, e2, getSel_snd_self, hs0]
    · have hcol2 : truthy s0.color = false := by simpa using hcol
      simp only [hcol2, Bool.not_false, if_true, getSel_setSel, getSel_snd_self, hs0]
      by_cases h1 : (opt.sizesRequired && !truthy s0.size) = true
      · simp [h1, Selection.merge]
      · by_cases h2 : (opt.dogName && opt.dogNamePrompt) = true
        · cases hn : normalizeDogName s0.dogName with
          | none => simp [h1, h2, hn, Selection.merge]
          | some n =>
            simp [h1, h2, hn, getSel_setSel, setSel_self, getSel_snd_self, hs0, Selection.merge]
        · simp [h1, h2, getSel_setSel, setSel_self, getSel_snd_self, hs0, Selection.merge]

theorem readySelection_size (opt : Options) (s0 : Selection)
    (hreq : opt.sizesRequired = true) (hsize : s0.size = []) :
    readySelection opt s0 = .error .sizeRequired := by
  unfold readySelection withDefaultColor
  cases hc : opt.colors with
  | none => simp [hreq, hsize, truthy]
  | some colors =>
    by_cases hcol : s0.color = [] <;> simp [hreq, hsize, truthy, hcol]

theorem readySelection_sized (opt : Options) (s0 : Selection)
    (hsize : opt.sizesRequired = true → s0.size ≠ []) :
    readySelection opt s0 =
      if opt.dogName && opt.dogNamePrompt then
        match normalizeDogName s0.dogName with
        | none => .error .nameRequired
        | some normalized =>
          .ok { s0 with
                dogName := normalized
                color := match opt.colors with
                  | some colors => if truthy s0.color then s0.color else firstColorValue colors
                  | none => s0.color }
      else
        .ok { s0 with
              color := match opt.colors with
                | some colors => if truthy s0.color then s0.color else firstColorValue colors
                | none => s0.color } := by
  have h1 : ¬ (opt.sizesRequired = true ∧ s0.size = []) := fun h => hsize h.1 h.2
  unfold readySelection withDefaultColor
  cases hc : opt.colors with
  | none =>
    by_cases h2 : (opt.dogName && opt.dogNamePrompt) = true
    · cases hn : normalizeDogName s0.dogName <;> simp_all [truthy]
    · simp_all [truthy]
  | some colors =>
    by_cases hcol : s0.color = []
    · by_cases h2 : (opt.dogName && opt.dogNamePrompt) = true
      · cases hn : normalizeDogName s0.dogName <;> simp_all [truthy]
      · simp_all [truthy]
    · by_cases h2 : (opt.dogName && opt.dogNamePrompt) = true
      · cases hn : normalizeDogName s0.dogName <;> simp_all [truthy]
      · simp_all [truthy]

theorem readySelection_error (opt : Options) (s0 : Selection) (o : Outcome)
    (h : readySelection opt s0 = .error o) : o = .sizeRequired ∨ o = .nameRequired := by
  unfold readySelection at h
  generalize withDefaultColor opt s0 = s1 at h
  simp only [] at h
  split at h
  · cases h; exact Or.inl rfl
  · split at h
    · split at h
      · cases h; exact Or.inr rfl
      · cases h
    · cases h

theorem addToCart_added (PRODUCTS : List Product) (st st2 : MainState) (id : JSString)
    (h : addToCart PRODUCTS st id = (.added, st2)) :
    ∃ readySel, st2.SELECTIONS id = some readySel ∧
      st2.CART = mergeIntoCart id readySel st.CART := by
  cases hp : findProduct PRODUCTS id with
  | none => simp [addToCart, hp] at h
  | some p =>
    have key := addToCart_eq PRODUCTS st id p hp
    cases hr : readySelection (getOptions (some p)) ((st.SELECTIONS id).getD {}) with
    | error o =>
      rw [hr] at key
      have ho : o = .added := by rw [← key.1, h]
      rcases readySelection_error _ _ _ hr with h1 | h1 <;> rw [h1] at ho <;> cases ho
    | ok readySel =>
      rw [hr] at key
      refine ⟨readySel, ?_, ?_⟩
      · rw [← key.2.2, h]
      · rw [← key.2.1, h]

theorem pAddClick_added (product : Product) (form : PageForm) (CART CART2 : List CartLine)
    (h : pAddClick product form CART = (.added, CART2)) :
    ∃ line : CartLine, line.id = product.id ∧ line.quantity = 1 ∧
      CART2 = mergeLine line CART := by
  unfold pAddClick at h
  generalize elValue form.sizeEl = sizeVal at h
  generalize elValue form.dogEl = dogVal at h
  generalize trim (elValue form.noteEl) = noteVal at h
  simp only [] at h
  split at h
  · cases h
  · split at h
    · cases h
    · simp only [Prod.mk.injEq, true_and] at h
      exact ⟨_, rfl, rfl, h.symm⟩

/-- C2. The merge step of `addToCart` (main.js) and of the product-page add
handler (product.js): when some line has the same product id and pairwise
equal size, dogName, note and color (an absent field counting as the empty
string), the first such line has its quantity incremented by 1 and nothing
else changes; when no line does, one new line of quantity 1 is appended at the
end and the existing lines are unchanged. Both handlers commit through this
step, the product page with a line of quantity 1. -/
theorem addOrIncrement_spec (productId : JSString) (readySel : Selection) (line : CartLine)
    (CART : List CartLine) :
    ((∃ item ∈ CART,
        SameLine productId readySel.size readySel.dogName readySel.note readySel.color item) →
      ∃ pre item post, CART = pre ++ item :: post ∧
        (∀ x ∈ pre,
          ¬ SameLine productId readySel.size readySel.dogName readySel.note readySel.color x) ∧
        SameLine productId readySel.size readySel.dogName readySel.note readySel.color item ∧
        mergeIntoCart productId readySel CART =
          pre ++ { item with quantity := item.quantity + 1 } :: post) ∧
    ((¬ ∃ item ∈ CART,
        SameLine productId readySel.size readySel.dogName readySel.note readySel.color item) →
      mergeIntoCart productId readySel CART =
        CART ++ [{ id := productId, quantity := 1, size := some readySel.size,
                   dogName := some readySel.dogName, note := some readySel.note,
                   color := some readySel.color }]) ∧
    ((∃ item ∈ CART,
        SameLine line.id (orEmpty line.size) (orEmpty line.dogName) (orEmpty line.note)
          (orEmpty line.color) item) →
      ∃ pre item post, CART = pre ++ item :: post ∧
        (∀ x ∈ pre,
          ¬ SameLine line.id (orEmpty line.size) (orEmpty line.dogName) (orEmpty line.note)
            (orEmpty line.color) x) ∧
        SameLine line.id (orEmpty line.size) (orEmpty line.dogName) (orEmpty line.note)
          (orEmpty line.color) item ∧
        mergeLine line CART = pre ++ { item with quantity := item.quantity + 1 } :: post) ∧
    ((¬ ∃ item ∈ CART,
        SameLine line.id (orEmpty line.size) (orEmpty line.dogName) (orEmpty line.note)
          (orEmpty line.color) item) →
      mergeLine line CART = CART ++ [line]) ∧
    (∀ PRODUCTS SELECTIONS st2,
      addToCart PRODUCTS { SELECTIONS := SELECTIONS, CART := CART } productId = (.added, st2) →
      ∃ sel, st2.SELECTIONS productId = some sel ∧
        st2.CART = mergeIntoCart productId sel CART) ∧
    (∀ product form CART2, pAddClick product form CART = (.added, CART2) →
      ∃ committed : CartLine, committed.id = product.id ∧ committed.quantity = 1 ∧
        CART2 = mergeLine committed CART) := by
  refine ⟨?_, ?_, ?_, ?_, ?_, ?_⟩
  · rintro ⟨x, hx, hs⟩
    obtain ⟨pre, item, post, hl, hpre, hitem, hinc⟩ :=
      incrementFirst_of_mem (keyMatch productId readySel) CART
        ⟨x, hx, (keyMatch_iff _ _ _).mpr hs⟩
    refine ⟨pre, item, post, hl, ?_, (keyMatch_iff _ _ _).mp hitem, ?_⟩
    · intro y hy hsame
      have := hpre y hy
      rw [(keyMatch_iff _ _ _).mpr hsame] at this
      cases this
    · simp [mergeIntoCart, hinc]
  · intro hno
    have hnone : incrementFirst (keyMatch productId readySel) CART = none := by
      apply incrementFirst_eq_none
      intro x hx
      cases hk : keyMatch productId readySel x with
      | false => rfl
      | true => exact absurd ⟨x, hx, (keyMatch_iff _ _ _).mp hk⟩ hno
    simp [mergeIntoCart, hnone]
  · rintro ⟨x, hx, hs⟩
    obtain ⟨pre, item, post, hl, hpre, hitem, hinc⟩ :=
      incrementFirst_of_mem (keyMatchLine line) CART ⟨x, hx, (keyMatchLine_iff _ _).mpr hs⟩
    refine ⟨pre, item, post, hl, ?_, (keyMatchLine_iff _ _).mp hitem, ?_⟩
    · intro y hy hsame
      have := hpre y hy
      rw [(keyMatchLine_iff _ _).mpr hsame] at this
      cases this
    · simp [mergeLine, hinc]
  · intro hno
    have hnone : incrementFirst (keyMatchLine line) CART = none := by
      apply incrementFirst_eq_none
      intro x hx
      cases hk : keyMatchLine line x with
      | false => rfl
      | true => exact absurd ⟨x, hx, (keyMatchLine_iff _ _).mp hk⟩ hno
    simp [mergeLine, hnone]
  · intro PRODUCTS SELECTIONS st2 h
    exact addToCart_added PRODUCTS _ st2 productId h
  · intro product form CART2 h
    exact pAddClick_added product form CART CART2 h

/-- Witness of C2: in the cart `[lineL, lineM]` the selection of size `"M"`
matches the second line, which is incremented; the selection of size `"S"`
matches no line of `[lineL]` and is appended. -/
theorem addOrIncrement_spec_witness :
    (∃ item ∈ [lineL, lineM], SameLine (js "p") (js "M") [] [] [] item) ∧
    (∃ pre item post, [lineL, lineM] = pre ++ item :: post ∧
        (∀ x ∈ pre, ¬ SameLine (js "p") (js "M") [] [] [] x) ∧
        SameLine (js "p") (js "M") [] [] [] item ∧
        mergeIntoCart (js "p") { size := js "M" } [lineL, lineM] =
          pre ++ { item with quantity := item.quantity + 1 } :: post) ∧
    (¬ ∃ item ∈ [lineL], SameLine (js "p") (js "S") [] [] [] item) ∧
    mergeIntoCart (js "p") { size := js "S" } [lineL] =
      [lineL, { id := js "p", quantity := 1, size := some (js "S"), dogName := some [],
                note := some [], color := some [] }] :=
  ⟨by decide,
   (addOrIncrement_spec (js "p") { size := js "M" } lineM [lineL, lineM]).1 (by decide),
   by decide,
   (addOrIncrement_spec (js "p") { size := js "S" } lineM [lineL]).2.1 (by decide)⟩

/-! ## Validation -/

/-- C4. For a product whose options have `sizesRequired` set and a selection
whose size is empty, `addToCart` (main.js) and the product-page add handler
(product.js) signal the size error and leave the cart as it was. -/
theorem size_required_rejects (PRODUCTS : List Product) (st : MainState) (productId : JSString)
    (p : Product) (form : PageForm) (CART : List CartLine) :
    (findProduct PRODUCTS productId = some p →
      (getOptions (some p)).sizesRequired = true →
      (getSel st.SELECTIONS productId).1.size = [] →
      (addToCart PRODUCTS st productId).1 = .sizeRequired ∧
        (addToCart PRODUCTS st productId).2.CART = st.CART) ∧
    ((getOptions (some p)).sizesRequired = true → elValue form.sizeEl = [] →
      pAddClick p form CART = (.sizeRequired, CART)) := by
  constructor
  · intro hp hreq hsize
    rw [getSel_fst] at hsize
    have key := addToCart_eq PRODUCTS st productId p hp
    rw [readySelection_size _ _ hreq hsize] at key
    exact key
  · intro hreq hsize
    have hreq2 : (p.options.getD {}).sizesRequired = true := hreq
    unfold pAddClick
    simp [hreq2, hsize, truthy]

/-- Witness of C4: the product `sizedProduct` with no stored selection, and
the product page with an empty size input, on the cart `[lineM]`. -/
theorem size_required_rejects_witness :
    findProduct [sizedProduct] (js "p") = some sizedProduct ∧
    (getOptions (some sizedProduct)).sizesRequired = true ∧
    (getSel (freshState [lineM]).SELECTIONS (js "p")).1.size = [] ∧
    ((addToCart [sizedProduct] (freshState [lineM]) (js "p")).1 = .sizeRequired ∧
      (addToCart [sizedProduct] (freshState [lineM]) (js "p")).2.CART = [lineM]) ∧
    pAddClick sizedProduct { sizeEl := some [] } [lineM] = (.sizeRequired, [lineM]) :=
  ⟨by decide, by decide, by decide,
   (size_required_rejects [sizedProduct] (freshState [lineM]) (js "p") sizedProduct
      { sizeEl := some [] } [lineM]).1 (by decide) (by decide) (by decide),
   (size_required_rejects [sizedProduct] (freshState [lineM]) (js "p") sizedProduct
      { sizeEl := some [] } [lineM]).2 (by decide) (by decide)⟩

/-- C5. For a product with `dogName` and `dogNamePrompt` both set, the size
rule satisfied, and a name that is empty or white space only, `addToCart` and
the product-page add handler signal the name error and leave the cart as it
was. For a product where `dogName` or `dogNamePrompt` is not set, neither
handler ever signals the name error, and with the size rule satisfied it
commits whatever the name is. -/
theorem name_required_rejects (PRODUCTS : List Product) (st : MainState) (productId : JSString)
    (p : Product) (form : PageForm) (CART : List CartLine) :
    (findProduct PRODUCTS productId = some p →
      (getOptions (some p)).dogName = true → (getOptions (some p)).dogNamePrompt = true →
      ((getOptions (some p)).sizesRequired = true →
        (getSel st.SELECTIONS productId).1.size ≠ []) →
      onlyWhiteSpace (getSel st.SELECTIONS productId).1.dogName →
      (addToCart PRODUCTS st productId).1 = .nameRequired ∧
        (addToCart PRODUCTS st productId).2.CART = st.CART) ∧
    (findProduct PRODUCTS productId = some p →
      ¬ ((getOptions (some p)).dogName = true ∧ (getOptions (some p)).dogNamePrompt = true) →
      (addToCart PRODUCTS st productId).1 ≠ .nameRequired ∧
      (((getOptions (some p)).sizesRequired = true →
          (getSel st.SELECTIONS productId).1.size ≠ []) →
        (addToCart PRODUCTS st productId).1 = .added)) ∧
    ((getOptions (some p)).dogName = true → (getOptions (some p)).dogNamePrompt = true →
      ((getOptions (some p)).sizesRequired = true → elValue form.sizeEl ≠ []) →
      onlyWhiteSpace (elValue form.dogEl) →
      pAddClick p form CART = (.nameRequired, CART)) ∧
    (¬ ((getOptions (some p)).dogName = true ∧ (getOptions (some p)).dogNamePrompt = true) →
      (pAddClick p form CART).1 ≠ .nameRequired ∧
      (((getOptions (some p)).sizesRequired = true → elValue form.sizeEl ≠ []) →
        (pAddClick p form CART).1 = .added)) := by
  refine ⟨?_, ?_, ?_, ?_⟩
  · intro hp hd hpr hsize hname
    rw [getSel_fst] at hsize hname
    have key := addToCart_eq PRODUCTS st productId p hp
    rw [readySelection_sized _ _ hsize] at key
    simp only [hd, hpr, Bool.and_self, if_true,
      normalizeDogName_of_onlyWhiteSpace _ hname] at key
    exact key
  · intro hp hnot
    have hb : ((getOptions (some p)).dogName && (getOptions (some p)).dogNamePrompt) = false := by
      cases h1 : (getOptions (some p)).dogName <;> cases h2 : (getOptions (some p)).dogNamePrompt
        <;> simp_all
    have key := addToCart_eq PRODUCTS st productId p hp
    constructor
    · intro hout
      cases hr : readySelection (getOptions (some p)) ((st.SELECTIONS productId).getD {}) with
      | error o =>
        rw [hr] at key
        have ho : o = .nameRequired := by rw [← key.1, hout]
        subst ho
        unfold readySelection at hr
        generalize withDefaultColor _ _ = s1 at hr
        simp only [hb] at hr
        split at hr <;> cases hr
      | ok r =>
        rw [hr] at key
        rw [key.1] at hout
        cases hout
    · intro hsize
      rw [getSel_fst] at hsize
      rw [readySelection_sized _ _ hsize] at key
      simp only [hb, Bool.false_eq_true, if_false] at key
      exact key.1
  · intro hd hpr hsize hname
    have hd2 : (p.options.getD {}).dogName = true := hd
    have hpr2 : (p.options.getD {}).dogNamePrompt = true := hpr
    have hsize2 : ¬ ((p.options.getD {}).sizesRequired = true ∧ elValue form.sizeEl = []) :=
      fun h => hsize h.1 h.2
    unfold pAddClick
    simp [hd2, hpr2, hsize2, truthy, normalizeDogName_of_onlyWhiteSpace _ hname]
  · intro hnot
    have hb : ((p.options.getD {}).dogName && (p.options.getD {}).dogNamePrompt) = false := by
      have hnot2 : ¬ ((p.options.getD {}).dogName = true ∧
          (p.options.getD {}).dogNamePrompt = true) := hnot
      cases h1 : (p.options.getD {}).dogName <;> cases h2 : (p.options.getD {}).dogNamePrompt
        <;> simp_all
    constructor
    · unfold pAddClick
      simp only [hb]
      split <;> simp
    · intro hsize
      have hsize2 : ¬ ((p.options.getD {}).sizesRequired = true ∧ elValue form.sizeEl = []) :=
        fun h => hsize h.1 h.2
      unfold pAddClick
      simp [hb, hsize2, truthy]

/-- Witness of C5: `namedProduct` prompts for a name, has no size rule, and
the stored name `"   "` is white space only. -/
theorem name_required_rejects_witness :
    findProduct [namedProduct] (js "p") = some namedProduct ∧
    onlyWhiteSpace (getSel (stateWith { dogName := js "   " } [lineM]).SELECTIONS (js "p")).1.dogName ∧
    (addToCart [namedProduct] (stateWith { dogName := js "   " } [lineM]) (js "p")).1 =
      .nameRequired ∧
    (addToCart [namedProduct] (stateWith { dogName := js "   " } [lineM]) (js "p")).2.CART =
      [lineM] ∧
    (addToCart [plainProduct] (freshState []) (js "p")).1 = .added ∧
    pAddClick namedProduct { dogEl := some (js "   ") } [lineM] = (.nameRequired, [lineM]) ∧
    (pAddClick plainProduct {} []).1 = .added :=
  ⟨by decide, by decide,
   ((name_required_rejects [namedProduct] (stateWith { dogName := js "   " } [lineM]) (js "p")
      namedProduct {} []).1 (by decide) (by decide) (by decide) (by decide) (by decide)).1,
   ((name_required_rejects [namedProduct] (stateWith { dogName := js "   " } [lineM]) (js "p")
      namedProduct {} []).1 (by decide) (by decide) (by decide) (by decide) (by decide)).2,
   ((name_required_rejects [plainProduct] (freshState []) (js "p") plainProduct {} []).2.1
      (by decide) (by decide)).2 (by decide),
   (name_required_rejects [namedProduct] (freshState []) (js "p") namedProduct
      { dogEl := some (js "   ") } [lineM]).2.2.1 (by decide) (by decide) (by decide) (by decide),
   ((name_required_rejects [plainProduct] (freshState []) (js "p") plainProduct {} []).2.2.2
      (by decide)).2 (by decide)⟩

/-! ## Updating a line -/

theorem color_fallback_ne (c prev : JSString) (h : prev ≠ []) :
    (if truthy c = true then c else prev) ≠ [] := by
  by_cases hc : c = [] <;> simp [truthy, hc, h]

/-- C7. When the update handler accepts a submission for the valid index
`idx`, line `idx` keeps its product id and quantity, its size, dogName and note
become those of the validated selection `sel` (for an option the product
offers: the submitted size, the normalised or trimmed name, the trimmed note),
and its color becomes the color of `sel` when that is non-empty and the
previous color of the line when it is empty, so a non-empty color never
becomes empty. -/
theorem updateLine_spec (PRODUCTS : List Product) (st st2 : MainState) (id : JSString)
    (idx : Nat) (form : ModalForm) (line : CartLine)
    (hline : st.CART[idx]? = some line)
    (h : modalUpdateItemClick PRODUCTS st (some id) (some idx) form = (.updated, st2)) :
    ∃ sel line2, st2.SELECTIONS id = some sel ∧ st2.CART[idx]? = some line2 ∧
      line2.id = line.id ∧ line2.quantity = line.quantity ∧
      line2.size = some sel.size ∧ line2.dogName = some sel.dogName ∧
      line2.note = some sel.note ∧
      (sel.color ≠ [] → line2.color = some sel.color) ∧
      (sel.color = [] → line2.color = some (orEmpty line.color)) ∧
      (orEmpty line.color ≠ [] → orEmpty line2.color ≠ []) ∧
      ((getOptions (findProduct PRODUCTS id)).sizes.isSome = true → sel.size = form.size) ∧
      ((getOptions (findProduct PRODUCTS id)).dogName = true →
        (getOptions (findProduct PRODUCTS id)).dogNamePrompt = true →
        normalizeDogName (trim form.dogName) = some sel.dogName) ∧
      ((getOptions (findProduct PRODUCTS id)).dogName = true →
        (getOptions (findProduct PRODUCTS id)).dogNamePrompt = false →
        sel.dogName = trim form.dogName) ∧
      ((getOptions (findProduct PRODUCTS id)).note = true → sel.note = trim form.note) ∧
      sel.color = (getSel st.SELECTIONS id).1.color := by
  have hlt : idx < st.CART.length := by
    rcases Nat.lt_or_ge idx st.CART.length with h1 | h1
    · exact h1
    · rw [List.getElem?_eq_none h1] at hline; cases hline
  generalize hopt : getOptions (findProduct PRODUCTS id) = opt at h ⊢
  unfold modalUpdateItemClick at h
  simp only [hline, hopt] at h
  by_cases hid : truthy id = true
  swap
  · simp [hid] at h
  by_cases h1 : (opt.sizesRequired && !truthy form.size) = true
  · simp [hid, h1] at h
  by_cases h2 : (opt.dogName && opt.dogNamePrompt) = true
  · cases hn : normalizeDogName (trim form.dogName) with
    | none => simp [hid, h1, h2, hn] at h
    | some n =>
      simp [hid, h1, h2, hn, getSel_setSel, modalNext] at h
      subst h
      refine ⟨_, _, setSel_self _ _ _, List.getElem?_set_self hlt, rfl, rfl, rfl, rfl, rfl, ?_, ?_, ?_, ?_, ?_,
        ?_, ?_, ?_⟩
      · intro hc; simp [truthy, hc]
      · intro hc; simp [truthy, hc]
      · intro hc
        exact color_fallback_ne _ _ hc
      · intro hs; simp [Selection.merge, hs]
      · intro hd hp; simp_all [Selection.merge]
      · intro hd hp; simp_all [Selection.merge]
      · intro hno; simp [Selection.merge, hno]
      · simp [Selection.merge, getSel_fst]
  · simp [hid, h1, h2, getSel_setSel, modalNext] at h
    subst h
    refine ⟨_, _, setSel_self _ _ _, List.getElem?_set_self hlt, rfl, rfl, rfl, rfl, rfl, ?_, ?_, ?_, ?_, ?_,
      ?_, ?_, ?_⟩
    · intro hc; simp [truthy, hc]
    · intro hc; simp [truthy, hc]
    · intro hc
      exact color_fallback_ne _ _ hc
    · intro hs; simp [Selection.merge, hs]
    · intro hd hp; simp_all [Selection.merge]
    · intro hd hp; simp_all [Selection.merge]
    · intro hno; simp [Selection.merge, hno]
    · simp [Selection.merge, getSel_fst]

/-- Witness of C7: the line `lineRed` of `namedProduct` is edited with the
name `" Max "` and no color chosen; it keeps quantity 4 and color `"red"` and
takes the name `"Max"`. -/
theorem updateLine_spec_witness :
    (stateWith {} [lineRed]).CART[0]? = some lineRed ∧
    (modalUpdateItemClick [namedProduct] (stateWith {} [lineRed]) (some (js "p")) (some 0)
      { dogName := js " Max " }).1 = .updated ∧
    ∃ sel line2,
      (modalUpdateItemClick [namedProduct] (stateWith {} [lineRed]) (some (js "p")) (some 0)
        { dogName := js " Max " }).2.SELECTIONS (js "p") = some sel ∧
      (modalUpdateItemClick [namedProduct] (stateWith {} [lineRed]) (some (js "p")) (some 0)
        { dogName := js " Max " }).2.CART[0]? = some line2 ∧
      line2.quantity = 4 ∧ line2.dogName = some sel.dogName ∧
      normalizeDogName (trim (js " Max ")) = some sel.dogName ∧
      line2.color = some (js "red") :=
  ⟨by decide, by decide,
   match updateLine_spec [namedProduct] (stateWith {} [lineRed]) _ (js "p") 0
      { dogName := js " Max " } lineRed (by decide) (Prod.ext (by decide) rfl) with
   | ⟨sel, line2, h1, h2, _, h4, _, h6, _, _, h9, _, _, h12, _, _, h15⟩ =>
     ⟨sel, line2, h1, h2, h4, h6, h12 (by decide) (by decide),
      h9 (by rw [h15]; decide)⟩⟩

/-! ## Quantities and totals -/

/-- C8. For a valid index `i` holding `line` and any integer `delta`: when
`line.quantity + delta` is at most 0 the line is removed, the cart is one line
shorter and the other lines keep their order and contents; otherwise the cart
keeps its length and only the quantity of line `i` changes, to
`line.quantity + delta`. In particular `delta = -1` on a line of quantity 1
removes the line. -/
theorem changeQuantity_spec (CART : List CartLine) (i : Nat) (delta : Int) (line : CartLine)
    (h : CART[i]? = some line) :
    (line.quantity + delta ≤ 0 →
      changeQuantity CART i delta = CART.take i ++ CART.drop (i + 1) ∧
      (changeQuantity CART i delta).length + 1 = CART.length) ∧
    (0 < line.quantity + delta →
      changeQuantity CART i delta =
        CART.take i ++ { line with quantity := line.quantity + delta } :: CART.drop (i + 1) ∧
      (changeQuantity CART i delta).length = CART.length) ∧
    (line.quantity = 1 →
      changeQuantity CART i (-1) = CART.take i ++ CART.drop (i + 1) ∧
      (changeQuantity CART i (-1)).length + 1 = CART.length) := by
  have hlt : i < CART.length := by
    rcases Nat.lt_or_ge i CART.length with h1 | h1
    · exact h1
    · rw [List.getElem?_eq_none h1] at h; cases h
  have hrem : ∀ d : Int, line.quantity + d ≤ 0 →
      changeQuantity CART i d = CART.take i ++ CART.drop (i + 1) ∧
      (changeQuantity CART i d).length + 1 = CART.length := by
    intro d hd
    have e : changeQuantity CART i d = CART.eraseIdx i := by
      simp [changeQuantity, h, hd]
    rw [e]
    refine ⟨List.eraseIdx_eq_take_drop_succ CART i, ?_⟩
    rw [List.length_eraseIdx_of_lt hlt]
    omega
  refine ⟨hrem delta, ?_, ?_⟩
  · intro hd
    have hd2 : ¬ line.quantity + delta ≤ 0 := by omega
    have e : changeQuantity CART i delta =
        CART.set i { line with quantity := line.quantity + delta } := by
      simp [changeQuantity, h, hd2]
    rw [e]
    refine ⟨?_, List.length_set _ _ _⟩
    rw [List.set_eq_take_append_cons_drop, if_pos hlt]
  · intro hq
    exact hrem (-1) (by omega)

/-- Witness of C8 on the cart `[lineL, lineM]`: `-1` on `lineL` (quantity 1)
removes it, and `-1` on `lineM` (quantity 2) leaves quantity 1. -/
theorem changeQuantity_spec_witness :
    [lineL, lineM][0]? = some lineL ∧ lineL.quantity = 1 ∧
    changeQuantity [lineL, lineM] 0 (-1) = [lineM] ∧
    [lineL, lineM][1]? = some lineM ∧ 0 < lineM.quantity + (-1) ∧
    changeQuantity [lineL, lineM] 1 (-1) = [lineL, { lineM with quantity := 1 }] :=
  ⟨by decide, by decide,
   ((changeQuantity_spec [lineL, lineM] 0 (-1) lineL (by decide)).2.2 (by decide)).1,
   by decide, by decide,
   ((changeQuantity_spec [lineL, lineM] 1 (-1) lineM (by decide)).2.1 (by decide)).1⟩

theorem cartTotal_foldl (PRODUCTS : List Product) (CART : List CartLine) (acc : ℚ) :
    CART.foldl
      (fun sum item =>
        match findProduct PRODUCTS item.id with
        | some p => sum + p.price * item.quantity
        | none => sum) acc =
      acc + (CART.map (lineAmount PRODUCTS)).sum := by
  induction CART generalizing acc with
  | nil => simp
  | cons item rest ih =>
    rw [List.foldl_cons, ih, List.map_cons, List.sum_cons]
    unfold lineAmount
    cases findProduct PRODUCTS item.id <;> simp [add_assoc]

/-- C9. The total is the sum over the lines of the amount of each line: the
price of the product its id resolves to times its quantity, and 0 for a line
whose id does not resolve; equally, it is the sum of price times quantity over
exactly the lines whose id resolves. The function is total (it never fails).
For three bandanas at 12.50 and one line of a deleted product the total is
37.50. -/
theorem cartTotal_spec (PRODUCTS : List Product) (CART : List CartLine) :
    cartTotal PRODUCTS CART = (CART.map (lineAmount PRODUCTS)).sum ∧
    cartTotal PRODUCTS CART =
      ((CART.filterMap (fun item =>
          (findProduct PRODUCTS item.id).map (fun p => p.price * (item.quantity : ℚ)))).sum) ∧
    cartTotal [bandana] staleCart = 75 / 2 := by
  have h1 : cartTotal PRODUCTS CART = (CART.map (lineAmount PRODUCTS)).sum := by
    unfold cartTotal
    rw [cartTotal_foldl, zero_add]
  refine ⟨h1, ?_, ?_⟩
  · rw [h1]
    induction CART with
    | nil => simp
    | cons item rest ih =>
      have ih2 := ih (by unfold cartTotal; rw [cartTotal_foldl, zero_add])
      rw [List.map_cons, List.sum_cons, ih2]
      unfold lineAmount
      cases hf : findProduct PRODUCTS item.id <;> simp [List.filterMap_cons, hf]
  · have e : cartTotal [bandana] staleCart = (staleCart.map (lineAmount [bandana])).sum := by
      unfold cartTotal
      rw [cartTotal_foldl, zero_add]
    rw [e]
    have f1 : findProduct [bandana] (js "bandana") = some bandana := by rfl
    have f2 : findProduct [bandana] (js "deleted") = none := by rfl
    simp only [staleCart, List.map_cons, List.map_nil, lineAmount, f1, f2, List.sum_cons,
      List.sum_nil]
    norm_num [bandana]

theorem cartCount_foldl (f : CartLine → Int) (CART : List CartLine) (acc : Int) :
    CART.foldl (fun sum item => sum + f item) acc = acc + (CART.map f).sum := by
  induction CART generalizing acc with
  | nil => simp
  | cons item rest ih => rw [List.foldl_cons, ih, List.map_cons, List.sum_cons, add_assoc]

/-- C10. The function `cartCount()`, in main.js and in product.js, returns the
sum of the quantities of all lines, which is 0 for the empty cart and is not
the number of lines: the two-line cart `staleCart` counts 4. -/
theorem cartCount_spec (CART : List CartLine) :
    cartCount CART = (CART.map (fun item => item.quantity)).sum ∧
    cartCountPage CART = (CART.map (fun item => item.quantity)).sum ∧
    cartCount [] = 0 ∧ cartCountPage [] = 0 ∧
    cartCount staleCart = 4 ∧ cartCountPage staleCart = 4 ∧ staleCart.length = 2 := by
  refine ⟨?_, ?_, rfl, rfl, by decide, by decide, rfl⟩
  · unfold cartCount
    rw [cartCount_foldl, zero_add]
  · unfold cartCountPage
    rw [cartCount_foldl, zero_add]
    congr 1
    apply List.map_congr_left
    intro item _
    by_cases hq : item.quantity = 0 <;> simp [hq]

/-! ## More on name normalisation -/

theorem dropWhile_self_of_head (p : Nat → Bool) (l : List Nat)
    (h : ∀ x rest, l = x :: rest → p x = false) : l.dropWhile p = l := by
  cases l with
  | nil => rfl
  | cons x rest => simp [List.dropWhile, h x rest rfl]

theorem trim_head (s : JSString) (x : Nat) (rest : List Nat) (h : trim s = x :: rest) :
    isWhiteSpace x = false := by
  unfold trim at h
  have hpre : ((s.dropWhile isWhiteSpace).reverse.dropWhile isWhiteSpace).reverse <+:
      s.dropWhile isWhiteSpace := by
    have hsuf : (s.dropWhile isWhiteSpace).reverse.dropWhile isWhiteSpace <:+
        (s.dropWhile isWhiteSpace).reverse := List.dropWhile_suffix _
    have := List.reverse_prefix.mpr hsuf
    simpa using this
  obtain ⟨t, ht⟩ := hpre
  rw [h] at ht
  have hne : s.dropWhile isWhiteSpace ≠ [] := by rw [← ht]; simp
  have hnot := List.head_dropWhile_not isWhiteSpace s hne
  have hhead : (s.dropWhile isWhiteSpace).head hne = x := by
    simp [← ht]
  rw [hhead] at hnot
  simpa using hnot

theorem trim_trim (s : JSString) : trim (trim s) = trim s := by
  have h1 : (trim s).dropWhile isWhiteSpace = trim s :=
    dropWhile_self_of_head _ _ (fun x rest hx => trim_head s x rest hx)
  have h2 : (trim s).reverse.dropWhile isWhiteSpace = (trim s).reverse := by
    unfold trim
    rw [List.reverse_reverse, List.dropWhile_idempotent]
  have e : trim (trim s) =
      (((trim s).dropWhile isWhiteSpace).reverse.dropWhile isWhiteSpace).reverse := rfl
  rw [e, h1, h2, List.reverse_reverse]

theorem normalizeDogName_trim (s : JSString) :
    normalizeDogName (trim s) = normalizeDogName s := by
  unfold normalizeDogName
  rw [trim_trim]

theorem normalizeDogName_eq_none_iff (s : JSString) :
    normalizeDogName s = none ↔ onlyWhiteSpace s := by
  constructor
  · intro h
    by_contra hno
    rw [normalizeDogName_of_visible s hno] at h
    split at h
    · cases h
    · split at h <;> cases h
  · exact normalizeDogName_of_onlyWhiteSpace s

/-- A normalised name is never white space only, so it is never empty and
normalising it again never fails. -/
theorem normalizeDogName_visible (s n : JSString) (h : normalizeDogName s = some n) :
    ¬ onlyWhiteSpace n := by
  have hvis : ¬ onlyWhiteSpace s := by
    intro hw
    rw [normalizeDogName_of_onlyWhiteSpace s hw] at h
    cases h
  rw [normalizeDogName_of_visible s hvis] at h
  have hne : trim s ≠ [] := fun e => hvis ((trim_eq_nil_iff s).mp e)
  obtain ⟨x, rest, hx⟩ := List.exists_cons_of_ne_nil hne
  have hxw := trim_head s x rest hx
  split at h
  · cases h; decide
  · split at h
    · cases h
      intro hw
      have := hw x (by rw [hx]; simp)
      rw [hxw] at this
      cases this
    · cases h
      intro hw
      have := hw x (by rw [hx]; simp)
      rw [hxw] at this
      cases this

/-- A name of at most 15 code units after trimming is normalised to a fixed
point of both `trim` and `normalizeDogName`. -/
theorem normalizeDogName_short (s n : JSString) (hlen : (trim s).length ≤ 15)
    (h : normalizeDogName s = some n) : trim n = n ∧ normalizeDogName n = some n := by
  have hvis : ¬ onlyWhiteSpace s := by
    intro hw
    rw [normalizeDogName_of_onlyWhiteSpace s hw] at h
    cases h
  have h0 := h
  rw [normalizeDogName_of_visible s hvis] at h
  split at h
  · cases h; exact ⟨by decide, by decide⟩
  · rw [if_neg (by omega)] at h
    cases h
    exact ⟨trim_trim s, by rw [normalizeDogName_trim]; exact h0⟩

/-! ## The three commit paths -/

theorem merged_selection (opt : Options) (sub : Submission) (s0 : Selection) (d : JSString)
    (hfit : sub.fits opt) (hsel : sub.storedAs opt s0) :
    s0.merge (modalNext opt sub.modalForm d) =
      { size := sub.size, dogName := if opt.dogName then d else [],
        note := committedNote opt sub, color := sub.color } := by
  obtain ⟨hf1, hf2⟩ := hfit
  obtain ⟨hc, hs1, hs2, hs3⟩ := hsel
  obtain ⟨colors, sizes, req, dn, dnp, nt⟩ := opt
  cases sizes <;> cases dn <;> cases nt <;>
    simp_all [Selection.merge, committedNote, modalNext, Submission.modalForm]

theorem addColor_eq (opt : Options) (sub : Submission) (hfit : sub.fits opt) :
    (match opt.colors with
      | some colors => if truthy sub.color then sub.color else firstColorValue colors
      | none => sub.color) = addColor opt sub := by
  unfold addColor
  cases hc : opt.colors with
  | none =>
    have := hfit.2 hc
    simp [this, truthy]
  | some colors => rfl

/-- The call of `addToCart` at the end of the quick-view handler, once the
submission has been stored with the validated name `d`. -/
theorem addToCart_after_store (PRODUCTS : List Product) (p : Product) (st : MainState)
    (sub : Submission) (d name : JSString)
    (hp : findProduct PRODUCTS p.id = some p)
    (hfit : sub.fits (getOptions (some p)))
    (hsel : sub.storedAs (getOptions (some p)) ((st.SELECTIONS p.id).getD {}))
    (hsize : (getOptions (some p)).sizesRequired = true → sub.size ≠ [])
    (hname : (if (getOptions (some p)).dogName && (getOptions (some p)).dogNamePrompt then
        normalizeDogName (if (getOptions (some p)).dogName then d else [])
      else some (if (getOptions (some p)).dogName then d else [])) = some name) :
    (addToCart PRODUCTS
      { st with SELECTIONS :=
          setSel st.SELECTIONS p.id (modalNext (getOptions (some p)) sub.modalForm d) }
      p.id).1 = .added ∧
    (addToCart PRODUCTS
      { st with SELECTIONS :=
          setSel st.SELECTIONS p.id (modalNext (getOptions (some p)) sub.modalForm d) }
      p.id).2.CART =
      mergeIntoCart p.id
        { size := sub.size, dogName := name, note := committedNote (getOptions (some p)) sub,
          color := addColor (getOptions (some p)) sub } st.CART := by
  have key := addToCart_eq PRODUCTS
    { st with SELECTIONS :=
        setSel st.SELECTIONS p.id (modalNext (getOptions (some p)) sub.modalForm d) }
    p.id p hp
  simp only [setSel_self, Option.getD_some, merged_selection _ _ _ d hfit hsel] at key
  rw [readySelection_sized _ _ hsize] at key
  simp only [addColor_eq _ _ hfit] at key
  split at hname
  · rename_i hprompt
    rw [if_pos hprompt, hname] at key
    exact ⟨key.1, key.2.1⟩
  · rename_i hprompt
    rw [if_neg hprompt] at key
    cases hname
    exact ⟨key.1, key.2.1⟩

theorem quick_accept (PRODUCTS : List Product) (p : Product) (st : MainState)
    (sub : Submission)
    (hp : findProduct PRODUCTS p.id = some p) (hid : p.id ≠ [])
    (hfit : sub.fits (getOptions (some p)))
    (hsel : sub.storedAs (getOptions (some p)) (getSel st.SELECTIONS p.id).1)
    (hsize : (getOptions (some p)).sizesRequired = true → sub.size ≠ [])
    (hname : (getOptions (some p)).dogName = true → (getOptions (some p)).dogNamePrompt = true →
      ¬ onlyWhiteSpace sub.dogName) :
    ∃ nameQ,
      (modalAddToCartClick PRODUCTS st (some p.id) sub.modalForm).1 = .added ∧
      (modalAddToCartClick PRODUCTS st (some p.id) sub.modalForm).2.CART =
        mergeIntoCart p.id
          { size := sub.size, dogName := nameQ, note := committedNote (getOptions (some p)) sub,
            color := addColor (getOptions (some p)) sub } st.CART ∧
      (((getOptions (some p)).dogName = true → (getOptions (some p)).dogNamePrompt = true →
          (trim sub.dogName).length ≤ 15) →
        nameQ = committedName (getOptions (some p)) sub) := by
  rw [getSel_fst] at hsel
  have hidt : truthy p.id = true := by simpa [truthy] using hid
  have hsz : ((getOptions (some p)).sizesRequired && !truthy sub.size) = false := by
    cases hr : (getOptions (some p)).sizesRequired
    · rfl
    · simpa [truthy] using hsize hr
  have hform : sub.modalForm.size = sub.size ∧ sub.modalForm.dogName = sub.dogName := ⟨rfl, rfl⟩
  unfold modalAddToCartClick
  simp only [hidt, hp, hform.1, hform.2, hsz, Bool.not_true, Bool.false_eq_true, if_false]
  by_cases hprompt :
      ((getOptions (some p)).dogName && (getOptions (some p)).dogNamePrompt) = true
  · have hd : (getOptions (some p)).dogName = true := by
      cases h : (getOptions (some p)).dogName <;> simp_all
    have hpr : (getOptions (some p)).dogNamePrompt = true := by
      cases h : (getOptions (some p)).dogNamePrompt <;> simp_all
    have hvis := hname hd hpr
    cases hn1 : normalizeDogName sub.dogName with
    | none => exact absurd ((normalizeDogName_eq_none_iff _).mp hn1) hvis
    | some n1 =>
      cases hn2 : normalizeDogName n1 with
      | none =>
        exact absurd ((normalizeDogName_eq_none_iff _).mp hn2)
          (normalizeDogName_visible _ _ hn1)
      | some n2 =>
        refine ⟨n2, ?_⟩
        simp only [hprompt, if_true, normalizeDogName_trim, hn1]
        have key := addToCart_after_store PRODUCTS p st sub n1 n2 hp hfit hsel hsize
          (by rw [if_pos hprompt, if_pos hd]; exact hn2)
        refine ⟨key.1, key.2, ?_⟩
        intro hshort
        have := normalizeDogName_short _ _ (hshort hd hpr) hn1
        rw [this.2] at hn2
        cases hn2
        simp [committedName, hd, hpr, hn1]
  · refine ⟨if (getOptions (some p)).dogName then trim sub.dogName else [], ?_⟩
    simp only [hprompt, if_false]
    have key := addToCart_after_store PRODUCTS p st sub (trim sub.dogName)
      (if (getOptions (some p)).dogName then trim sub.dogName else []) hp hfit hsel hsize
      (by rw [if_neg hprompt])
    refine ⟨key.1, key.2, ?_⟩
    intro _
    unfold committedName
    cases hd : (getOptions (some p)).dogName
    · simp
    · cases hpr : (getOptions (some p)).dogNamePrompt
      · simp
      · simp [hd, hpr] at hprompt

theorem quick_reject (PRODUCTS : List Product) (p : Product) (st : MainState)
    (sub : Submission) (hp : findProduct PRODUCTS p.id = some p) (hid : p.id ≠ []) :
    ((getOptions (some p)).sizesRequired = true → sub.size = [] →
      modalAddToCartClick PRODUCTS st (some p.id) sub.modalForm = (.sizeRequired, st)) ∧
    (((getOptions (some p)).sizesRequired = true → sub.size ≠ []) →
      (getOptions (some p)).dogName = true → (getOptions (some p)).dogNamePrompt = true →
      onlyWhiteSpace sub.dogName →
      modalAddToCartClick PRODUCTS st (some p.id) sub.modalForm = (.nameRequired, st)) := by
  have hidt : truthy p.id = true := by simpa [truthy] using hid
  have hform : sub.modalForm.size = sub.size ∧ sub.modalForm.dogName = sub.dogName := ⟨rfl, rfl⟩
  constructor
  · intro hreq hsize
    unfold modalAddToCartClick
    simp [hid, hp, hform.1, hreq, hsize, truthy]
  · intro hsize hd hpr hw
    have hsz : ((getOptions (some p)).sizesRequired && !truthy sub.size) = false := by
      cases hr : (getOptions (some p)).sizesRequired
      · rfl
      · simpa [truthy] using hsize hr
    have hn : normalizeDogName (trim sub.dogName) = none := by
      rw [normalizeDogName_trim]; exact normalizeDogName_of_onlyWhiteSpace _ hw
    unfold modalAddToCartClick
    simp only [hidt, hp, hform.1, hform.2, hsz, hd, hpr, hn, Bool.not_true, Bool.false_eq_true,
      if_false, Bool.and_self, if_true]

theorem update_reject (PRODUCTS : List Product) (p : Product) (st : MainState) (idx : Nat)
    (sub : Submission) (hp : findProduct PRODUCTS p.id = some p) (hid : p.id ≠ []) :
    ((getOptions (some p)).sizesRequired = true → sub.size = [] →
      modalUpdateItemClick PRODUCTS st (some p.id) (some idx) sub.modalForm =
        (.sizeRequired, st)) ∧
    (((getOptions (some p)).sizesRequired = true → sub.size ≠ []) →
      (getOptions (some p)).dogName = true → (getOptions (some p)).dogNamePrompt = true →
      onlyWhiteSpace sub.dogName →
      modalUpdateItemClick PRODUCTS st (some p.id) (some idx) sub.modalForm =
        (.nameRequired, st)) := by
  have hidt : truthy p.id = true := by simpa [truthy] using hid
  have hform : sub.modalForm.size = sub.size ∧ sub.modalForm.dogName = sub.dogName := ⟨rfl, rfl⟩
  constructor
  · intro hreq hsize
    unfold modalUpdateItemClick
    simp [hid, hp, hform.1, hreq, hsize, truthy]
  · intro hsize hd hpr hw
    have hsz : ((getOptions (some p)).sizesRequired && !truthy sub.size) = false := by
      cases hr : (getOptions (some p)).sizesRequired
      · rfl
      · simpa [truthy] using hsize hr
    have hn : normalizeDogName (trim sub.dogName) = none := by
      rw [normalizeDogName_trim]; exact normalizeDogName_of_onlyWhiteSpace _ hw
    unfold modalUpdateItemClick
    simp only [hidt, hp, hform.1, hform.2, hsz, hd, hpr, hn, Bool.not_true, Bool.false_eq_true,
      if_false, Bool.and_self, if_true]

theorem update_accept (PRODUCTS : List Product) (p : Product) (st : MainState) (idx : Nat)
    (line : CartLine) (sub : Submission)
    (hp : findProduct PRODUCTS p.id = some p) (hid : p.id ≠ [])
    (hfit : sub.fits (getOptions (some p)))
    (hsel : sub.storedAs (getOptions (some p)) (getSel st.SELECTIONS p.id).1)
    (hline : st.CART[idx]? = some line)
    (hsize : (getOptions (some p)).sizesRequired = true → sub.size ≠ [])
    (hname : (getOptions (some p)).dogName = true → (getOptions (some p)).dogNamePrompt = true →
      ¬ onlyWhiteSpace sub.dogName) :
    ∃ nameU,
      (modalUpdateItemClick PRODUCTS st (some p.id) (some idx) sub.modalForm).1 = .updated ∧
      (modalUpdateItemClick PRODUCTS st (some p.id) (some idx) sub.modalForm).2.CART =
        st.CART.set idx
          { line with
            size := some sub.size
            dogName := some nameU
            note := some (committedNote (getOptions (some p)) sub)
            color := some (if sub.color = [] then orEmpty line.color else sub.color) } ∧
      (((getOptions (some p)).dogName = true → (getOptions (some p)).dogNamePrompt = true →
          (trim sub.dogName).length ≤ 15) →
        nameU = committedName (getOptions (some p)) sub) := by
  rw [getSel_fst] at hsel
  have hidt : truthy p.id = true := by simpa [truthy] using hid
  have hsz : ((getOptions (some p)).sizesRequired && !truthy sub.size) = false := by
    cases hr : (getOptions (some p)).sizesRequired
    · rfl
    · simpa [truthy] using hsize hr
  have hform : sub.modalForm.size = sub.size ∧ sub.modalForm.dogName = sub.dogName := ⟨rfl, rfl⟩
  have hcol : ∀ c prev : JSString,
      (if truthy c = true then c else prev) = (if c = [] then prev else c) := by
    intro c prev
    by_cases hc : c = [] <;> simp [truthy, hc]
  unfold modalUpdateItemClick
  simp only [hidt, hp, hform.1, hform.2, hsz, hline, Bool.not_true, Bool.false_eq_true, if_false]
  by_cases hprompt :
      ((getOptions (some p)).dogName && (getOptions (some p)).dogNamePrompt) = true
  · have hd : (getOptions (some p)).dogName = true := by
      cases h : (getOptions (some p)).dogName <;> simp_all
    have hpr : (getOptions (some p)).dogNamePrompt = true := by
      cases h : (getOptions (some p)).dogNamePrompt <;> simp_all
    have hvis := hname hd hpr
    cases hn1 : normalizeDogName sub.dogName with
    | none => exact absurd ((normalizeDogName_eq_none_iff _).mp hn1) hvis
    | some n1 =>
      refine ⟨n1, ?_⟩
      simp only [hprompt, if_true, normalizeDogName_trim, hn1]
      simp only [getSel_setSel, merged_selection _ _ _ n1 hfit hsel, hd, hcol, if_true]
      refine ⟨trivial, trivial, ?_⟩
      intro _
      simp [committedName, hd, hpr, hn1]
  · refine ⟨if (getOptions (some p)).dogName then trim sub.dogName else [], ?_⟩
    simp only [hprompt, Bool.false_eq_true, if_false]
    simp only [getSel_setSel, merged_selection _ _ _ (trim sub.dogName) hfit hsel, hcol]
    refine ⟨trivial, trivial, ?_⟩
    intro _
    unfold committedName
    cases hd : (getOptions (some p)).dogName
    · simp
    · cases hpr : (getOptions (some p)).dogNamePrompt
      · simp
      · simp [hd, hpr] at hprompt

/-- The product-page handler on the page form of a submission. -/
theorem page_eq (p : Product) (sub : Submission) (CART : List CartLine)
    (hfit : sub.fits (getOptions (some p))) :
    pAddClick p (sub.pageForm (getOptions (some p))) CART =
      if (getOptions (some p)).sizesRequired && !truthy sub.size then (.sizeRequired, CART)
      else
        match
          (if (getOptions (some p)).dogName && (getOptions (some p)).dogNamePrompt then
            normalizeDogName sub.dogName
          else some (if (getOptions (some p)).dogName then sub.dogName else [])) with
        | none => (.nameRequired, CART)
        | some d =>
          (.added, mergeLine
            { id := p.id, quantity := 1, size := some sub.size,
              dogName := some (if (getOptions (some p)).dogName then trim d else []),
              note := some (committedNote (getOptions (some p)) sub),
              color := some (addColor (getOptions (some p)) sub) } CART) := by
  have hopt : p.options.getD {} = getOptions (some p) := rfl
  unfold pAddClick
  rw [hopt]
  generalize getOptions (some p) = opt at *
  obtain ⟨hf1, hf2⟩ := hfit
  obtain ⟨colors, sizes, req, dn, dnp, nt⟩ := opt
  cases sizes <;> cases colors <;> cases dn <;> cases dnp <;> cases nt <;>
    simp_all [elValue, truthy, Submission.pageForm, committedNote, addColor]

theorem mergeIntoCart_eq_mergeLine (id : JSString) (sel : Selection) (CART : List CartLine) :
    mergeIntoCart id sel CART =
      mergeLine { id := id, quantity := 1, size := some sel.size, dogName := some sel.dogName,
                  note := some sel.note, color := some sel.color } CART := by
  have hk : keyMatch id sel =
      keyMatchLine { id := id, quantity := 1, size := some sel.size,
                     dogName := some sel.dogName, note := some sel.note,
                     color := some sel.color } := by
    funext item
    simp [keyMatch, keyMatchLine, orEmpty]
  unfold mergeIntoCart mergeLine
  rw [hk]

/-- C6, amended. For a product of the catalog and a submission that its inputs
can hold, the quick-view add, the product-page add and the update of line `idx`
reject for the size rule together, reject for the name rule together, and
otherwise all accept. On acceptance the three commit the submitted size and the
same note; the add paths commit the chosen color, or the first color of the
product when none is chosen, whereas the update commits the chosen color, or
the previous color of the line when none is chosen; and when the product does
not prompt for the name or the trimmed name has at most 15 code units the three
commit the same name (and the two add paths produce the same cart). -/
theorem commit_paths_agree (PRODUCTS : List Product) (p : Product) (st : MainState)
    (idx : Nat) (line : CartLine) (sub : Submission)
    (hp : findProduct PRODUCTS p.id = some p) (hid : p.id ≠ [])
    (hfit : sub.fits (getOptions (some p)))
    (hsel : sub.storedAs (getOptions (some p)) (getSel st.SELECTIONS p.id).1)
    (hline : st.CART[idx]? = some line) :
    ((getOptions (some p)).sizesRequired = true → sub.size = [] →
      modalAddToCartClick PRODUCTS st (some p.id) sub.modalForm = (.sizeRequired, st) ∧
      pAddClick p (sub.pageForm (getOptions (some p))) st.CART = (.sizeRequired, st.CART) ∧
      modalUpdateItemClick PRODUCTS st (some p.id) (some idx) sub.modalForm =
        (.sizeRequired, st)) ∧
    (((getOptions (some p)).sizesRequired = true → sub.size ≠ []) →
      (getOptions (some p)).dogName = true → (getOptions (some p)).dogNamePrompt = true →
      onlyWhiteSpace sub.dogName →
      modalAddToCartClick PRODUCTS st (some p.id) sub.modalForm = (.nameRequired, st) ∧
      pAddClick p (sub.pageForm (getOptions (some p))) st.CART = (.nameRequired, st.CART) ∧
      modalUpdateItemClick PRODUCTS st (some p.id) (some idx) sub.modalForm =
        (.nameRequired, st)) ∧
    (((getOptions (some p)).sizesRequired = true → sub.size ≠ []) →
      ((getOptions (some p)).dogName = true → (getOptions (some p)).dogNamePrompt = true →
        ¬ onlyWhiteSpace sub.dogName) →
      (modalAddToCartClick PRODUCTS st (some p.id) sub.modalForm).1 = .added ∧
      (pAddClick p (sub.pageForm (getOptions (some p))) st.CART).1 = .added ∧
      (modalUpdateItemClick PRODUCTS st (some p.id) (some idx) sub.modalForm).1 = .updated ∧
      ∃ nameQ nameP nameU,
        (modalAddToCartClick PRODUCTS st (some p.id) sub.modalForm).2.CART =
          mergeIntoCart p.id
            { size := sub.size, dogName := nameQ,
              note := committedNote (getOptions (some p)) sub,
              color := addColor (getOptions (some p)) sub } st.CART ∧
        (pAddClick p (sub.pageForm (getOptions (some p))) st.CART).2 =
          mergeLine
            { id := p.id, quantity := 1, size := some sub.size, dogName := some nameP,
              note := some (committedNote (getOptions (some p)) sub),
              color := some (addColor (getOptions (some p)) sub) } st.CART ∧
        (modalUpdateItemClick PRODUCTS st (some p.id) (some idx) sub.modalForm).2.CART =
          st.CART.set idx
            { line with
              size := some sub.size
              dogName := some nameU
              note := some (committedNote (getOptions (some p)) sub)
              color := some (if sub.color = [] then orEmpty line.color else sub.color) } ∧
        (((getOptions (some p)).dogName = true → (getOptions (some p)).dogNamePrompt = true →
            (trim sub.dogName).length ≤ 15) →
          nameQ = nameP ∧ nameP = nameU ∧
          (modalAddToCartClick PRODUCTS st (some p.id) sub.modalForm).2.CART =
            (pAddClick p (sub.pageForm (getOptions (some p))) st.CART).2)) := by
  have hpage := page_eq p sub st.CART hfit
  refine ⟨?_, ?_, ?_⟩
  · intro hreq hsize
    refine ⟨(quick_reject PRODUCTS p st sub hp hid).1 hreq hsize, ?_,
      (update_reject PRODUCTS p st idx sub hp hid).1 hreq hsize⟩
    rw [hpage]
    simp [hreq, hsize, truthy]
  · intro hsize hd hpr hw
    refine ⟨(quick_reject PRODUCTS p st sub hp hid).2 hsize hd hpr hw, ?_,
      (update_reject PRODUCTS p st idx sub hp hid).2 hsize hd hpr hw⟩
    have hsz : ((getOptions (some p)).sizesRequired && !truthy sub.size) = false := by
      cases hr : (getOptions (some p)).sizesRequired
      · rfl
      · simpa [truthy] using hsize hr
    rw [hpage]
    simp only [hsz, hd, hpr, normalizeDogName_of_onlyWhiteSpace _ hw, Bool.false_eq_true,
      if_false, Bool.and_self, if_true]
  · intro hsize hname
    obtain ⟨nameQ, hq1, hq2, hq3⟩ := quick_accept PRODUCTS p st sub hp hid hfit hsel hsize hname
    obtain ⟨nameU, hu1, hu2, hu3⟩ :=
      update_accept PRODUCTS p st idx line sub hp hid hfit hsel hline hsize hname
    have hsz : ((getOptions (some p)).sizesRequired && !truthy sub.size) = false := by
      cases hr : (getOptions (some p)).sizesRequired
      · rfl
      · simpa [truthy] using hsize hr
    have hpg : ∃ nameP,
        pAddClick p (sub.pageForm (getOptions (some p))) st.CART =
          (.added, mergeLine
            { id := p.id, quantity := 1, size := some sub.size, dogName := some nameP,
              note := some (committedNote (getOptions (some p)) sub),
              color := some (addColor (getOptions (some p)) sub) } st.CART) ∧
        (((getOptions (some p)).dogName = true → (getOptions (some p)).dogNamePrompt = true →
            (trim sub.dogName).length ≤ 15) →
          nameP = committedName (getOptions (some p)) sub) := by
      rw [hpage]
      simp only [hsz, Bool.false_eq_true, if_false]
      by_cases hprompt :
          ((getOptions (some p)).dogName && (getOptions (some p)).dogNamePrompt) = true
      · have hd : (getOptions (some p)).dogName = true := by
          cases h : (getOptions (some p)).dogName <;> simp_all
        have hpr : (getOptions (some p)).dogNamePrompt = true := by
          cases h : (getOptions (some p)).dogNamePrompt <;> simp_all
        cases hn1 : normalizeDogName sub.dogName with
        | none => exact absurd ((normalizeDogName_eq_none_iff _).mp hn1) (hname hd hpr)
        | some n1 =>
          refine ⟨trim n1, ?_, ?_⟩
          · rw [if_pos hprompt]
            simp only [hd, if_true]
          · intro hshort
            rw [(normalizeDogName_short _ _ (hshort hd hpr) hn1).1]
            simp [committedName, hd, hpr, hn1]
      · refine ⟨if (getOptions (some p)).dogName then trim sub.dogName else [], ?_, ?_⟩
        · simp only [hprompt, Bool.false_eq_true, if_false]
          cases hd : (getOptions (some p)).dogName <;> simp
        · intro _
          unfold committedName
          cases hd : (getOptions (some p)).dogName
          · simp
          · cases hpr : (getOptions (some p)).dogNamePrompt
            · simp
            · simp [hd, hpr] at hprompt
    obtain ⟨nameP, hp1, hp3⟩ := hpg
    refine ⟨hq1, by rw [hp1], hu1, nameQ, nameP, nameU, hq2, by rw [hp1], hu2, ?_⟩
    intro hshort
    have e1 := hq3 hshort
    have e2 := hp3 hshort
    have e3 := hu3 hshort
    refine ⟨by rw [e1, e2], by rw [e2, e3], ?_⟩
    rw [hq2, hp1, mergeIntoCart_eq_mergeLine, e1, e2]

/-- Witness of C6 (amended): `namedProduct`, the line `lineRed` under edit, and
the submission of the name `" Max "` with nothing else chosen. All three paths
accept; the add paths commit the name `"Max"`. -/
theorem commit_paths_agree_witness :
    findProduct [namedProduct] namedProduct.id = some namedProduct ∧
    (Submission.fits (getOptions (some namedProduct)) { dogName := js " Max " }) ∧
    ¬ onlyWhiteSpace (js " Max ") ∧
    ((modalAddToCartClick [namedProduct] (stateWith {} [lineRed]) (some namedProduct.id)
        (Submission.modalForm { dogName := js " Max " })).1 = .added ∧
      (pAddClick namedProduct
        (Submission.pageForm (getOptions (some namedProduct)) { dogName := js " Max " })
        [lineRed]).1 = .added ∧
      (modalUpdateItemClick [namedProduct] (stateWith {} [lineRed]) (some namedProduct.id)
        (some 0) (Submission.modalForm { dogName := js " Max " })).1 = .updated) :=
  ⟨by decide, by decide, by decide,
   match (commit_paths_agree [namedProduct] namedProduct (stateWith {} [lineRed]) 0 lineRed
      { dogName := js " Max " } (by decide) (by decide) (by decide) (by decide)
      (by decide)).2.2 (by decide) (fun _ _ => by decide) with
   | ⟨h1, h2, h3, _⟩ => ⟨h1, h2, h3⟩⟩

/-- C6, counterexample. The product `colorProduct` has colors; the cart holds
the line `linePlain` whose color is empty, the stored selection is empty and
nothing is submitted. Every path accepts, the quick-view add and the
product-page add commit the color `"red"` (a new line), and the update of line
0 commits the empty color. -/
theorem commit_paths_differ :
    (modalAddToCartClick [colorProduct] (stateWith {} [linePlain]) (some (js "p")) {}).1 =
      .added ∧
    (modalAddToCartClick [colorProduct] (stateWith {} [linePlain]) (some (js "p")) {}).2.CART =
      [linePlain, { linePlain with color := some (js "red") }] ∧
    pAddClick colorProduct (Submission.pageForm (getOptions (some colorProduct)) {})
        [linePlain] =
      (.added, [linePlain, { linePlain with color := some (js "red") }]) ∧
    (modalUpdateItemClick [colorProduct] (stateWith {} [linePlain]) (some (js "p")) (some 0)
      {}).1 = .updated ∧
    (modalUpdateItemClick [colorProduct] (stateWith {} [linePlain]) (some (js "p")) (some 0)
      {}).2.CART = [{ linePlain with color := some [] }] ∧
    js "red" ≠ [] := by
  decide

/-! ## Adding twice -/

theorem incrementFirst_append (pred : CartLine → Bool) (pre post : List CartLine)
    (item : CartLine) (hpre : ∀ x ∈ pre, pred x = false) (hitem : pred item = true) :
    incrementFirst pred (pre ++ item :: post) =
      some (pre ++ { item with quantity := item.quantity + 1 } :: post) := by
  induction pre with
  | nil => simp [incrementFirst, hitem]
  | cons a pre ih =>
    have ha : pred a = false := hpre a (List.mem_cons_self a pre)
    have ih2 := ih (fun x hx => hpre x (List.mem_cons_of_mem a hx))
    simp [incrementFirst, ha, ih2]

theorem keyMatch_quantity (id : JSString) (sel : Selection) (item : CartLine) (q : Int) :
    keyMatch id sel { item with quantity := q } = keyMatch id sel item := rfl

/-- Merging the same selection twice increments one line twice: either an
existing line, or the line appended by the first merge. -/
theorem mergeIntoCart_twice (id : JSString) (sel : Selection) (CART : List CartLine) :
    (∃ pre item post, CART = pre ++ item :: post ∧
      mergeIntoCart id sel CART = pre ++ { item with quantity := item.quantity + 1 } :: post ∧
      mergeIntoCart id sel (mergeIntoCart id sel CART) =
        pre ++ { item with quantity := item.quantity + 1 + 1 } :: post) ∨
    (∃ new : CartLine, new.quantity = 1 ∧ mergeIntoCart id sel CART = CART ++ [new] ∧
      mergeIntoCart id sel (mergeIntoCart id sel CART) =
        CART ++ [{ new with quantity := 1 + 1 }]) := by
  by_cases hex : ∃ x ∈ CART, keyMatch id sel x = true
  · left
    obtain ⟨pre, item, post, hl, hpre, hitem, hinc⟩ := incrementFirst_of_mem _ CART hex
    have h1 : mergeIntoCart id sel CART =
        pre ++ { item with quantity := item.quantity + 1 } :: post := by
      simp [mergeIntoCart, hinc]
    refine ⟨pre, item, post, hl, h1, ?_⟩
    rw [h1]
    have h2 := incrementFirst_append (keyMatch id sel) pre post
      { item with quantity := item.quantity + 1 } hpre
      (by rw [keyMatch_quantity]; exact hitem)
    simp [mergeIntoCart, h2]
  · right
    have hnone : incrementFirst (keyMatch id sel) CART = none := by
      apply incrementFirst_eq_none
      intro x hx
      cases hk : keyMatch id sel x with
      | false => rfl
      | true => exact absurd ⟨x, hx, hk⟩ hex
    have hall : ∀ x ∈ CART, keyMatch id sel x = false := by
      intro x hx
      cases hk : keyMatch id sel x with
      | false => rfl
      | true => exact absurd ⟨x, hx, hk⟩ hex
    have h1 : mergeIntoCart id sel CART =
        CART ++ [{ id := id, quantity := 1, size := some sel.size, dogName := some sel.dogName,
                   note := some sel.note, color := some sel.color }] := by
      simp [mergeIntoCart, hnone]
    refine ⟨_, rfl, h1, ?_⟩
    rw [h1]
    have h2 := incrementFirst_append (keyMatch id sel) CART []
      { id := id, quantity := 1, size := some sel.size, dogName := some sel.dogName,
        note := some sel.note, color := some sel.color } hall
      (by simp [keyMatch, orEmpty])
    simp [mergeIntoCart, h2]

theorem withDefaultColor_idem (opt : Options) (s : Selection) :
    withDefaultColor opt (withDefaultColor opt s) = withDefaultColor opt s := by
  unfold withDefaultColor
  cases opt.colors with
  | none => rfl
  | some colors =>
    by_cases hc : s.color = []
    · by_cases hf : firstColorValue colors = [] <;> simp [truthy, hc, hf]
    · simp [truthy, hc]

/-- The selection that `addToCart` commits is committed again, unchanged, by
the next `addToCart`, when the product does not prompt for the name or the
trimmed name has at most 15 code units. -/
theorem readySelection_idem (opt : Options) (s0 readySel : Selection)
    (hshort : (opt.dogName && opt.dogNamePrompt) = true → (trim s0.dogName).length ≤ 15)
    (h : readySelection opt s0 = .ok readySel) :
    readySelection opt readySel = .ok readySel := by
  unfold readySelection at h ⊢
  have hname : (withDefaultColor opt s0).dogName = s0.dogName := by
    unfold withDefaultColor
    cases opt.colors with
    | none => rfl
    | some colors => by_cases hc : s0.color = [] <;> simp [truthy, hc]
  have hidem := withDefaultColor_idem opt s0
  simp only [] at h ⊢
  rw [hname] at h
  generalize withDefaultColor opt s0 = s1 at h hidem
  have hkeep : ∀ n, withDefaultColor opt { s1 with dogName := n } = { s1 with dogName := n } := by
    intro n
    have e := hidem
    unfold withDefaultColor at e ⊢
    cases hc : opt.colors with
    | none => rfl
    | some colors =>
      rw [hc] at e
      by_cases hcol : s1.color = []
      · simp only [truthy, hcol, List.isEmpty_nil, Bool.not_true, Bool.not_false, if_true] at e ⊢
        have := congrArg Selection.color e
        simp only at this
        simp [this, hcol]
      · simp [truthy, hcol]
  by_cases h1 : (opt.sizesRequired && !truthy s1.size) = true
  · rw [if_pos h1] at h; cases h
  · rw [if_neg h1] at h
    by_cases h2 : (opt.dogName && opt.dogNamePrompt) = true
    · rw [if_pos h2] at h
      cases hn : normalizeDogName s0.dogName with
      | none => rw [hn] at h; cases h
      | some n =>
        rw [hn] at h
        cases h
        have hfix := (normalizeDogName_short _ _ (hshort h2) hn).2
        rw [hkeep n]
        simp only [h1, h2, hfix, if_true, Bool.false_eq_true, if_false]
    · rw [if_neg h2] at h
      cases h
      have e := hkeep readySel.dogName
      simp only at e
      rw [hidem]
      simp only [h1, h2, Bool.false_eq_true, if_false]

/-- Outside the defect shown below, adding twice works as intended: when the
product does not prompt for the name or the stored name has at most 15 code
units after trimming, a second `addToCart` succeeds and increments the line
that the first one incremented or created. -/
theorem addToCart_twice_short_name (PRODUCTS : List Product) (st : MainState) (id : JSString)
    (p : Product) (hp : findProduct PRODUCTS id = some p)
    (hshort : ((getOptions (some p)).dogName && (getOptions (some p)).dogNamePrompt) = true →
      (trim (getSel st.SELECTIONS id).1.dogName).length ≤ 15)
    (h1 : (addToCart PRODUCTS st id).1 = .added) :
    (addToCart PRODUCTS (addToCart PRODUCTS st id).2 id).1 = .added ∧
    ((∃ pre item post, st.CART = pre ++ item :: post ∧
        (addToCart PRODUCTS st id).2.CART =
          pre ++ { item with quantity := item.quantity + 1 } :: post ∧
        (addToCart PRODUCTS (addToCart PRODUCTS st id).2 id).2.CART =
          pre ++ { item with quantity := item.quantity + 1 + 1 } :: post) ∨
     (∃ new : CartLine, new.quantity = 1 ∧
        (addToCart PRODUCTS st id).2.CART = st.CART ++ [new] ∧
        (addToCart PRODUCTS (addToCart PRODUCTS st id).2 id).2.CART =
          st.CART ++ [{ new with quantity := 1 + 1 }])) := by
  rw [getSel_fst] at hshort
  have key1 := addToCart_eq PRODUCTS st id p hp
  have key2 := addToCart_eq PRODUCTS (addToCart PRODUCTS st id).2 id p hp
  cases hr : readySelection (getOptions (some p)) ((st.SELECTIONS id).getD {}) with
  | error o =>
    rw [hr] at key1
    have ho : o = .added := by rw [← key1.1, h1]
    rcases readySelection_error _ _ _ hr with e | e <;> rw [e] at ho <;> cases ho
  | ok readySel =>
    rw [hr] at key1
    obtain ⟨_, hc1, hs1⟩ := key1
    rw [hs1, Option.getD_some, readySelection_idem _ _ _ hshort hr] at key2
    obtain ⟨ho2, hc2, _⟩ := key2
    refine ⟨ho2, ?_⟩
    rw [hc2, hc1]
    exact mergeIntoCart_twice id readySel st.CART

/-- C1, at the failing input. The product `namedProduct` prompts for a name and
the stored name is `"Captain Fluffy McBark"`. The first `addToCart` succeeds and
creates a line named `"Captain Fluffy "` (15 code units, ending in a space);
the second `addToCart`, on the selection the first call left, succeeds and
creates a second line, named `"Captain Fluffy"`, instead of incrementing the
first: the cart has two lines of quantity 1. -/
theorem addToCart_twice_long_name :
    (addToCart [namedProduct] (stateWith { dogName := js "Captain Fluffy McBark" } [])
      (js "p")).1 = .added ∧
    (addToCart [namedProduct] (stateWith { dogName := js "Captain Fluffy McBark" } [])
      (js "p")).2.CART = [lineNamed "Captain Fluffy "] ∧
    (addToCart [namedProduct]
      (addToCart [namedProduct] (stateWith { dogName := js "Captain Fluffy McBark" } [])
        (js "p")).2 (js "p")).1 = .added ∧
    (addToCart [namedProduct]
      (addToCart [namedProduct] (stateWith { dogName := js "Captain Fluffy McBark" } [])
        (js "p")).2 (js "p")).2.CART =
      [lineNamed "Captain Fluffy ", lineNamed "Captain Fluffy"] := by
  decide

/-! ## Removing a line -/

/-- C16. For a valid index `i`, the remove-line handler removes exactly line
`i`, whatever the line holds: the cart is one line shorter, the lines before
`i` and the lines after `i` are kept, with their contents, in their order. -/
theorem removeLine_spec (CART : List CartLine) (i : Nat) (h : i < CART.length) :
    removeLine CART i = CART.take i ++ CART.drop (i + 1) ∧
    (removeLine CART i).length + 1 = CART.length ∧
    (∀ j, j < i → (removeLine CART i)[j]? = CART[j]?) ∧
    (∀ j, i ≤ j → (removeLine CART i)[j]? = CART[j + 1]?) := by
  unfold removeLine
  refine ⟨List.eraseIdx_eq_take_drop_succ CART i, ?_, ?_, ?_⟩
  · rw [List.length_eraseIdx_of_lt h]
    omega
  · intro j hj
    exact List.getElem?_eraseIdx_of_lt CART i j hj
  · intro j hj
    exact List.getElem?_eraseIdx_of_ge CART i j hj

/-- Witness of C16: removing line 0 of `[lineL, lineM]` leaves `[lineM]`. -/
theorem removeLine_spec_witness :
    0 < [lineL, lineM].length ∧ removeLine [lineL, lineM] 0 = [lineM] :=
  ⟨by decide, (removeLine_spec [lineL, lineM] 0 (by decide)).1⟩

/-! ## The update handler, in closed form -/

/-- What an accepted update does: the index holds a line, the validated name
is stored with the submission, and line `idx` is rewritten in place from the
stored selection. -/
theorem update_result (PRODUCTS : List Product) (st st2 : MainState) (id : JSString)
    (idx : Nat) (form : ModalForm)
    (h : modalUpdateItemClick PRODUCTS st (some id) (some idx) form = (.updated, st2)) :
    ∃ line name sel,
      st.CART[idx]? = some line ∧
      (if (getOptions (findProduct PRODUCTS id)).dogName &&
          (getOptions (findProduct PRODUCTS id)).dogNamePrompt then
        normalizeDogName (trim form.dogName) else some (trim form.dogName)) = some name ∧
      sel = ((st.SELECTIONS id).getD {}).merge
        (modalNext (getOptions (findProduct PRODUCTS id)) form name) ∧
      st2.SELECTIONS id = some sel ∧
      st2.CART = st.CART.set idx
        { line with
          size := some sel.size
          dogName := some sel.dogName
          note := some sel.note
          color := some (if truthy sel.color then sel.color else orEmpty line.color) } := by
  generalize hopt : getOptions (findProduct PRODUCTS id) = opt at h ⊢
  unfold modalUpdateItemClick at h
  simp only [hopt] at h
  by_cases hid : truthy id = true
  swap
  · simp [hid] at h
  by_cases h1 : (opt.sizesRequired && !truthy form.size) = true
  · simp [hid, h1] at h
  generalize hv : (if (opt.dogName && opt.dogNamePrompt) = true then
      normalizeDogName (trim form.dogName) else some (trim form.dogName)) = validated at h ⊢
  cases validated with
  | none => simp [hid, h1] at h
  | some name =>
    cases hl : st.CART[idx]? with
    | none => simp [hid, h1, hl] at h
    | some line =>
      simp only [hid, h1, hl, Bool.not_true, Bool.false_eq_true, if_false, getSel_setSel,
        Prod.mk.injEq, true_and] at h
      subst h
      exact ⟨line, name, _, rfl, rfl, rfl, setSel_self _ _ _, rfl⟩

/-- C15. An accepted update of line `idx` performs no merge and no dedup: the
cart keeps its length, line `idx` is still at position `idx` with its id and
quantity, and every other line is unchanged. This holds also when the edit
makes the line identical to another one: editing the second line of
`[lineM, lineL]` to size `"M"` leaves two lines with the same id and the same
four option fields. -/
theorem updateLine_frame (PRODUCTS : List Product) (st st2 : MainState) (id : JSString)
    (idx : Nat) (form : ModalForm)
    (h : modalUpdateItemClick PRODUCTS st (some id) (some idx) form = (.updated, st2)) :
    st2.CART.length = st.CART.length ∧
    (∀ j, j ≠ idx → st2.CART[j]? = st.CART[j]?) ∧
    (∃ line line2, st.CART[idx]? = some line ∧ st2.CART[idx]? = some line2 ∧
      line2.id = line.id ∧ line2.quantity = line.quantity) ∧
    (modalUpdateItemClick [sizedProduct] (stateWith {} [lineM, lineL]) (some (js "p")) (some 1)
        { size := js "M" }).1 = .updated ∧
    (modalUpdateItemClick [sizedProduct] (stateWith {} [lineM, lineL]) (some (js "p")) (some 1)
        { size := js "M" }).2.CART =
      [lineM, { lineM with quantity := 1 }] := by
  obtain ⟨line, name, sel, hl, _, _, _, hc⟩ := update_result PRODUCTS st st2 id idx form h
  have hlt : idx < st.CART.length := by
    rcases Nat.lt_or_ge idx st.CART.length with h1 | h1
    · exact h1
    · rw [List.getElem?_eq_none h1] at hl; cases hl
  refine ⟨?_, ?_, ?_, by decide, by decide⟩
  · rw [hc, List.length_set]
  · intro j hj
    rw [hc, List.getElem?_set_ne (Ne.symm hj)]
  · rw [hc]
    exact ⟨line, _, hl, List.getElem?_set_self hlt, rfl, rfl⟩

/-- Witness of C15: the second line of `[lineM, lineL]` is edited; the cart still
has two lines and the first one is untouched. -/
theorem updateLine_frame_witness :
    (modalUpdateItemClick [sizedProduct] (stateWith {} [lineM, lineL]) (some (js "p")) (some 1)
        { size := js "M" }).1 = .updated ∧
    (modalUpdateItemClick [sizedProduct] (stateWith {} [lineM, lineL]) (some (js "p")) (some 1)
        { size := js "M" }).2.CART.length = 2 ∧
    (modalUpdateItemClick [sizedProduct] (stateWith {} [lineM, lineL]) (some (js "p")) (some 1)
        { size := js "M" }).2.CART[0]? = some lineM :=
  ⟨by decide,
   (updateLine_frame [sizedProduct] (stateWith {} [lineM, lineL]) _ (js "p") 1
      { size := js "M" } (Prod.ext (by decide) rfl)).1,
   ((updateLine_frame [sizedProduct] (stateWith {} [lineM, lineL]) _ (js "p") 1
      { size := js "M" } (Prod.ext (by decide) rfl)).2.1 0 (by decide)).trans (by decide)⟩

/-! ## The selection store, as the shopper sees it -/

/-- C17. After `setSel(id, patch)`, the selection that `getSel(id)` returns has,
for each of the keys size, dogName, note and color, the value of the patch when
the patch has the key, and otherwise the value it had before, which is the
empty string when no selection was stored for `id`. The selections of the other
product ids are unchanged. -/
theorem setSel_spec (S : Selections) (id : JSString) (patch : Patch) :
    (∀ v, patch.size = some v → (getSel (setSel S id patch) id).1.size = v) ∧
    (∀ v, patch.dogName = some v → (getSel (setSel S id patch) id).1.dogName = v) ∧
    (∀ v, patch.note = some v → (getSel (setSel S id patch) id).1.note = v) ∧
    (∀ v, patch.color = some v → (getSel (setSel S id patch) id).1.color = v) ∧
    (patch.size = none →
      (getSel (setSel S id patch) id).1.size = (getSel S id).1.size) ∧
    (patch.dogName = none →
      (getSel (setSel S id patch) id).1.dogName = (getSel S id).1.dogName) ∧
    (patch.note = none →
      (getSel (setSel S id patch) id).1.note = (getSel S id).1.note) ∧
    (patch.color = none →
      (getSel (setSel S id patch) id).1.color = (getSel S id).1.color) ∧
    (S id = none → (getSel S id).1 = { size := [], dogName := [], note := [], color := [] }) ∧
    (∀ s, S id = some s → (getSel S id).1 = s) ∧
    (∀ k, k ≠ id → setSel S id patch k = S k) ∧
    (∀ k, k ≠ id → (getSel (setSel S id patch) k).1 = (getSel S k).1) := by
  have hother : ∀ k, k ≠ id → setSel S id patch k = S k := by
    intro k hk
    unfold setSel getSel
    cases h : S id <;> simp [Selections.store, hk, h]
  rw [getSel_setSel]
  simp only [getSel_fst]
  refine ⟨?_, ?_, ?_, ?_, ?_, ?_, ?_, ?_, ?_, ?_, hother, ?_⟩
  · intro v hv; simp [Selection.merge, hv]
  · intro v hv; simp [Selection.merge, hv]
  · intro v hv; simp [Selection.merge, hv]
  · intro v hv; simp [Selection.merge, hv]
  · intro hv; simp [Selection.merge, hv]
  · intro hv; simp [Selection.merge, hv]
  · intro hv; simp [Selection.merge, hv]
  · intro hv; simp [Selection.merge, hv]
  · intro hn; simp [hn]
  · intro s hs; simp [hs]
  · intro k hk; rw [hother k hk]

/-- Witness of C17: with the selection of `"p"` holding size `"M"`, a patch of
the color alone sets the color and keeps the size. -/
theorem setSel_spec_witness :
    (getSel (setSel (stateWith { size := js "M" } []).SELECTIONS (js "p")
      { color := some (js "red") }) (js "p")).1.color = js "red" ∧
    (getSel (setSel (stateWith { size := js "M" } []).SELECTIONS (js "p")
      { color := some (js "red") }) (js "p")).1.size = js "M" ∧
    setSel (stateWith { size := js "M" } []).SELECTIONS (js "p")
      { color := some (js "red") } (js "q") = none :=
  ⟨(setSel_spec _ (js "p") { color := some (js "red") }).2.2.2.1 (js "red") rfl,
   ((setSel_spec (stateWith { size := js "M" } []).SELECTIONS (js "p")
      { color := some (js "red") }).2.2.2.2.1 rfl).trans (by decide),
   ((setSel_spec (stateWith { size := js "M" } []).SELECTIONS (js "p")
      { color := some (js "red") }).2.2.2.2.2.2.2.2.2.2.1 (js "q") (by decide)).trans
      (by decide)⟩
/-! ## The 15-unit bound on names -/

theorem trim_length_le (s : JSString) : (trim s).length ≤ s.length := by
  unfold trim
  rw [List.length_reverse]
  calc ((s.dropWhile isWhiteSpace).reverse.dropWhile isWhiteSpace).length
      ≤ (s.dropWhile isWhiteSpace).reverse.length := (List.dropWhile_suffix _).length_le
    _ = (s.dropWhile isWhiteSpace).length := List.length_reverse _
    _ ≤ s.length := (List.dropWhile_suffix _).length_le

theorem normalizeDogName_length (raw n : JSString) (h : normalizeDogName raw = some n) :
    n.length ≤ 15 := by
  unfold normalizeDogName at h
  simp only [] at h
  split at h
  · cases h
  · split at h
    · cases h; decide
    · split at h
      · cases h
        rw [List.length_take]
        exact Nat.min_le_left _ _
      · cases h
        omega

theorem readySelection_prompted (opt : Options) (s0 readySel : Selection)
    (hd : opt.dogName = true) (hp : opt.dogNamePrompt = true)
    (h : readySelection opt s0 = .ok readySel) :
    ∃ raw, normalizeDogName raw = some readySel.dogName := by
  unfold readySelection at h
  generalize withDefaultColor opt s0 = s1 at h
  simp only [hd, hp, Bool.and_self, if_true] at h
  split at h
  · cases h
  · split at h
    · cases h
    · rename_i n hn
      cases h
      exact ⟨_, hn⟩

theorem modalAddToCartClick_added (PRODUCTS : List Product) (st st2 : MainState)
    (id : JSString) (form : ModalForm)
    (h : modalAddToCartClick PRODUCTS st (some id) form = (.added, st2)) :
    ∃ S1, addToCart PRODUCTS { st with SELECTIONS := S1 } id = (.added, st2) := by
  unfold modalAddToCartClick at h
  simp only [] at h
  split at h
  · cases h
  · split at h
    · cases h
    · split at h
      · cases h
      · exact ⟨_, h⟩

/-- C18. A name returned by `normalizeDogName` has at most 15 code units, and
so has every name committed by a path that normalises: for a product that
offers and prompts for the name, the name of the selection committed by
`addToCart` (also when called from the quick-view handler), of the line
committed by the product-page handler and of the line rewritten by the update
handler has at most 15 code units. -/
theorem dogName_at_most_15 (PRODUCTS : List Product) (st st2 : MainState) (id : JSString)
    (product : Product) (form : ModalForm) (pform : PageForm) (idx : Nat)
    (CART CART2 : List CartLine) :
    (∀ raw n, normalizeDogName raw = some n → n.length ≤ 15) ∧
    ((getOptions (findProduct PRODUCTS id)).dogName = true →
      (getOptions (findProduct PRODUCTS id)).dogNamePrompt = true →
      addToCart PRODUCTS st id = (.added, st2) →
      ∃ sel, st2.SELECTIONS id = some sel ∧ sel.dogName.length ≤ 15 ∧
        st2.CART = mergeIntoCart id sel st.CART) ∧
    ((getOptions (findProduct PRODUCTS id)).dogName = true →
      (getOptions (findProduct PRODUCTS id)).dogNamePrompt = true →
      modalAddToCartClick PRODUCTS st (some id) form = (.added, st2) →
      ∃ sel, st2.SELECTIONS id = some sel ∧ sel.dogName.length ≤ 15 ∧
        st2.CART = mergeIntoCart id sel st.CART) ∧
    ((getOptions (some product)).dogName = true →
      (getOptions (some product)).dogNamePrompt = true →
      pAddClick product pform CART = (.added, CART2) →
      ∃ line name, line.id = product.id ∧ line.dogName = some name ∧ name.length ≤ 15 ∧
        CART2 = mergeLine line CART) ∧
    ((getOptions (findProduct PRODUCTS id)).dogName = true →
      (getOptions (findProduct PRODUCTS id)).dogNamePrompt = true →
      modalUpdateItemClick PRODUCTS st (some id) (some idx) form = (.updated, st2) →
      ∃ line2 name, st2.CART[idx]? = some line2 ∧ line2.dogName = some name ∧
        name.length ≤ 15) := by
  have hadd : ∀ (s s2 : MainState),
      (getOptions (findProduct PRODUCTS id)).dogName = true →
      (getOptions (findProduct PRODUCTS id)).dogNamePrompt = true →
      addToCart PRODUCTS s id = (.added, s2) →
      ∃ sel, s2.SELECTIONS id = some sel ∧ sel.dogName.length ≤ 15 ∧
        s2.CART = mergeIntoCart id sel s.CART := by
    intro s s2 hd hp h
    cases hf : findProduct PRODUCTS id with
    | none => simp [addToCart, hf] at h
    | some p =>
      rw [hf] at hd hp
      have key := addToCart_eq PRODUCTS s id p hf
      cases hr : readySelection (getOptions (some p)) ((s.SELECTIONS id).getD {}) with
      | error o =>
        rw [hr] at key
        have ho : o = .added := by rw [← key.1, h]
        rcases readySelection_error _ _ _ hr with e | e <;> rw [e] at ho <;> cases ho
      | ok readySel =>
        rw [hr] at key
        obtain ⟨raw, hraw⟩ := readySelection_prompted _ _ _ hd hp hr
        refine ⟨readySel, ?_, normalizeDogName_length _ _ hraw, ?_⟩
        · rw [← key.2.2, h]
        · rw [← key.2.1, h]
  refine ⟨normalizeDogName_length, hadd st st2, ?_, ?_, ?_⟩
  · intro hd hp h
    obtain ⟨S1, h1⟩ := modalAddToCartClick_added PRODUCTS st st2 id form h
    exact hadd { st with SELECTIONS := S1 } st2 hd hp h1
  · intro hd hp h
    have hd2 : (product.options.getD {}).dogName = true := hd
    have hp2 : (product.options.getD {}).dogNamePrompt = true := hp
    unfold pAddClick at h
    generalize elValue pform.sizeEl = sizeVal at h
    generalize elValue pform.dogEl = dogVal at h
    generalize trim (elValue pform.noteEl) = noteVal at h
    simp only [hd2, hp2, Bool.and_self, if_true] at h
    split at h
    · cases h
    · split at h
      · cases h
      · rename_i n hn
        simp only [Prod.mk.injEq, true_and] at h
        refine ⟨_, trim n, rfl, rfl, ?_, h.symm⟩
        exact le_trans (trim_length_le n) (normalizeDogName_length _ _ hn)
  · intro hd hp h
    obtain ⟨line, name, sel, hl, hname, hsel, _, hc⟩ :=
      update_result PRODUCTS st st2 id idx form h
    have hlt : idx < st.CART.length := by
      rcases Nat.lt_or_ge idx st.CART.length with h1 | h1
      · exact h1
      · rw [List.getElem?_eq_none h1] at hl; cases hl
    simp only [hd, hp, Bool.and_self, if_true] at hname
    have hseln : sel.dogName = name := by
      rw [hsel]
      simp [Selection.merge, modalNext, hd]
    rw [hc]
    refine ⟨_, sel.dogName, List.getElem?_set_self hlt, rfl, ?_⟩
    rw [hseln]
    exact normalizeDogName_length _ _ hname

/-- Witness of C18: `namedProduct` prompts for the name, and the quick-view add
of the 21-unit name `"Captain Fluffy McBark"` is accepted. -/
theorem dogName_at_most_15_witness :
    (getOptions (findProduct [namedProduct] (js "p"))).dogName = true ∧
    (getOptions (findProduct [namedProduct] (js "p"))).dogNamePrompt = true ∧
    (modalAddToCartClick [namedProduct] (freshState []) (some (js "p"))
      { dogName := js "Captain Fluffy McBark" }).1 = .added ∧
    ∃ sel,
      (modalAddToCartClick [namedProduct] (freshState []) (some (js "p"))
        { dogName := js "Captain Fluffy McBark" }).2.SELECTIONS (js "p") = some sel ∧
      sel.dogName.length ≤ 15 :=
  ⟨by decide, by decide, by decide,
   match (dogName_at_most_15 [namedProduct] (freshState []) _ (js "p") namedProduct
      { dogName := js "Captain Fluffy McBark" } {} 0 [] []).2.2.1 (by decide) (by decide)
      (Prod.ext (by decide) rfl) with
   | ⟨sel, h1, h2, _⟩ => ⟨sel, h1, h2⟩⟩

/-! ## The quantity invariant -/

theorem incrementFirst_positive (pred : CartLine → Bool) (l r : List CartLine)
    (h : incrementFirst pred l = some r) (hq : QuantitiesPositive l) :
    QuantitiesPositive r := by
  induction l generalizing r with
  | nil => simp [incrementFirst] at h
  | cons a l ih =>
    have ha : 1 ≤ a.quantity := hq a (List.mem_cons_self a l)
    have hl : QuantitiesPositive l := fun x hx => hq x (List.mem_cons_of_mem a hx)
    unfold incrementFirst at h
    split at h
    · cases h
      intro x hx
      rcases List.mem_cons.mp hx with rfl | hx
      · show 1 ≤ a.quantity + 1
        omega
      · exact hl x hx
    · cases hr : incrementFirst pred l with
      | none => simp [hr] at h
      | some r2 =>
        simp only [hr, Option.map_some', Option.some.injEq] at h
        subst h
        intro x hx
        rcases List.mem_cons.mp hx with rfl | hx
        · exact ha
        · exact ih r2 hr hl x hx

theorem mergeIntoCart_positive (id : JSString) (sel : Selection) (CART : List CartLine)
    (hq : QuantitiesPositive CART) : QuantitiesPositive (mergeIntoCart id sel CART) := by
  unfold mergeIntoCart
  cases h : incrementFirst (keyMatch id sel) CART with
  | some r => exact incrementFirst_positive _ _ _ h hq
  | none =>
    intro x hx
    rcases List.mem_append.mp hx with hx | hx
    · exact hq x hx
    · rw [List.mem_singleton] at hx
      subst hx
      exact le_refl _

theorem mergeLine_positive (line : CartLine) (CART : List CartLine) (hl : 1 ≤ line.quantity)
    (hq : QuantitiesPositive CART) : QuantitiesPositive (mergeLine line CART) := by
  unfold mergeLine
  cases h : incrementFirst (keyMatchLine line) CART with
  | some r => exact incrementFirst_positive _ _ _ h hq
  | none =>
    intro x hx
    rcases List.mem_append.mp hx with hx | hx
    · exact hq x hx
    · rw [List.mem_singleton] at hx
      subst hx
      exact hl

theorem addToCart_cart (PRODUCTS : List Product) (st : MainState) (id : JSString) :
    (addToCart PRODUCTS st id).2.CART = st.CART ∨
    ∃ sel, (addToCart PRODUCTS st id).2.CART = mergeIntoCart id sel st.CART := by
  cases hp : findProduct PRODUCTS id with
  | none => left; simp [addToCart, hp]
  | some p =>
    have key := addToCart_eq PRODUCTS st id p hp
    cases hr : readySelection (getOptions (some p)) ((st.SELECTIONS id).getD {}) with
    | error o => rw [hr] at key; exact Or.inl key.2
    | ok sel => rw [hr] at key; exact Or.inr ⟨sel, key.2.1⟩

theorem addToCart_positive (PRODUCTS : List Product) (st : MainState) (id : JSString)
    (hq : QuantitiesPositive st.CART) :
    QuantitiesPositive (addToCart PRODUCTS st id).2.CART := by
  rcases addToCart_cart PRODUCTS st id with h | ⟨sel, h⟩
  · rw [h]; exact hq
  · rw [h]; exact mergeIntoCart_positive _ _ _ hq

theorem modalAddToCartClick_positive (PRODUCTS : List Product) (st : MainState)
    (id : Option JSString) (form : ModalForm) (hq : QuantitiesPositive st.CART) :
    QuantitiesPositive (modalAddToCartClick PRODUCTS st id form).2.CART := by
  unfold modalAddToCartClick
  split
  · exact hq
  · simp only []
    split
    · exact hq
    · split
      · exact hq
      · split
        · exact hq
        · exact addToCart_positive _ _ _ hq

theorem set_positive (CART : List CartLine) (idx : Nat) (line : CartLine)
    (hl : 1 ≤ line.quantity) (hq : QuantitiesPositive CART) :
    QuantitiesPositive (CART.set idx line) := by
  intro x hx
  rcases List.mem_or_eq_of_mem_set hx with h | h
  · exact hq x h
  · rw [h]; exact hl

theorem modalUpdateItemClick_positive (PRODUCTS : List Product) (st : MainState)
    (id : Option JSString) (idx : Option Nat) (form : ModalForm)
    (hq : QuantitiesPositive st.CART) :
    QuantitiesPositive (modalUpdateItemClick PRODUCTS st id idx form).2.CART := by
  unfold modalUpdateItemClick
  split
  · split
    · exact hq
    · simp only []
      split
      · exact hq
      · split
        · exact hq
        · split
          · exact hq
          · rename_i line hl
            exact set_positive _ _ _ (hq line (List.getElem?_mem hl)) hq
  · exact hq

theorem changeQuantity_positive (CART : List CartLine) (idx : Nat) (delta : Int)
    (hq : QuantitiesPositive CART) : QuantitiesPositive (changeQuantity CART idx delta) := by
  unfold changeQuantity
  split
  · exact hq
  · simp only []
    split
    · intro x hx
      exact hq x (List.mem_of_mem_eraseIdx hx)
    · rename_i hpos
      exact set_positive _ _ _ (by show 1 ≤ _ + delta; omega) hq

theorem pAddClick_positive (product : Product) (form : PageForm) (CART : List CartLine)
    (hq : QuantitiesPositive CART) : QuantitiesPositive (pAddClick product form CART).2 := by
  unfold pAddClick
  simp only []
  split
  · exact hq
  · split
    · exact hq
    · exact mergeLine_positive _ _ (le_refl _) hq

theorem removeLine_positive (CART : List CartLine) (idx : Nat)
    (hq : QuantitiesPositive CART) : QuantitiesPositive (removeLine CART idx) := by
  intro x hx
  exact hq x (List.mem_of_mem_eraseIdx hx)

theorem applyOp_positive (st : MainState) (op : CartOp) (hq : QuantitiesPositive st.CART) :
    QuantitiesPositive (applyOp st op).CART := by
  cases op with
  | add PRODUCTS productId => exact addToCart_positive _ _ _ hq
  | quickAdd PRODUCTS id form => exact modalAddToCartClick_positive _ _ _ _ hq
  | update PRODUCTS id idx form => exact modalUpdateItemClick_positive _ _ _ _ _ hq
  | select productId patch => exact hq
  | quantity idx delta => exact changeQuantity_positive _ _ _ hq
  | pageAdd product form => exact pAddClick_positive _ _ _ hq
  | remove idx => exact removeLine_positive _ _ hq

/-- C14. Quantity at least 1 is an invariant of the cart: from a cart in which
every line has quantity at least 1 (the empty cart included), every sequence of
adds (card button, quick view, product page), updates of a line, quantity
changes by any integer, removals and changes of the stored selections leads to
a cart in which every line has quantity at least 1. -/
theorem quantity_invariant (ops : List CartOp) (st : MainState)
    (hq : QuantitiesPositive st.CART) :
    QuantitiesPositive (ops.foldl applyOp st).CART := by
  induction ops generalizing st with
  | nil => exact hq
  | cons op ops ih => exact ih (applyOp st op) (applyOp_positive st op hq)

/-- Witness of C14: from the empty cart, adding `plainProduct` twice, lowering
the quantity by 5 and adding once more on the product page. -/
theorem quantity_invariant_witness :
    QuantitiesPositive (freshState []).CART ∧
    QuantitiesPositive
      ([CartOp.add [plainProduct] (js "p"), CartOp.add [plainProduct] (js "p"),
        CartOp.quantity 0 (-5), CartOp.pageAdd plainProduct {}].foldl applyOp
        (freshState [])).CART ∧
    ([CartOp.add [plainProduct] (js "p"), CartOp.add [plainProduct] (js "p"),
      CartOp.quantity 0 (-5), CartOp.pageAdd plainProduct {}].foldl applyOp
      (freshState [])).CART = [linePlain] :=
  ⟨by decide,
   quantity_invariant
     [CartOp.add [plainProduct] (js "p"), CartOp.add [plainProduct] (js "p"),
      CartOp.quantity 0 (-5), CartOp.pageAdd plainProduct {}] (freshState []) (by decide),
   by decide⟩

/-! ## Reading back what `JSON.stringify` wrote -/

theorem hexVal_hexDigit (d : Nat) (h : d < 16) : hexVal (hexDigit d) = some d := by
  unfold hexVal hexDigit
  split_ifs <;> (congr 1; omega)

theorem parseHex4_hex4 (c : Nat) (rest : List Nat) (h : c < 65536) :
    parseHex4 (hex4 c ++ rest) = some (c, rest) := by
  have h1 := hexVal_hexDigit (c / 4096 % 16) (Nat.mod_lt _ (by norm_num))
  have h2 := hexVal_hexDigit (c / 256 % 16) (Nat.mod_lt _ (by norm_num))
  have h3 := hexVal_hexDigit (c / 16 % 16) (Nat.mod_lt _ (by norm_num))
  have h4 := hexVal_hexDigit (c % 16) (Nat.mod_lt _ (by norm_num))
  simp only [parseHex4, hex4, List.cons_append, List.nil_append, h1, h2, h3, h4]
  congr 2
  omega

theorem parseChars_escape (fuel c : Nat) (rest : List Nat) (h : c < 65536) :
    parseChars (fuel + 1) (92 :: 117 :: (hex4 c ++ rest)) =
      (parseChars fuel rest).map (fun r => (c :: r.1, r.2)) := by
  simp [parseChars, parseHex4_hex4 c rest h]

theorem quoteUnit_cases (prev next : Option Nat) (c : Nat) :
    (∃ e, quoteUnit prev c next = [92, e] ∧ e ≠ 117 ∧ unescape e = some c) ∨
    (quoteUnit prev c next = 92 :: 117 :: hex4 c ∧ c < 65536) ∨
    (quoteUnit prev c next = [c] ∧ c ≠ 34 ∧ c ≠ 92 ∧ 32 ≤ c) := by
  unfold quoteUnit
  by_cases h1 : c = 8
  · subst h1; exact Or.inl ⟨98, rfl, by decide, by decide⟩
  rw [if_neg h1]
  by_cases h2 : c = 9
  · subst h2; exact Or.inl ⟨116, rfl, by decide, by decide⟩
  rw [if_neg h2]
  by_cases h3 : c = 10
  · subst h3; exact Or.inl ⟨110, rfl, by decide, by decide⟩
  rw [if_neg h3]
  by_cases h4 : c = 12
  · subst h4; exact Or.inl ⟨102, rfl, by decide, by decide⟩
  rw [if_neg h4]
  by_cases h5 : c = 13
  · subst h5; exact Or.inl ⟨114, rfl, by decide, by decide⟩
  rw [if_neg h5]
  by_cases h6 : c = 34
  · subst h6; exact Or.inl ⟨34, rfl, by decide, by decide⟩
  rw [if_neg h6]
  by_cases h7 : c = 92
  · subst h7; exact Or.inl ⟨92, rfl, by decide, by decide⟩
  rw [if_neg h7]
  by_cases h8 : c < 32
  · rw [if_pos h8]; exact Or.inr (Or.inl ⟨rfl, by omega⟩)
  rw [if_neg h8]
  by_cases h9 : isHighSurrogate c = true
  · rw [if_pos h9]
    have hc : c < 65536 := by
      simp only [isHighSurrogate, Bool.and_eq_true, decide_eq_true_eq] at h9
      omega
    by_cases h10 : (next.map isLowSurrogate).getD false = true
    · rw [if_pos h10]; exact Or.inr (Or.inr ⟨rfl, h6, h7, by omega⟩)
    · rw [if_neg h10]; exact Or.inr (Or.inl ⟨rfl, hc⟩)
  rw [if_neg h9]
  by_cases h11 : isLowSurrogate c = true
  · rw [if_pos h11]
    have hc : c < 65536 := by
      simp only [isLowSurrogate, Bool.and_eq_true, decide_eq_true_eq] at h11
      omega
    by_cases h12 : (prev.map isHighSurrogate).getD false = true
    · rw [if_pos h12]; exact Or.inr (Or.inr ⟨rfl, h6, h7, by omega⟩)
    · rw [if_neg h12]; exact Or.inr (Or.inl ⟨rfl, hc⟩)
  rw [if_neg h11]
  exact Or.inr (Or.inr ⟨rfl, h6, h7, by omega⟩)

theorem parseChars_quoteUnit (fuel : Nat) (prev next : Option Nat) (c : Nat)
    (rest : List Nat) :
    parseChars (fuel + 1) (quoteUnit prev c next ++ rest) =
      (parseChars fuel rest).map (fun r => (c :: r.1, r.2)) := by
  rcases quoteUnit_cases prev next c with ⟨e, he, hne, hun⟩ | ⟨he, hc⟩ | ⟨he, h34, h92, h32⟩
  · rw [he]
    simp [parseChars, hne, hun]
  · rw [he]
    exact parseChars_escape fuel c rest hc
  · rw [he]
    have h32b : ¬ c < 32 := by omega
    simp [parseChars, h34, h92, h32b]

theorem quoteUnit_length_pos (prev next : Option Nat) (c : Nat) :
    1 ≤ (quoteUnit prev c next).length := by
  rcases quoteUnit_cases prev next c with ⟨e, he, _, _⟩ | ⟨he, _⟩ | ⟨he, _, _, _⟩ <;>
    rw [he] <;> simp

theorem parseChars_quoteFrom (s : JSString) :
    ∀ (prev : Option Nat) (fuel : Nat) (rest : List Nat), s.length + 1 ≤ fuel →
      parseChars fuel (quoteFrom prev s ++ 34 :: rest) = some (s, rest) := by
  induction s with
  | nil =>
    intro prev fuel rest hf
    obtain ⟨f, rfl⟩ : ∃ f, fuel = f + 1 := ⟨fuel - 1, by simp at hf; omega⟩
    simp [quoteFrom, parseChars]
  | cons c s ih =>
    intro prev fuel rest hf
    obtain ⟨f, rfl⟩ : ∃ f, fuel = f + 1 := ⟨fuel - 1, by simp at hf; omega⟩
    have hf2 : s.length + 1 ≤ f := by simp at hf; omega
    simp only [quoteFrom, List.append_assoc]
    rw [parseChars_quoteUnit, ih (some c) f rest hf2]
    rfl

theorem quoteFrom_length (s : JSString) (prev : Option Nat) :
    s.length ≤ (quoteFrom prev s).length := by
  induction s generalizing prev with
  | nil => simp [quoteFrom]
  | cons c s ih =>
    simp only [quoteFrom, List.length_append, List.length_cons]
    have := quoteUnit_length_pos prev s.head? c
    have := ih (some c)
    omega

/-- The characters after the opening quote of a quoted string are read back
as the string. -/
theorem parseChars_quoted (s : JSString) (rest : List Nat) :
    parseChars ((quoteFrom none s ++ 34 :: rest).length + 1) (quoteFrom none s ++ 34 :: rest) =
      some (s, rest) := by
  apply parseChars_quoteFrom
  have := quoteFrom_length s none
  simp only [List.length_append, List.length_cons]
  omega

theorem skipWs_cons (c : Nat) (rest : List Nat) (h : isJsonWs c = false) :
    skipWs (c :: rest) = c :: rest := by
  simp [skipWs, List.dropWhile, h]

theorem encodes_string (s : JSString) : EncodesAt 1 (quoteJSONString s) (JSON.str s) := by
  intro fuel rest hf _
  obtain ⟨f, rfl⟩ : ∃ f, fuel = f + 1 := ⟨fuel - 1, by omega⟩
  have e : quoteJSONString s ++ rest = 34 :: (quoteFrom none s ++ 34 :: rest) := by
    simp [quoteJSONString]
  rw [e]
  unfold parseValue
  rw [skipWs_cons 34 _ (by decide)]
  simp only [if_true]
  rw [parseChars_quoted]
  rfl
theorem decimalDigits_append (fuel : Nat) :
    ∀ (n : Nat) (acc : List Nat), decimalDigits fuel n acc = decimalDigits fuel n [] ++ acc := by
  induction fuel with
  | zero => intro n acc; rfl
  | succ f ih =>
    intro n acc
    unfold decimalDigits
    by_cases h : n < 10
    · simp [h]
    · simp only [h, if_false]
      rw [ih (n / 10) ((48 + n % 10) :: acc), ih (n / 10) [48 + n % 10]]
      simp

theorem digitsValue_snoc (ds : List Nat) (d : Nat) :
    digitsValue (ds ++ [d]) = 10 * digitsValue ds + (d - 48) := by
  simp [digitsValue, List.foldl_append]

/-- The digits written for `n` are digits, denote `n`, and have no leading
zero unless `n` is 0. -/
theorem decimalDigits_spec (fuel : Nat) :
    ∀ n, n < 10 ^ (fuel + 1) →
      (∀ d ∈ decimalDigits (fuel + 1) n [], isDigit d = true) ∧
      digitsValue (decimalDigits (fuel + 1) n []) = n ∧
      (n = 0 → decimalDigits (fuel + 1) n [] = [48]) ∧
      (1 ≤ n → ∃ c tl, decimalDigits (fuel + 1) n [] = c :: tl ∧ c ≠ 48) := by
  induction fuel with
  | zero =>
    intro n hn
    have h : n < 10 := by simpa using hn
    simp only [decimalDigits, h, if_true]
    refine ⟨?_, ?_, ?_, ?_⟩
    · intro d hd
      rw [List.mem_singleton] at hd
      subst hd
      simp [isDigit]
      omega
    · simp [digitsValue]
    · intro h0; subst h0; rfl
    · intro h1; exact ⟨48 + n, [], rfl, by omega⟩
  | succ f ih =>
    intro n hn
    by_cases h : n < 10
    · simp only [decimalDigits, h, if_true]
      refine ⟨?_, ?_, ?_, ?_⟩
      · intro d hd
        rw [List.mem_singleton] at hd
        subst hd
        simp [isDigit]
        omega
      · simp [digitsValue]
      · intro h0; subst h0; rfl
      · intro h1; exact ⟨48 + n, [], rfl, by omega⟩
    · have hdiv : n / 10 < 10 ^ (f + 1) := by
        rw [Nat.div_lt_iff_lt_mul (by norm_num)]
        calc n < 10 ^ (f + 1 + 1) := hn
          _ = 10 ^ (f + 1) * 10 := by rw [pow_succ]
      obtain ⟨hd, hv, _, hlead⟩ := ih (n / 10) hdiv
      have e : decimalDigits (f + 1 + 1) n [] =
          decimalDigits (f + 1) (n / 10) [] ++ [48 + n % 10] := by
        conv_lhs => unfold decimalDigits
        simp only [h, if_false]
        exact decimalDigits_append (f + 1) (n / 10) [48 + n % 10]
      rw [e]
      refine ⟨?_, ?_, ?_, ?_⟩
      · intro d hmem
        rcases List.mem_append.mp hmem with hm | hm
        · exact hd d hm
        · rw [List.mem_singleton] at hm
          subst hm
          simp [isDigit]
          omega
      · rw [digitsValue_snoc, hv]
        omega
      · intro h0; omega
      · intro _
        obtain ⟨c, tl, hc, hne⟩ := hlead (by omega)
        exact ⟨c, tl ++ [48 + n % 10], by rw [hc]; rfl, hne⟩

theorem decimalNat_spec (n : Nat) :
    (∀ d ∈ decimalNat n, isDigit d = true) ∧ digitsValue (decimalNat n) = n ∧
    (n = 0 → decimalNat n = [48]) ∧
    (1 ≤ n → ∃ c tl, decimalNat n = c :: tl ∧ c ≠ 48) := by
  have h : n < 10 ^ (n + 1) :=
    lt_trans (Nat.lt_pow_self (by norm_num) n) (Nat.pow_lt_pow_right (by norm_num) (by omega))
  exact decimalDigits_spec n n h

theorem takeWhile_digits (ds rest : List Nat) (hd : ∀ d ∈ ds, isDigit d = true)
    (hr : Closes rest) :
    (ds ++ rest).takeWhile isDigit = ds ∧ (ds ++ rest).dropWhile isDigit = rest := by
  obtain ⟨c, r, rfl, hc⟩ := hr
  have hcd : isDigit c = false := by
    rcases hc with h | h | h <;> subst h <;> decide
  induction ds with
  | nil => simp [List.takeWhile, List.dropWhile, hcd]
  | cons d ds ih =>
    have h1 : isDigit d = true := hd d (List.mem_cons_self d ds)
    have ih2 := ih (fun x hx => hd x (List.mem_cons_of_mem d hx))
    simp [List.takeWhile, List.dropWhile, h1, ih2.1, ih2.2]

theorem parseUnsigned_decimalNat (n : Nat) (rest : List Nat) (hr : Closes rest) :
    parseUnsigned (decimalNat n ++ rest) = some ((n : ℚ), rest) := by
  obtain ⟨hd, hv, h0, h1⟩ := decimalNat_spec n
  obtain ⟨ht, hdrop⟩ := takeWhile_digits (decimalNat n) rest hd hr
  have hne : decimalNat n ≠ [] := by
    rcases Nat.eq_zero_or_pos n with hz | hp
    · rw [h0 hz]; simp
    · obtain ⟨c, tl, hc, _⟩ := h1 hp
      rw [hc]; simp
  have hlead : ¬ (1 < (decimalNat n).length ∧ (decimalNat n).head? = some 48) := by
    rintro ⟨hlen, hhead⟩
    rcases Nat.eq_zero_or_pos n with hz | hp
    · rw [h0 hz] at hlen; simp at hlen
    · obtain ⟨c, tl, hc, hc48⟩ := h1 hp
      rw [hc] at hhead
      simp at hhead
      exact hc48 hhead
  obtain ⟨c, r, hrest, hc⟩ := hr
  have hfrac : parseFraction rest = some ([], rest) := by
    rw [hrest]
    unfold parseFraction
    split
    · rename_i heq
      simp only [List.cons.injEq] at heq
      rcases hc with h | h | h <;> omega
    · rfl
  have hexp : parseExponent rest = some (0, rest) := by
    rw [hrest]
    unfold parseExponent
    have : ¬ (c = 101 ∨ c = 69) := by
      rcases hc with h | h | h <;> omega
    simp [this]
  unfold parseUnsigned
  rw [ht, hdrop]
  have hnil : digitsValue [] = 0 := rfl
  simp [hne, hlead, hfrac, hexp, hv, hnil]

theorem parseNumber_decimalInt (q : Int) (rest : List Nat) (hr : Closes rest) :
    parseNumber (decimalInt q ++ rest) = some ((q : ℚ), rest) := by
  unfold decimalInt
  by_cases hq : q < 0
  · simp only [hq, if_true, List.cons_append, parseNumber]
    rw [parseUnsigned_decimalNat _ _ hr]
    simp only [Option.map_some', Option.some.injEq, Prod.mk.injEq, and_true]
    rw [Nat.cast_natAbs, abs_of_neg hq, Int.cast_neg, neg_neg]
  · simp only [hq, if_false]
    obtain ⟨hd, _, h0, h1⟩ := decimalNat_spec q.natAbs
    have hhead : ∃ c tl, decimalNat q.natAbs = c :: tl ∧ isDigit c = true := by
      rcases Nat.eq_zero_or_pos q.natAbs with hz | hp
      · exact ⟨48, [], h0 hz, by decide⟩
      · obtain ⟨c, tl, hc, _⟩ := h1 hp
        exact ⟨c, tl, hc, hd c (by rw [hc]; simp)⟩
    obtain ⟨c, tl, hc, hcd⟩ := hhead
    have hne : c ≠ 45 := by
      intro h; subst h; simp [isDigit] at hcd
    have e := parseUnsigned_decimalNat q.natAbs rest hr
    rw [hc] at e ⊢
    simp only [List.cons_append, parseNumber, hne, if_false] at e ⊢
    rw [e, Nat.cast_natAbs, abs_of_nonneg (not_lt.mp hq)]

theorem decimalInt_head (q : Int) :
    ∃ c tl, decimalInt q = c :: tl ∧ (c = 45 ∨ isDigit c = true) := by
  unfold decimalInt
  by_cases hq : q < 0
  · simp only [hq, if_true]
    exact ⟨45, _, rfl, Or.inl rfl⟩
  · simp only [hq, if_false]
    obtain ⟨hd, _, h0, h1⟩ := decimalNat_spec q.natAbs
    rcases Nat.eq_zero_or_pos q.natAbs with hz | hp
    · exact ⟨48, [], h0 hz, Or.inr (by decide)⟩
    · obtain ⟨c, tl, hc, _⟩ := h1 hp
      exact ⟨c, tl, hc, Or.inr (hd c (by rw [hc]; simp))⟩

theorem parseValue_number (fuel c : Nat) (tl : List Nat)
    (hc : c = 45 ∨ isDigit c = true) :
    parseValue (fuel + 1) (c :: tl) =
      (parseNumber (c :: tl)).map (fun r => (JSON.num r.1, r.2)) := by
  have hrange : c = 45 ∨ (48 ≤ c ∧ c ≤ 57) := by
    rcases hc with h | h
    · exact Or.inl h
    · right
      simpa [isDigit] using h
  have hws : isJsonWs c = false := by
    unfold isJsonWs
    rcases hrange with h | h
    · subst h; decide
    · simp; omega
  have h34 : c ≠ 34 := by omega
  have h91 : c ≠ 91 := by omega
  have h123 : c ≠ 123 := by omega
  unfold parseValue
  rw [skipWs_cons c tl hws]
  simp only [h34, h91, h123, if_false]
  split
  · rename_i heq
    simp only [List.cons.injEq] at heq
    omega
  · rename_i heq
    simp only [List.cons.injEq] at heq
    omega
  · rename_i heq
    simp only [List.cons.injEq] at heq
    omega
  · rfl

theorem encodes_int (q : Int) : EncodesAt 1 (decimalInt q) (JSON.num (q : ℚ)) := by
  intro fuel rest hf hr
  obtain ⟨f, rfl⟩ : ∃ f, fuel = f + 1 := ⟨fuel - 1, by omega⟩
  obtain ⟨c, tl, hc, hcd⟩ := decimalInt_head q
  have e := parseNumber_decimalInt q rest hr
  rw [hc] at e ⊢
  rw [List.cons_append] at e ⊢
  rw [parseValue_number f c _ hcd, e]
  rfl

theorem EncodesAt.mono {k k2 : Nat} {text : List Nat} {v : JSON} (h : EncodesAt k text v)
    (hk : k ≤ k2) : EncodesAt k2 text v :=
  fun fuel rest hf hr => h fuel rest (le_trans hk hf) hr

theorem memberText_eq (key : JSString) (text rest : List Nat) :
    memberText key text ++ rest = 34 :: (quoteFrom none key ++ 34 :: (58 :: (text ++ rest))) := by
  simp [memberText, quoteJSONString]

theorem parseMembers_succ (fuel : Nat) (input : List Nat) :
    parseMembers (fuel + 1) input =
      match skipWs input with
      | 34 :: rest =>
        match parseChars (rest.length + 1) rest with
        | none => none
        | some (key, rest1) =>
          match skipWs rest1 with
          | 58 :: rest2 =>
            match parseValue fuel rest2 with
            | none => none
            | some (v, rest3) =>
              match skipWs rest3 with
              | 44 :: rest4 => (parseMembers fuel rest4).map (fun r => ((key, v) :: r.1, r.2))
              | 125 :: rest4 => some ([(key, v)], rest4)
              | _ => none
          | _ => none
      | _ => none := by
  rw [parseMembers]

theorem parseElements_succ (fuel : Nat) (input : List Nat) :
    parseElements (fuel + 1) input =
      match parseValue fuel input with
      | none => none
      | some (v, rest) =>
        match skipWs rest with
        | 44 :: rest2 => (parseElements fuel rest2).map (fun r => (v :: r.1, r.2))
        | 93 :: rest2 => some ([v], rest2)
        | _ => none := by
  rw [parseElements]

/-- One member followed by a comma: the parser reads it and goes on. -/
theorem parseMembers_comma (fuel : Nat) (key : JSString) (text : List Nat) (v : JSON)
    (more : List Nat) (henc : EncodesAt 1 text v) (hf : 1 ≤ fuel) :
    parseMembers (fuel + 1) (memberText key text ++ 44 :: more) =
      (parseMembers fuel more).map (fun r => ((key, v) :: r.1, r.2)) := by
  rw [memberText_eq]
  rw [parseMembers_succ]
  rw [skipWs_cons 34 _ (by decide)]
  simp only []
  rw [parseChars_quoted]
  simp only []
  rw [skipWs_cons 58 _ (by decide)]
  simp only []
  rw [henc fuel (44 :: more) hf ⟨44, more, rfl, Or.inl rfl⟩]
  simp only []
  rw [skipWs_cons 44 _ (by decide)]

/-- The last member, followed by the closing brace. -/
theorem parseMembers_last (fuel : Nat) (key : JSString) (text : List Nat) (v : JSON)
    (rest : List Nat) (henc : EncodesAt 1 text v) (hf : 1 ≤ fuel) :
    parseMembers (fuel + 1) (memberText key text ++ 125 :: rest) = some ([(key, v)], rest) := by
  rw [memberText_eq]
  rw [parseMembers_succ]
  rw [skipWs_cons 34 _ (by decide)]
  simp only []
  rw [parseChars_quoted]
  simp only []
  rw [skipWs_cons 58 _ (by decide)]
  simp only []
  rw [henc fuel (125 :: rest) hf ⟨125, rest, rfl, Or.inr (Or.inl rfl)⟩]
  simp only []
  rw [skipWs_cons 125 _ (by decide)]

theorem parseMembers_join (ms : List (JSString × List Nat × JSON)) :
    ms ≠ [] → (∀ m ∈ ms, EncodesAt 1 m.2.1 m.2.2) →
    ∀ fuel rest, ms.length + 1 ≤ fuel →
      parseMembers fuel
          (joinComma (ms.map (fun m => memberText m.1 m.2.1)) ++ 125 :: rest) =
        some (ms.map (fun m => (m.1, m.2.2)), rest) := by
  induction ms with
  | nil => intro h; exact absurd rfl h
  | cons m ms ih =>
    intro _ henc fuel rest hf
    obtain ⟨f, rfl⟩ : ∃ f, fuel = f + 1 := ⟨fuel - 1, by simp at hf; omega⟩
    have hm := henc m (List.mem_cons_self m ms)
    cases ms with
    | nil =>
      simp only [List.map_cons, List.map_nil, joinComma]
      exact parseMembers_last f m.1 m.2.1 m.2.2 rest hm (by simp at hf; omega)
    | cons m2 ms2 =>
      have hf2 : (m2 :: ms2).length + 1 ≤ f := by simp at hf ⊢; omega
      simp only [List.map_cons, joinComma, List.append_assoc, List.cons_append]
      rw [parseMembers_comma f m.1 m.2.1 m.2.2 _ hm (by omega)]
      have ih2 := ih (by simp) (fun x hx => henc x (List.mem_cons_of_mem m hx)) f rest hf2
      simp only [List.map_cons] at ih2
      rw [ih2]
      rfl

theorem parseValue_succ_object (fuel : Nat) (rest : List Nat) :
    parseValue (fuel + 1) (123 :: 34 :: rest) =
      (parseMembers fuel (34 :: rest)).map (fun r => (JSON.obj r.1, r.2)) := by
  rw [parseValue]
  rw [skipWs_cons 123 _ (by decide)]
  simp only []
  rw [skipWs_cons 34 _ (by decide)]
  rfl

theorem parseValue_succ_array (fuel : Nat) (rest : List Nat) :
    parseValue (fuel + 1) (91 :: 123 :: rest) =
      (parseElements fuel (123 :: rest)).map (fun r => (JSON.arr r.1, r.2)) := by
  rw [parseValue]
  rw [skipWs_cons 91 _ (by decide)]
  simp only []
  rw [skipWs_cons 123 _ (by decide)]
  rfl

theorem joinComma_members_head (ms : List (JSString × List Nat × JSON)) (hne : ms ≠ []) :
    ∃ tl, joinComma (ms.map (fun m => memberText m.1 m.2.1)) = 34 :: tl := by
  cases ms with
  | nil => exact absurd rfl hne
  | cons m ms =>
    cases ms with
    | nil => exact ⟨_, by simp [joinComma, memberText, quoteJSONString]; rfl⟩
    | cons m2 ms2 => exact ⟨_, by simp [joinComma, memberText, quoteJSONString]; rfl⟩

/-- An object whose members are read back is read back. -/
theorem encodes_object (ms : List (JSString × List Nat × JSON)) (hne : ms ≠ [])
    (henc : ∀ m ∈ ms, EncodesAt 1 m.2.1 m.2.2) :
    EncodesAt (ms.length + 2)
      (123 :: (joinComma (ms.map (fun m => memberText m.1 m.2.1)) ++ [125]))
      (JSON.obj (ms.map (fun m => (m.1, m.2.2)))) := by
  intro fuel rest hf _
  obtain ⟨f, rfl⟩ : ∃ f, fuel = f + 1 := ⟨fuel - 1, by omega⟩
  have key := parseMembers_join ms hne henc f rest (by omega)
  obtain ⟨tl, htl⟩ := joinComma_members_head ms hne
  have e : (123 :: (joinComma (ms.map (fun m => memberText m.1 m.2.1)) ++ [125])) ++ rest =
      123 :: 34 :: (tl ++ 125 :: rest) := by
    rw [htl]; simp
  rw [e, parseValue_succ_object]
  rw [htl] at key
  rw [List.cons_append] at key
  rw [key]
  rfl

theorem lineEntries_text (line : CartLine) :
    stringifyLine line =
      123 :: (joinComma ((lineEntries line).map (fun m => memberText m.1 m.2.1)) ++ [125]) := by
  unfold stringifyLine lineEntries
  cases line.size <;> cases line.dogName <;> cases line.note <;> cases line.color <;>
    simp [optionalMember, optionalEntry]

theorem lineEntries_value (line : CartLine) :
    lineValue line = JSON.obj ((lineEntries line).map (fun m => (m.1, m.2.2))) := by
  unfold lineValue lineEntries
  cases line.size <;> cases line.dogName <;> cases line.note <;> cases line.color <;>
    simp [optionalValue, optionalEntry]

theorem lineEntries_encode (line : CartLine) :
    ∀ m ∈ lineEntries line, EncodesAt 1 m.2.1 m.2.2 := by
  intro m hm
  unfold lineEntries at hm
  simp only [List.mem_append, List.mem_cons, List.mem_singleton, List.not_mem_nil, or_false]
    at hm
  have hopt : ∀ key value, m ∈ optionalEntry key value → EncodesAt 1 m.2.1 m.2.2 := by
    intro key value h
    cases value with
    | none => simp [optionalEntry] at h
    | some s =>
      simp only [optionalEntry, List.mem_singleton] at h
      subst h
      exact encodes_string s
  rcases hm with (((h | h) | h) | h) | h
  · rcases h with h | h
    · subst h; exact encodes_string _
    · subst h; exact encodes_int _
  · exact hopt _ _ h
  · exact hopt _ _ h
  · exact hopt _ _ h
  · exact hopt _ _ h

theorem lineEntries_length (line : CartLine) :
    (lineEntries line) ≠ [] ∧ (lineEntries line).length ≤ 6 := by
  unfold lineEntries
  cases line.size <;> cases line.dogName <;> cases line.note <;> cases line.color <;>
    simp [optionalEntry]

/-- A cart line written by `JSON.stringify` is read back as the line. -/
theorem encodes_line (line : CartLine) : EncodesAt 8 (stringifyLine line) (lineValue line) := by
  rw [lineEntries_text, lineEntries_value]
  have h := encodes_object (lineEntries line) (lineEntries_length line).1
    (lineEntries_encode line)
  exact h.mono (by have := (lineEntries_length line).2; omega)

theorem stringifyLine_head (line : CartLine) : ∃ tl, stringifyLine line = 123 :: 34 :: tl := by
  rw [lineEntries_text]
  obtain ⟨tl, htl⟩ := joinComma_members_head (lineEntries line) (lineEntries_length line).1
  exact ⟨tl ++ [125], by rw [htl]; rfl⟩

theorem parseElements_join (CART : List CartLine) :
    CART ≠ [] → ∀ fuel rest, CART.length + 8 ≤ fuel →
      parseElements fuel (joinComma (CART.map stringifyLine) ++ 93 :: rest) =
        some (CART.map lineValue, rest) := by
  induction CART with
  | nil => intro h; exact absurd rfl h
  | cons line lines ih =>
    intro _ fuel rest hf
    obtain ⟨f, rfl⟩ : ∃ f, fuel = f + 1 := ⟨fuel - 1, by simp at hf; omega⟩
    have hl := encodes_line line
    cases lines with
    | nil =>
      simp only [List.map_cons, List.map_nil, joinComma]
      rw [parseElements_succ,
        hl f (93 :: rest) (by simp at hf; omega) ⟨93, rest, rfl, Or.inr (Or.inr rfl)⟩]
      simp only []
      rw [skipWs_cons 93 _ (by decide)]
    | cons l2 ls =>
      have hf2 : (l2 :: ls).length + 8 ≤ f := by simp at hf ⊢; omega
      simp only [List.map_cons, joinComma, List.append_assoc, List.cons_append]
      rw [parseElements_succ, hl f _ (by omega) ⟨44, _, rfl, Or.inl rfl⟩]
      simp only []
      rw [skipWs_cons 44 _ (by decide)]
      have ih2 := ih (by simp) f rest hf2
      simp only [List.map_cons] at ih2
      simp only []
      rw [ih2]
      rfl

theorem joinComma_length (xs : List (List Nat)) (k : Nat) (h : ∀ x ∈ xs, k ≤ x.length) :
    k * xs.length ≤ (joinComma xs).length := by
  induction xs with
  | nil => simp [joinComma]
  | cons x xs ih =>
    have hx := h x (List.mem_cons_self x xs)
    have ih2 := ih (fun y hy => h y (List.mem_cons_of_mem x hy))
    cases xs with
    | nil => simp [joinComma]; omega
    | cons y ys =>
      simp only [joinComma, List.length_append, List.length_cons] at ih2 ⊢
      rw [Nat.mul_succ]
      omega

/-- The parser reads the text `JSON.stringify(CART)` back as the cart, up to
the end of the text. -/
theorem parse_stringifyCart (CART : List CartLine) :
    JSON.parse (stringifyCart CART) = some (cartValue CART) := by
  unfold JSON.parse
  cases CART with
  | nil => rfl
  | cons line lines =>
    obtain ⟨tl, htl⟩ := stringifyLine_head line
    have hlen : 2 * (line :: lines).length ≤
        (joinComma ((line :: lines).map stringifyLine)).length := by
      have := joinComma_length ((line :: lines).map stringifyLine) 2 (by
        intro x hx
        obtain ⟨l, _, rfl⟩ := List.mem_map.mp hx
        obtain ⟨t, ht⟩ := stringifyLine_head l
        rw [ht]
        simp)
      simpa using this
    have key := parseElements_join (line :: lines) (by simp)
      (2 * (stringifyCart (line :: lines)).length + 1) []
      (by
        simp only [stringifyCart, List.length_cons, List.length_append, List.length_nil]
          at hlen ⊢
        omega)
    have hhead : ∃ tl2, joinComma ((line :: lines).map stringifyLine) = 123 :: tl2 := by
      cases lines with
      | nil => exact ⟨_, by simp only [List.map_cons, List.map_nil, joinComma]; rw [htl]⟩
      | cons l2 ls =>
        exact ⟨_, by simp only [List.map_cons, joinComma]; rw [htl]; rfl⟩
    obtain ⟨tl2, htl2⟩ := hhead
    have e : stringifyCart (line :: lines) = 91 :: 123 :: (tl2 ++ [93]) := by
      unfold stringifyCart
      rw [htl2]; rfl
    have e2 : 2 * (stringifyCart (line :: lines)).length + 2 =
        (2 * (stringifyCart (line :: lines)).length + 1) + 1 := rfl
    rw [e2]
    generalize 2 * (stringifyCart (line :: lines)).length + 1 = fuel at key ⊢
    rw [e, parseValue_succ_array]
    rw [htl2] at key
    rw [List.cons_append] at key
    rw [key]
    simp [skipWs, cartValue]

/-- The text of a cart is never the empty string. -/
theorem stringifyCart_truthy (CART : List CartLine) : truthy (stringifyCart CART) = true := by
  simp [stringifyCart, truthy]

/-- A line is read back from the object that stands for it. -/
theorem readLine_lineValue (line : CartLine) : readLine (lineValue line) = some line := by
  obtain ⟨id, quantity, size, dogName, note, color⟩ := line
  have hden : ((quantity : ℚ)).den = 1 := Rat.den_intCast quantity
  have hnum : ((quantity : ℚ)).num = quantity := Rat.num_intCast quantity
  cases size <;> cases dogName <;> cases note <;> cases color <;>
    simp [readLine, lineValue, optionalValue, readField, JSON.member, js, utf16, hden, hnum]

/-- A cart is read back from the array that stands for it. -/
theorem readLines_map (CART : List CartLine) : readLines (CART.map lineValue) = some CART := by
  induction CART with
  | nil => rfl
  | cons line lines ih => simp [readLines, readLine_lineValue, ih]

/-- What `loadCart` finds after a write of the cart that the storage accepted. -/
theorem loadCart_setItem (ls ls2 : Storage) (CART : List CartLine)
    (h : ls.setItem (stringifyCart CART) = some ls2) : loadCart ls2 = cartValue CART := by
  unfold Storage.setItem at h
  split_ifs at h
  simp only [Option.some.injEq] at h
  subst h
  simp [loadCart, stringifyCart_truthy, parse_stringifyCart]

/-- C12. For every cart whose lines have a string id, an integer quantity and
string (or absent) size, dogName, note and color: when the storage accepts the
write, `saveCart` followed by `loadCart` leaves in `CART` the array that stands
for the original cart, on the catalog page (main.js) and on the product page
(product.js), and that array reads back as the original cart, line for line
and field for field, in the same order. -/
theorem cart_roundtrip (ls : Storage) (CART : List CartLine) :
    (ls.rejectsWrites = false → loadCart (saveCart ls CART) = cartValue CART) ∧
    (∀ ls2, saveCartPage ls CART = some ls2 → loadCart ls2 = cartValue CART) ∧
    readCart (cartValue CART) = some CART := by
  refine ⟨fun h => ?_, fun ls2 h => loadCart_setItem ls ls2 CART h, readLines_map CART⟩
  have hs : ls.setItem (stringifyCart CART) = some { ls with item := some (stringifyCart CART) } := by
    simp [Storage.setItem, h]
  have := loadCart_setItem ls _ CART hs
  simpa [saveCart, hs] using this

theorem cart_roundtrip_witness :
    loadCart (saveCart {} [lineL, lineM]) = cartValue [lineL, lineM] ∧
    saveCartPage {} [lineL, lineM] = some { item := some (stringifyCart [lineL, lineM]) } ∧
    loadCart { item := some (stringifyCart [lineL, lineM]) } = cartValue [lineL, lineM] ∧
    readCart (cartValue [lineL, lineM]) = some [lineL, lineM] :=
  ⟨(cart_roundtrip {} [lineL, lineM]).1 rfl, rfl,
   (cart_roundtrip {} [lineL, lineM]).2.1 _ rfl, (cart_roundtrip {} [lineL, lineM]).2.2⟩

/-- The text that `JSON.stringify` gives for a cart of two lines, one of them
with absent fields. -/
theorem stringifyCart_example :
    stringifyCart [lineL, lineRed] =
      js ("[\x7b\"id\":\"p\",\"quantity\":1,\"size\":\"L\"\x7d," ++
          "\x7b\"id\":\"p\",\"quantity\":4,\"size\":\"\",\"dogName\":\"Rex\",\"note\":\"\"," ++
          "\"color\":\"red\"\x7d]") := by
  decide

/-- A missing entry, an empty string and a text that is not JSON leave the
empty array in `CART`. -/
theorem loadCart_defensive (ls : Storage)
    (h : ls.item = none ∨ ls.item = some [] ∨ ∃ raw, ls.item = some raw ∧ JSON.parse raw = none) :
    loadCart ls = JSON.arr [] := by
  rcases h with h | h | ⟨raw, h, hp⟩
  · simp [loadCart, h]
  · simp [loadCart, h, truthy]
  · simp [loadCart, h, hp]

/-- C13. The function `loadCart` does not always leave an array of line items
in `CART`: a stored text that is JSON but not an array, such as `null`, is
parsed and assigned as it is, so `CART` is then not an array, and a stored
array whose elements are not line items, such as `[null]`, is kept rather than
replaced by the empty array. -/
theorem loadCart_keeps_non_array :
    loadCart { item := some (js "null") } = JSON.null ∧
    (loadCart { item := some (js "null") }).isArray = false ∧
    readCart (loadCart { item := some (js "null") }) = none ∧
    loadCart { item := some (js "[null]") } = JSON.arr [JSON.null] ∧
    readCart (loadCart { item := some (js "[null]") }) = none ∧
    loadCart { item := some (js "[null]") } ≠ JSON.arr [] := by
  refine ⟨rfl, rfl, rfl, rfl, rfl, ?_⟩
  intro h
  have h2 : JSON.arr [JSON.null] = JSON.arr [] := h
  simp at h2

/-- The catalog page swallows a failed write: no handler of main.js raises. -/
theorem main_never_throws (PRODUCTS : List Product) (st : MainState) (ls : Storage)
    (productId : JSString) (MODAL_PRODUCT_ID : Option JSString)
    (EDITING_CART_INDEX : Option Nat) (form : ModalForm) (idx : Nat) (delta : Int) :
    (addToCartStored PRODUCTS st ls productId).threw = false ∧
    (addToCartStored PRODUCTS st ls productId).state = (addToCart PRODUCTS st productId).2 ∧
    (modalAddToCartStored PRODUCTS st ls MODAL_PRODUCT_ID form).threw = false ∧
    (modalAddToCartStored PRODUCTS st ls MODAL_PRODUCT_ID form).state =
      (modalAddToCartClick PRODUCTS st MODAL_PRODUCT_ID form).2 ∧
    (modalUpdateItemStored PRODUCTS st ls MODAL_PRODUCT_ID EDITING_CART_INDEX form).threw
      = false ∧
    (modalUpdateItemStored PRODUCTS st ls MODAL_PRODUCT_ID EDITING_CART_INDEX form).state =
      (modalUpdateItemClick PRODUCTS st MODAL_PRODUCT_ID EDITING_CART_INDEX form).2 ∧
    (changeQuantityStored st.CART ls idx delta).threw = false ∧
    (changeQuantityStored st.CART ls idx delta).state = changeQuantity st.CART idx delta := by
  refine ⟨?_, ?_, ?_, ?_, ?_, ?_, ?_, ?_⟩
  · unfold addToCartStored; split <;> rfl
  · unfold addToCartStored; split <;> simp_all
  · unfold modalAddToCartStored; split <;> rfl
  · unfold modalAddToCartStored; split <;> simp_all
  · unfold modalUpdateItemStored; split <;> rfl
  · unfold modalUpdateItemStored; split <;> simp_all
  · unfold changeQuantityStored; split <;> rfl
  · unfold changeQuantityStored changeQuantity; split <;> simp_all

/-- The product page raises exactly when the storage refuses the write, and
the cart in memory is the mutated one either way. -/
theorem page_throws_iff (product : Product) (form : PageForm) (CART : List CartLine)
    (ls : Storage) (idx : Nat) (delta : Int) :
    ((pAddStored product form CART ls).threw = true ↔
      ((pAddClick product form CART).1 = .added ∧ ls.rejectsWrites = true)) ∧
    (pAddStored product form CART ls).state = (pAddClick product form CART).2 ∧
    ((changeQuantityPageStored CART ls idx delta).threw = true ↔
      (idx < CART.length ∧ ls.rejectsWrites = true)) ∧
    (changeQuantityPageStored CART ls idx delta).state = changeQuantity CART idx delta ∧
    ((removeLineStored CART ls idx).threw = true ↔ ls.rejectsWrites = true) ∧
    (removeLineStored CART ls idx).state = removeLine CART idx := by
  refine ⟨?_, ?_, ?_, ?_, ?_, ?_⟩
  · unfold pAddStored saveCartPage Storage.setItem
    cases hh : pAddClick product form CART with
    | mk o c => cases o <;> by_cases hr : ls.rejectsWrites = true <;> simp [hr]
  · unfold pAddStored saveCartPage Storage.setItem
    cases hh : pAddClick product form CART with
    | mk o c => cases o <;> by_cases hr : ls.rejectsWrites = true <;> simp [hr]
  · unfold changeQuantityPageStored saveCartPage Storage.setItem
    split
    · rename_i h; simp [List.getElem?_eq_none_iff] at h; simp; omega
    · rename_i l h
      have hlt : idx < CART.length := by
        by_contra hc
        rw [List.getElem?_eq_none (by omega)] at h
        simp at h
      split <;> split_ifs at * <;> simp_all
  · unfold changeQuantityPageStored changeQuantity; split
    · simp_all
    · split <;> simp_all
  · unfold removeLineStored saveCartPage Storage.setItem
    split <;> split_ifs at * <;> simp_all
  · unfold removeLineStored; split <;> rfl

/-- C11. A failed write to local storage is swallowed on the catalog page only.
With a storage that refuses every write, the product page's Add, quantity and
Remove handlers raise (the cart in memory is already changed: one added line,
quantity 3, the empty cart), while `addToCart` of main.js returns normally with
the line in the cart. -/
theorem page_handlers_raise :
    (pAddStored plainProduct {} [] fullStorage).threw = true ∧
    (pAddStored plainProduct {} [] fullStorage).state = [linePlain] ∧
    (changeQuantityPageStored [lineM] fullStorage 0 1).threw = true ∧
    (changeQuantityPageStored [lineM] fullStorage 0 1).state = [{ lineM with quantity := 3 }] ∧
    (removeLineStored [lineM] fullStorage 0).threw = true ∧
    (removeLineStored [lineM] fullStorage 0).state = [] ∧
    (addToCartStored [plainProduct] (freshState []) fullStorage (js "p")).threw = false ∧
    (addToCartStored [plainProduct] (freshState []) fullStorage (js "p")).state.CART
      = [linePlain] := by
  decide

/-- The loop of the admin save handler on a list without `null` entries: it
returns the 400 answer when some entry has neither a truthy `id` nor a truthy
`slug`, and otherwise completes, each entry without a truthy `id` having its
`slug` as `id` and the others being unchanged. -/
theorem ensureIds_spec (products : List JSON) (hnn : ∀ p ∈ products, p ≠ JSON.null) :
    ensureIds products =
      if products.all
          (fun p => truthyProp (p.member (js "id")) || truthyProp (p.member (js "slug")))
      then .ok (some (products.map (fun p =>
        if truthyProp (p.member (js "id")) then p
        else p.setMember (js "id") ((p.member (js "slug")).getD JSON.null))))
      else .ok none := by
  induction products with
  | nil => rfl
  | cons p rest ih =>
    have hp : p ≠ JSON.null := hnn p (List.mem_cons_self _ _)
    have ih2 := ih (fun q hq => hnn q (List.mem_cons_of_mem _ hq))
    have hstep : ensureIds (p :: rest) =
        if !truthyProp (p.member (js "id")) then
          match p.member (js "slug") with
          | some slug =>
            if slug.truthy then
              match ensureIds rest with
              | .ok (some done) => .ok (some (p.setMember (js "id") slug :: done))
              | other => other
            else .ok none
          | none => .ok none
        else
          match ensureIds rest with
          | .ok (some done) => .ok (some (p :: done))
          | other => other := by
      cases p <;> first | exact absurd rfl hp | rfl
    rw [hstep, ih2]
    have hn : truthyProp none = false := rfl
    have hsm : ∀ x, truthyProp (some x) = x.truthy := fun _ => rfl
    by_cases hid : truthyProp (p.member (js "id")) = true
    · by_cases hall : rest.all
          (fun p => truthyProp (p.member (js "id")) || truthyProp (p.member (js "slug"))) = true
      · simp [hid, hall]
      · simp [hid, hall]
    · cases hs : p.member (js "slug") with
      | none => simp [hid, hs, hn]
      | some slug =>
        by_cases hst : slug.truthy = true
        · by_cases hall : rest.all
            (fun p => truthyProp (p.member (js "id")) || truthyProp (p.member (js "slug"))) = true
          · simp [hid, hs, hst, hall, hsm]
          · simp [hid, hs, hst, hall, hsm]
        · simp [hid, hs, hst, hsm]

/-- The admin save handler on a body that is not an array, and on an array
without `null` entries. -/
theorem saveProducts_spec (body : JSON) :
    (body.isArray = false → saveProducts body = .badRequest) ∧
    (∀ products, body = JSON.arr products → (∀ p ∈ products, p ≠ JSON.null) →
      ((∃ p ∈ products, truthyProp (p.member (js "id")) = false ∧
          truthyProp (p.member (js "slug")) = false) → saveProducts body = .badRequest) ∧
      ((∀ p ∈ products, truthyProp (p.member (js "id")) = true ∨
          truthyProp (p.member (js "slug")) = true) →
        saveProducts body = .saved (products.map (fun p =>
          if truthyProp (p.member (js "id")) then p
          else p.setMember (js "id") ((p.member (js "slug")).getD JSON.null)))
          products.length)) := by
  refine ⟨fun h => ?_, fun products hb hnn => ⟨fun h => ?_, fun h => ?_⟩⟩
  · cases body <;> first | rfl | simp [JSON.isArray] at h
  · subst hb
    obtain ⟨p, hp, h1, h2⟩ := h
    have hall : ¬ (products.all
        (fun p => truthyProp (p.member (js "id")) || truthyProp (p.member (js "slug"))) = true) := by
      intro hc
      rw [List.all_eq_true] at hc
      have := hc p hp
      simp [h1, h2] at this
    simp [saveProducts, ensureIds_spec products hnn, hall]
  · subst hb
    have hall : products.all
        (fun p => truthyProp (p.member (js "id")) || truthyProp (p.member (js "slug"))) = true := by
      rw [List.all_eq_true]
      intro p hp
      rcases h p hp with h1 | h1 <;> simp [h1]
    simp [saveProducts, ensureIds_spec products hnn, hall]

/-- C19. The handler of `POST /api/admin/products` does not answer 400 for
every entry without id and slug: on the body `[null]`, and on a body whose
second entry is `null`, reading `p.id` throws and the answer is 500; nothing is
written. Without `null` entries the handler does as described: a list holding an empty
object is answered 400 and an entry with only a slug is saved with the slug as
its id. -/
theorem saveProducts_null_entry :
    saveProducts (JSON.arr [JSON.null]) = .serverError ∧
    saveProducts (JSON.arr [JSON.obj [(js "id", JSON.str (js "a"))], JSON.null])
      = .serverError ∧
    saveProducts (JSON.arr [JSON.obj []]) = .badRequest ∧
    saveProducts (JSON.arr [JSON.obj [(js "slug", JSON.str (js "a"))]]) =
      .saved [JSON.obj [(js "slug", JSON.str (js "a")), (js "id", JSON.str (js "a"))]] 1 ∧
    JSON.parse (js "[null]") = some (JSON.arr [JSON.null]) :=
  ⟨rfl, rfl, rfl, rfl, rfl⟩

/-- The line item of a request item is a function of its id and quantity. -/
theorem lineItemFor_congr (products : List CatalogProduct) (a b : CheckoutItem)
    (hid : a.id = b.id) (hq : a.quantity = b.quantity) :
    lineItemFor products a = lineItemFor products b := by
  unfold lineItemFor
  rw [hid, hq]

/-- The line items of a request are a function of the ids and quantities. -/
theorem buildLineItems_congr (products : List CatalogProduct) :
    ∀ items1 items2 : List CheckoutItem,
      items1.map (fun i => (i.id, i.quantity)) = items2.map (fun i => (i.id, i.quantity)) →
      buildLineItems products items1 = buildLineItems products items2
  | [], [], _ => rfl
  | [], _ :: _, h => by simp at h
  | _ :: _, [], h => by simp at h
  | a :: r1, b :: r2, h => by
    simp only [List.map_cons, List.cons.injEq, Prod.mk.injEq] at h
    obtain ⟨⟨hid, hq⟩, hr⟩ := h
    simp only [buildLineItems]
    rw [lineItemFor_congr products a b hid hq, buildLineItems_congr products r1 r2 hr]

/-- The function `Math.round` gives the nearest integer. -/
theorem mathRound_nearest (x : ℚ) :
    (mathRound x : ℚ) - 1 / 2 ≤ x ∧ x < (mathRound x : ℚ) + 1 / 2 := by
  unfold mathRound
  have h1 := Int.floor_le (x + 1 / 2)
  have h2 := Int.lt_floor_add_one (x + 1 / 2)
  constructor <;> linarith

/-- Each line item built is the one of the request item at the same position:
its product is the catalog entry of that id. -/
theorem buildLineItems_some (products : List CatalogProduct) :
    ∀ (items : List CheckoutItem) (lis : List LineItem),
      buildLineItems products items = some lis →
      lis.length = items.length ∧
      ∀ (n : Nat) (item : CheckoutItem) (li : LineItem), items[n]? = some item →
        lis[n]? = some li →
        ∃ product, products.find? (fun p => p.id == item.id) = some product ∧
          li.unit_amount = mathRound (product.price * 100) ∧
          li.name = product.name ∧ li.description = product.description ∧
          li.quantity = (match item.quantity with
            | some q => if q ≠ 0 then q else 1
            | none => 1)
  | [], lis, h => by
    simp only [buildLineItems, Option.some.injEq] at h
    subst h
    exact ⟨rfl, fun n item li hi => by simp at hi⟩
  | item0 :: rest, lis, h => by
    simp only [buildLineItems] at h
    cases h1 : lineItemFor products item0 with
    | none => simp [h1] at h
    | some li0 =>
      cases h2 : buildLineItems products rest with
      | none => simp [h1, h2] at h
      | some lis0 =>
        simp only [h1, h2, Option.some.injEq] at h
        subst h
        obtain ⟨hl, hrest⟩ := buildLineItems_some products rest lis0 h2
        refine ⟨by simp [hl], fun n item li hi hli => ?_⟩
        cases n with
        | zero =>
          simp only [List.getElem?_cons_zero, Option.some.injEq] at hi hli
          subst hi hli
          unfold lineItemFor at h1
          cases hf : products.find? (fun p => p.id == item0.id) with
          | none => simp [hf] at h1
          | some product =>
            simp only [hf, Option.some.injEq] at h1
            subst h1
            exact ⟨product, rfl, rfl, rfl, rfl, rfl⟩
        | succ m =>
          simp only [List.getElem?_cons_succ] at hi hli
          exact hrest m item li hi hli

/-- An id that is not in the catalog makes the building of the line items
throw. -/
theorem buildLineItems_unresolved (products : List CatalogProduct) :
    ∀ items : List CheckoutItem,
      (∃ item ∈ items, products.find? (fun p => p.id == item.id) = none) →
      buildLineItems products items = none
  | [], h => by simp at h
  | item0 :: rest, h => by
    simp only [buildLineItems]
    cases h1 : lineItemFor products item0 with
    | none => rfl
    | some li0 =>
      obtain ⟨item, hmem, hf⟩ := h
      rcases List.mem_cons.mp hmem with rfl | hmem
      · simp [lineItemFor, hf] at h1
      · rw [buildLineItems_unresolved products rest ⟨item, hmem, hf⟩]

/-- C20. The line items of the checkout handler depend only on the catalog and
on the id and quantity of each submitted item: two requests whose items agree
on id and quantity get the same answer, whatever else they submit (a price
among it); each line item built has as unit amount the catalog price of its
product times 100, rounded to the nearest integer; and when the id of some item
is not in the catalog the handler answers 500 and creates no session. -/
theorem checkout_uses_catalog (stripeConfigured : Bool) (products : List CatalogProduct)
    (items1 items2 : List CheckoutItem) :
    (items1.map (fun i => (i.id, i.quantity)) = items2.map (fun i => (i.id, i.quantity)) →
      buildLineItems products items1 = buildLineItems products items2 ∧
      createCheckoutSession stripeConfigured products (some items1) =
        createCheckoutSession stripeConfigured products (some items2)) ∧
    (∀ line_items, createCheckoutSession stripeConfigured products (some items1)
        = .session line_items →
      line_items.length = items1.length ∧
      ∀ (n : Nat) (item : CheckoutItem) (li : LineItem), items1[n]? = some item →
        line_items[n]? = some li →
        ∃ product, products.find? (fun p => p.id == item.id) = some product ∧
          li.unit_amount = ⌊product.price * 100 + 1 / 2⌋ ∧
          (li.unit_amount : ℚ) - 1 / 2 ≤ product.price * 100 ∧
          product.price * 100 < (li.unit_amount : ℚ) + 1 / 2) ∧
    ((∃ item ∈ items1, products.find? (fun p => p.id == item.id) = none) →
      buildLineItems products items1 = none ∧
      (stripeConfigured = true →
        createCheckoutSession stripeConfigured products (some items1) = .failed) ∧
      ∀ line_items, createCheckoutSession stripeConfigured products (some items1)
        ≠ .session line_items) := by
  refine ⟨fun h => ?_, fun line_items h => ?_, fun h => ?_⟩
  · have hb := buildLineItems_congr products items1 items2 h
    exact ⟨hb, by simp [createCheckoutSession, hb]⟩
  · have hb : buildLineItems products items1 = some line_items := by
      unfold createCheckoutSession at h
      split_ifs at h
      cases hb : buildLineItems products items1 with
      | none => simp [hb] at h
      | some lis => simp only [hb, CheckoutResult.session.injEq] at h; rw [h]
    obtain ⟨hl, hrest⟩ := buildLineItems_some products items1 line_items hb
    refine ⟨hl, fun n item li hi hli => ?_⟩
    obtain ⟨product, hf, hu, -, -, -⟩ := hrest n item li hi hli
    refine ⟨product, hf, hu, ?_, ?_⟩
    · rw [hu]; exact (mathRound_nearest _).1
    · rw [hu]; exact (mathRound_nearest _).2
  · have hb := buildLineItems_unresolved products items1 h
    refine ⟨hb, fun hc => by simp [createCheckoutSession, hb, hc], fun line_items => ?_⟩
    cases stripeConfigured <;> simp [createCheckoutSession, hb]

/-- The bandana at 12.50, bought three times, whatever price the client sends. -/
theorem checkout_example (sent : Option ℚ) :
    createCheckoutSession true [catalogBandana]
        (some [{ id := js "bandana", quantity := some 3, price := sent }]) =
      .session [{ currency := js "usd", name := js "Bandana", description := js "Cotton",
                  unit_amount := 1250, quantity := 3 }] := by
  have hr : mathRound (25 / 2 * 100) = 1250 := by
    unfold mathRound
    rw [Int.floor_eq_iff]
    norm_num
  have hf : [catalogBandana].find? (fun p => p.id == js "bandana") = some catalogBandana := rfl
  simp [createCheckoutSession, buildLineItems, lineItemFor, hf, catalogBandana, hr]

theorem checkout_uses_catalog_witness :
    createCheckoutSession true [catalogBandana]
        (some [{ id := js "bandana", quantity := some 3, price := some 0 }]) =
      createCheckoutSession true [catalogBandana]
        (some [{ id := js "bandana", quantity := some 3, price := some 99,
                 size := some (js "L") }]) ∧
    createCheckoutSession true [catalogBandana] (some [{ id := js "leash" }]) = .failed :=
  ⟨((checkout_uses_catalog true [catalogBandana]
      [{ id := js "bandana", quantity := some 3, price := some 0 }]
      [{ id := js "bandana", quantity := some 3, price := some 99, size := some (js "L") }]).1
      (by decide)).2,
   ((checkout_uses_catalog true [catalogBandana] [{ id := js "leash" }] []).2.2
      ⟨{ id := js "leash" }, by simp, by decide⟩).2.1 rfl⟩

/-- The expression `x || 0` is the number, and 0 when there is none. -/
theorem orZero_eq (x : Option ℚ) : orZero x = x.getD 0 := by
  cases x with
  | none => rfl
  | some q => by_cases h : q = 0 <;> simp [orZero, h]

/-- No entry of the id: nothing is found. -/
theorem rateFirst_eq_none (productId : JSString) (rating : Rating) (products : List RatedProduct)
    (h : ∀ p ∈ products, p.id ≠ productId) : rateFirst productId rating products = none := by
  induction products with
  | nil => rfl
  | cons p rest ih =>
    have hp : p.id ≠ productId := h p (List.mem_cons_self _ _)
    simp [rateFirst, hp, ih (fun q hq => h q (List.mem_cons_of_mem _ hq))]

/-- The first entry of the id is the one mutated; the others are kept. -/
theorem rateFirst_append (productId : JSString) (rating : Rating)
    (pre post : List RatedProduct) (p : RatedProduct)
    (hpre : ∀ x ∈ pre, x.id ≠ productId) (hp : p.id = productId) :
    rateFirst productId rating (pre ++ p :: post) = some (pre ++ applyRating p rating :: post) := by
  induction pre with
  | nil => simp [rateFirst, hp]
  | cons x rest ih =>
    have hx : x.id ≠ productId := hpre x (List.mem_cons_self _ _)
    simp [rateFirst, hx, ih (fun q hq => hpre q (List.mem_cons_of_mem _ hq))]

/-- The rate handler on a rating that is a number (or absent, or `null`): 400
outside 1..5, 404 for an unknown id, and otherwise the first product of that id
gets its count increased by 1 and its total by the rating, both from 0 when
absent, and the quotient as average; the other products are unchanged. -/
theorem rateProduct_number (products : List RatedProduct) (productId : JSString) (q : ℚ) :
    rateProduct products productId .absent = .badRequest ∧
    rateProduct products productId .null = .badRequest ∧
    ((q < 1 ∨ 5 < q) → rateProduct products productId (.number q) = .badRequest) ∧
    (1 ≤ q → q ≤ 5 → (∀ p ∈ products, p.id ≠ productId) →
      rateProduct products productId (.number q) = .notFound) ∧
    (1 ≤ q → q ≤ 5 → ∀ pre p post, products = pre ++ p :: post →
      (∀ x ∈ pre, x.id ≠ productId) → p.id = productId →
      rateProduct products productId (.number q) =
        .saved (pre ++
          { p with
            ratingCount := some (p.ratingCount.getD 0 + 1)
            ratingTotal := some (p.ratingTotal.getD 0 + q)
            ratingAverage :=
              if p.ratingCount.getD 0 + 1 = 0 then none
              else some ((p.ratingTotal.getD 0 + q) / (p.ratingCount.getD 0 + 1)) } :: post)) := by
  refine ⟨rfl, rfl, fun h => ?_, fun h1 h5 hno => ?_, fun h1 h5 pre p post hprod hpre hp => ?_⟩
  · rcases h with h | h
    · simp [rateProduct, ratingRejected, Rating.toNumber, h]
    · simp [rateProduct, ratingRejected, Rating.toNumber, h]
  · have h0 : q ≠ 0 := by intro h; rw [h] at h1; norm_num at h1
    simp [rateProduct, ratingRejected, Rating.toNumber, Rating.truthy, h0, not_lt.mpr h1,
      not_lt.mpr h5, rateFirst_eq_none productId _ products hno]
  · have h0 : q ≠ 0 := by intro h; rw [h] at h1; norm_num at h1
    subst hprod
    simp [rateProduct, ratingRejected, Rating.toNumber, Rating.truthy, h0, not_lt.mpr h1,
      not_lt.mpr h5, rateFirst_append productId _ pre post p hpre hp, applyRating, orZero_eq]

/-- C21. The rate handler does not answer 400 for every rating that is not
within 1..5: the rating `true` passes the test, and the handler answers 200
and counts it as a rating of 1 (for a product without ratings: count 1, total
1, average 1). For the rating 3 it does what is described, and for 0 and 6 it
answers 400. -/
theorem rateProduct_accepts_true :
    ratingRejected (.bool true) = false ∧
    rateProduct [unratedBandana] (js "bandana") (.bool true) =
      .saved [{ id := js "bandana", ratingCount := some 1, ratingTotal := some 1,
                ratingAverage := some 1 }] ∧
    rateProduct [unratedBandana] (js "bandana") (.number 3) =
      .saved [{ id := js "bandana", ratingCount := some 1, ratingTotal := some 3,
                ratingAverage := some 3 }] ∧
    rateProduct [unratedBandana] (js "bandana") (.number 0) = .badRequest ∧
    rateProduct [unratedBandana] (js "bandana") (.number 6) = .badRequest ∧
    rateProduct [unratedBandana] (js "leash") (.number 3) = .notFound := by
  refine ⟨?_, ?_, ?_, ?_, ?_, ?_⟩
  · simp [ratingRejected, Rating.toNumber, Rating.truthy]
  · simp [rateProduct, ratingRejected, rateFirst, unratedBandana, applyRating, orZero,
      Rating.toNumber, Rating.truthy]
  · simp [rateProduct, ratingRejected, rateFirst, unratedBandana, applyRating, orZero,
      Rating.toNumber, Rating.truthy]
    norm_num
  · simp [rateProduct, ratingRejected, Rating.toNumber, Rating.truthy]
  · simp [rateProduct, ratingRejected, Rating.toNumber, Rating.truthy]
    norm_num
  · have h : rateFirst (js "leash") (.number 3) [unratedBandana] = none := by
      apply rateFirst_eq_none
      intro p hp
      simp only [List.mem_singleton] at hp
      subst hp
      decide
    simp [rateProduct, ratingRejected, Rating.toNumber, Rating.truthy, h]
    norm_num

/-- C22. The size rule is evaluated before the name rule and the first failure
wins: for a product with `sizesRequired`, `dogName` and `dogNamePrompt` all
set, a submission with an empty size and a name that normalises to nothing
gets the size error, not the name error, from each commit path (the card's
Add, the quick-view Add, the product page's Add and the quick-view Update),
and the cart is unchanged. -/
theorem size_error_first (PRODUCTS : List Product) (st : MainState) (id : JSString)
    (p : Product) (form : ModalForm) (pform : PageForm) (idx : Nat) (CART : List CartLine)
    (hp : findProduct PRODUCTS id = some p) (hid : id ≠ [])
    (hreq : (getOptions (some p)).sizesRequired = true)
    (_hd : (getOptions (some p)).dogName = true)
    (_hpr : (getOptions (some p)).dogNamePrompt = true) :
    ((getSel st.SELECTIONS id).1.size = [] →
      normalizeDogName (getSel st.SELECTIONS id).1.dogName = none →
      (addToCart PRODUCTS st id).1 = .sizeRequired ∧
      (addToCart PRODUCTS st id).1 ≠ .nameRequired ∧
      (addToCart PRODUCTS st id).2.CART = st.CART) ∧
    (form.size = [] → normalizeDogName form.dogName = none →
      modalAddToCartClick PRODUCTS st (some id) form = (.sizeRequired, st) ∧
      modalUpdateItemClick PRODUCTS st (some id) (some idx) form = (.sizeRequired, st)) ∧
    (elValue pform.sizeEl = [] → normalizeDogName (elValue pform.dogEl) = none →
      pAddClick p pform CART = (.sizeRequired, CART)) := by
  refine ⟨fun hs _ => ?_, fun hs _ => ⟨?_, ?_⟩, fun hs _ => ?_⟩
  · have h := addToCart_eq PRODUCTS st id p hp
    have hsz : ((st.SELECTIONS id).getD {}).size = [] := by rw [← getSel_fst]; exact hs
    rw [readySelection_size _ _ hreq hsz] at h
    simp only at h
    exact ⟨h.1, by rw [h.1]; decide, h.2⟩
  · have hopt : getOptions (findProduct PRODUCTS id) = getOptions (some p) := by rw [hp]
    simp [modalAddToCartClick, hopt, hreq, hs, hid, truthy]
  · have hopt : getOptions (findProduct PRODUCTS id) = getOptions (some p) := by rw [hp]
    simp [modalUpdateItemClick, hopt, hreq, hs, hid, truthy]
  · have hreq2 : (p.options.getD {}).sizesRequired = true := hreq
    simp [pAddClick, hreq2, hs, truthy]

theorem size_error_first_witness :
    (addToCart [fullProduct] (freshState [lineM]) (js "p")).1 = .sizeRequired ∧
    modalAddToCartClick [fullProduct] (freshState [lineM]) (some (js "p")) { dogName := js "  " }
      = (.sizeRequired, freshState [lineM]) ∧
    modalUpdateItemClick [fullProduct] (freshState [lineM]) (some (js "p")) (some 0)
      { dogName := js "  " } = (.sizeRequired, freshState [lineM]) ∧
    pAddClick fullProduct { sizeEl := some [], dogEl := some (js "  ") } [lineM]
      = (.sizeRequired, [lineM]) :=
  ⟨((size_error_first [fullProduct] (freshState [lineM]) (js "p") fullProduct
      { dogName := js "  " } { sizeEl := some [], dogEl := some (js "  ") } 0 [lineM]
      rfl (by decide) rfl rfl rfl).1 rfl rfl).1,
   ((size_error_first [fullProduct] (freshState [lineM]) (js "p") fullProduct
      { dogName := js "  " } { sizeEl := some [], dogEl := some (js "  ") } 0 [lineM]
      rfl (by decide) rfl rfl rfl).2.1 rfl rfl).1,
   ((size_error_first [fullProduct] (freshState [lineM]) (js "p") fullProduct
      { dogName := js "  " } { sizeEl := some [], dogEl := some (js "  ") } 0 [lineM]
      rfl (by decide) rfl rfl rfl).2.1 rfl rfl).2,
   (size_error_first [fullProduct] (freshState [lineM]) (js "p") fullProduct
      { dogName := js "  " } { sizeEl := some [], dogEl := some (js "  ") } 0 [lineM]
      rfl (by decide) rfl rfl rfl).2.2 rfl rfl⟩

/-- The color, size and note of the selection that `addToCart` commits. -/
theorem readySelection_fields (opt : Options) (s0 readySel : Selection)
    (h : readySelection opt s0 = .ok readySel) :
    readySel.color = (withDefaultColor opt s0).color ∧
    readySel.size = (withDefaultColor opt s0).size ∧
    readySel.note = (withDefaultColor opt s0).note := by
  unfold readySelection at h
  simp only [] at h
  by_cases h1 : (opt.sizesRequired && !truthy (withDefaultColor opt s0).size) = true
  · rw [if_pos h1] at h; cases h
  · rw [if_neg h1] at h
    by_cases h2 : (opt.dogName && opt.dogNamePrompt) = true
    · rw [if_pos h2] at h
      cases hn : normalizeDogName (withDefaultColor opt s0).dogName with
      | none => rw [hn] at h; cases h
      | some n => rw [hn] at h; cases h; exact ⟨rfl, rfl, rfl⟩
    · rw [if_neg h2] at h
      cases h
      exact ⟨rfl, rfl, rfl⟩

/-- The line that the merge step commits: an existing line of the same product
and options, incremented, or a new last line holding the selection. -/
theorem mergeIntoCart_line (id : JSString) (sel : Selection) (CART : List CartLine) :
    (∃ pre item post, CART = pre ++ item :: post ∧
      mergeIntoCart id sel CART = pre ++ { item with quantity := item.quantity + 1 } :: post ∧
      SameLine id sel.size sel.dogName sel.note sel.color item) ∨
    ((∀ x ∈ CART, ¬ SameLine id sel.size sel.dogName sel.note sel.color x) ∧
      mergeIntoCart id sel CART =
        CART ++ [{ id := id, quantity := 1, size := some sel.size,
                   dogName := some sel.dogName, note := some sel.note,
                   color := some sel.color }]) := by
  by_cases hex : ∃ x ∈ CART, keyMatch id sel x = true
  · left
    obtain ⟨pre, item, post, hl, _, hitem, hinc⟩ := incrementFirst_of_mem _ CART hex
    exact ⟨pre, item, post, hl, by simp [mergeIntoCart, hinc], (keyMatch_iff _ _ _).mp hitem⟩
  · right
    have hall : ∀ x ∈ CART, keyMatch id sel x = false := by
      intro x hx
      cases hk : keyMatch id sel x with
      | false => rfl
      | true => exact absurd ⟨x, hx, hk⟩ hex
    refine ⟨fun x hx hs => ?_, ?_⟩
    · have := (keyMatch_iff id sel x).mpr hs
      rw [hall x hx] at this
      cases this
    · simp [mergeIntoCart, incrementFirst_eq_none _ _ hall]

/-- C23. For a product with a non-empty colors list, a successful `addToCart`
commits the value of the first color when the stored selection has no color,
and the stored color, unchanged, when it has one: this is the color of the
selection committed and of the line committed, which is an existing line with
that color, incremented, or a new last line. -/
theorem default_color_spec (PRODUCTS : List Product) (st st2 : MainState) (id : JSString)
    (p : Product) (first : ColorOption) (others : List ColorOption)
    (hp : findProduct PRODUCTS id = some p)
    (hc : (getOptions (some p)).colors = some (first :: others))
    (h : addToCart PRODUCTS st id = (.added, st2)) :
    ∃ readySel,
      st2.SELECTIONS id = some readySel ∧
      ((getSel st.SELECTIONS id).1.color = [] → readySel.color = first.value) ∧
      ((getSel st.SELECTIONS id).1.color ≠ [] →
        readySel.color = (getSel st.SELECTIONS id).1.color) ∧
      ((∃ pre item post, st.CART = pre ++ item :: post ∧
          st2.CART = pre ++ { item with quantity := item.quantity + 1 } :: post ∧
          item.id = id ∧ orEmpty item.color = readySel.color) ∨
        (∃ line : CartLine, st2.CART = st.CART ++ [line] ∧ line.id = id ∧ line.quantity = 1 ∧
          line.color = some readySel.color)) := by
  have key := addToCart_eq PRODUCTS st id p hp
  cases hr : readySelection (getOptions (some p)) ((st.SELECTIONS id).getD {}) with
  | error o =>
    rw [hr] at key
    have ho : o = .added := by rw [← key.1, h]
    rcases readySelection_error _ _ _ hr with e | e <;> rw [e] at ho <;> cases ho
  | ok readySel =>
    rw [hr] at key
    obtain ⟨_, hcart, hsel⟩ := key
    rw [h] at hcart hsel
    simp only at hcart hsel
    have hcol := (readySelection_fields _ _ _ hr).1
    refine ⟨readySel, hsel, fun h0 => ?_, fun h0 => ?_, ?_⟩
    · rw [getSel_fst] at h0
      rw [hcol]
      simp [withDefaultColor, hc, h0, truthy, firstColorValue]
    · rw [getSel_fst] at h0 ⊢
      rw [hcol]
      simp [withDefaultColor, hc, h0, truthy]
    · rcases mergeIntoCart_line id readySel st.CART with ⟨pre, item, post, hl, hm, hs⟩ | ⟨_, hm⟩
      · left
        exact ⟨pre, item, post, hl, by rw [hcart, hm], hs.1, hs.2.2.2.2⟩
      · right
        exact ⟨_, by rw [hcart, hm], rfl, rfl, rfl⟩

theorem default_color_spec_witness :
    (addToCart [colorProduct] (freshState [linePlain]) (js "p")).2.SELECTIONS (js "p") =
      some { color := js "red" } ∧
    (addToCart [colorProduct] (freshState [linePlain]) (js "p")).2.CART =
      [linePlain, { linePlain with color := some (js "red") }] ∧
    (addToCart [colorProduct] (stateWith { color := js "blue" } []) (js "p")).2.CART =
      [{ linePlain with color := some (js "blue") }] ∧
    ∃ readySel,
      (addToCart [colorProduct] (freshState [linePlain]) (js "p")).2.SELECTIONS (js "p") =
        some readySel ∧
      ((getSel (freshState [linePlain]).SELECTIONS (js "p")).1.color = [] →
        readySel.color = js "red") :=
  ⟨by decide, by decide, by decide,
   (default_color_spec [colorProduct] (freshState [linePlain])
      (addToCart [colorProduct] (freshState [linePlain]) (js "p")).2 (js "p") colorProduct
      { value := js "red" } [{ value := js "blue" }] rfl rfl (Prod.ext (by decide) rfl)).imp
    (fun _ hx => ⟨hx.1, hx.2.1⟩)⟩

/-- The default-color step changes nothing in a selection that went through
it, whatever name is written into it afterwards. -/
theorem withDefaultColor_rename (opt : Options) (s : Selection) (n : JSString) :
    withDefaultColor opt { withDefaultColor opt s with dogName := n } =
      { withDefaultColor opt s with dogName := n } := by
  unfold withDefaultColor
  cases opt.colors with
  | none => rfl
  | some colors =>
    by_cases hc : s.color = []
    · by_cases hf : firstColorValue colors = [] <;> simp [truthy, hc, hf]
    · simp [truthy, hc]

/-- The default-color step keeps size and name. -/
theorem withDefaultColor_keeps (opt : Options) (s : Selection) :
    (withDefaultColor opt s).size = s.size ∧ (withDefaultColor opt s).dogName = s.dogName := by
  unfold withDefaultColor
  cases opt.colors with
  | none => exact ⟨rfl, rfl⟩
  | some colors => by_cases hc : s.color = [] <;> simp [truthy, hc]

/-- What `addToCart` does for a product that prompts for the name, when the
size rule passes and the stored name normalises to `n`. -/
theorem addToCart_with_name (PRODUCTS : List Product) (st : MainState) (id : JSString)
    (p : Product) (n : JSString) (hp : findProduct PRODUCTS id = some p)
    (hd : (getOptions (some p)).dogName = true)
    (hpr : (getOptions (some p)).dogNamePrompt = true)
    (hsize : (getOptions (some p)).sizesRequired = true → ((st.SELECTIONS id).getD {}).size ≠ [])
    (hn : normalizeDogName ((st.SELECTIONS id).getD {}).dogName = some n) :
    (addToCart PRODUCTS st id).1 = .added ∧
    (addToCart PRODUCTS st id).2.CART =
      mergeIntoCart id
        { withDefaultColor (getOptions (some p)) ((st.SELECTIONS id).getD {}) with dogName := n }
        st.CART ∧
    (addToCart PRODUCTS st id).2.SELECTIONS id =
      some { withDefaultColor (getOptions (some p)) ((st.SELECTIONS id).getD {}) with
             dogName := n } := by
  have key := addToCart_eq PRODUCTS st id p hp
  have hk := withDefaultColor_keeps (getOptions (some p)) ((st.SELECTIONS id).getD {})
  have hr : readySelection (getOptions (some p)) ((st.SELECTIONS id).getD {}) =
      .ok { withDefaultColor (getOptions (some p)) ((st.SELECTIONS id).getD {}) with
            dogName := n } := by
    unfold readySelection
    simp only []
    rw [hk.1, hk.2, hn]
    by_cases hreq : (getOptions (some p)).sizesRequired = true
    · have := hsize hreq
      simp [hreq, hd, hpr, truthy, this]
    · simp [hreq, hd, hpr]
  rw [hr] at key
  exact key

/-- The line that the merge step appends for a selection. -/
theorem mergeIntoCart_nil (id : JSString) (sel : Selection) :
    mergeIntoCart id sel [] =
      [{ id := id, quantity := 1, size := some sel.size, dogName := some sel.dogName,
         note := some sel.note, color := some sel.color }] := rfl

/-- C24. Normalisation keeps the letter case of a name: for a product that
offers and prompts for a dog name (and whose size rule is met), starting from
the empty cart, an add with the name `"Max"` followed by an add with the name
`"max"` on the selection otherwise as the first add left it gives two lines of
quantity 1, named `"Max"` and `"max"`, whereas an add with the name `"Max"`
followed by a second add with the same name gives one line of quantity 2. The
names are entered into the stored selection and added by the card's Add
button; the quick-view Add and the product page's Add do the same on the
product `namedProduct`. -/
theorem names_are_case_sensitive (PRODUCTS : List Product) (S : Selections) (id : JSString)
    (p : Product) (hp : findProduct PRODUCTS id = some p)
    (hd : (getOptions (some p)).dogName = true)
    (hpr : (getOptions (some p)).dogNamePrompt = true)
    (hsize : (getOptions (some p)).sizesRequired = true → (getSel S id).1.size ≠ []) :
    (∃ line : CartLine, line.id = id ∧ line.quantity = 1 ∧ line.dogName = some (js "Max") ∧
      ([CartOp.select id { dogName := some (js "Max") }, CartOp.add PRODUCTS id].foldl applyOp
        { SELECTIONS := S, CART := [] }).CART = [line] ∧
      ([CartOp.select id { dogName := some (js "Max") }, CartOp.add PRODUCTS id,
        CartOp.select id { dogName := some (js "max") }, CartOp.add PRODUCTS id].foldl applyOp
        { SELECTIONS := S, CART := [] }).CART = [line, { line with dogName := some (js "max") }] ∧
      ([CartOp.select id { dogName := some (js "Max") }, CartOp.add PRODUCTS id,
        CartOp.select id { dogName := some (js "Max") }, CartOp.add PRODUCTS id].foldl applyOp
        { SELECTIONS := S, CART := [] }).CART = [{ line with quantity := 2 }] ∧
      ([CartOp.select id { dogName := some (js "Max") }, CartOp.add PRODUCTS id,
        CartOp.add PRODUCTS id].foldl applyOp
        { SELECTIONS := S, CART := [] }).CART = [{ line with quantity := 2 }]) ∧
    ([CartOp.quickAdd [namedProduct] (some (js "p")) { dogName := js "Max" },
      CartOp.quickAdd [namedProduct] (some (js "p")) { dogName := js "max" }].foldl applyOp
      (freshState [])).CART = [lineNamed "Max", lineNamed "max"] ∧
    ([CartOp.quickAdd [namedProduct] (some (js "p")) { dogName := js "Max" },
      CartOp.quickAdd [namedProduct] (some (js "p")) { dogName := js "Max" }].foldl applyOp
      (freshState [])).CART = [{ lineNamed "Max" with quantity := 2 }] ∧
    ([CartOp.pageAdd namedProduct { dogEl := some (js "Max") },
      CartOp.pageAdd namedProduct { dogEl := some (js "max") }].foldl applyOp
      (freshState [])).CART = [lineNamed "Max", lineNamed "max"] ∧
    ([CartOp.pageAdd namedProduct { dogEl := some (js "Max") },
      CartOp.pageAdd namedProduct { dogEl := some (js "Max") }].foldl applyOp
      (freshState [])).CART = [{ lineNamed "Max" with quantity := 2 }] := by
  refine ⟨?_, by decide, by decide, by decide, by decide⟩
  have hMax : normalizeDogName (js "Max") = some (js "Max") := by decide
  have hmax : normalizeDogName (js "max") = some (js "max") := by decide
  rw [getSel_fst] at hsize
  -- the first add
  have h1 := addToCart_with_name PRODUCTS
    { SELECTIONS := setSel S id { dogName := some (js "Max") }, CART := [] } id p (js "Max")
    hp hd hpr (by simpa [setSel_self, Selection.merge] using hsize)
    (by simp [setSel_self, Selection.merge, hMax])
  simp only [setSel_self, Selection.merge, Option.getD_some, Option.getD_none,
    mergeIntoCart_nil] at h1
  obtain ⟨-, hc1, hs1⟩ := h1
  have hk := withDefaultColor_keeps (getOptions (some p))
    { size := ((S id).getD {}).size, dogName := js "Max", note := ((S id).getD {}).note,
      color := ((S id).getD {}).color }
  have hre := withDefaultColor_rename (getOptions (some p))
    { size := ((S id).getD {}).size, dogName := js "Max", note := ((S id).getD {}).note,
      color := ((S id).getD {}).color }
  generalize hw : withDefaultColor (getOptions (some p))
    { size := ((S id).getD {}).size, dogName := js "Max", note := ((S id).getD {}).note,
      color := ((S id).getD {}).color } = w at hc1 hs1 hk hre
  generalize hst1 : addToCart PRODUCTS
    { SELECTIONS := setSel S id { dogName := some (js "Max") }, CART := [] } id = r1
    at hc1 hs1
  simp only at hk
  have hsz : (getOptions (some p)).sizesRequired = true → w.size ≠ [] := by
    rw [hk.1]; exact hsize
  -- a second add, after the name is entered again
  have second : ∀ name : JSString, normalizeDogName name = some name →
      (addToCart PRODUCTS
        { r1.2 with SELECTIONS := setSel r1.2.SELECTIONS id { dogName := some name } } id).2.CART
        = mergeIntoCart id { w with dogName := name }
            [{ id := id, quantity := 1, size := some w.size, dogName := some (js "Max"),
               note := some w.note, color := some w.color }] := by
    intro name hname
    have h2 := addToCart_with_name PRODUCTS
      { r1.2 with SELECTIONS := setSel r1.2.SELECTIONS id { dogName := some name } } id p name
      hp hd hpr (by simpa [setSel_self, Selection.merge, hs1] using hsz)
      (by simp [setSel_self, Selection.merge, hs1, hname])
    simp only [setSel_self, Selection.merge, Option.getD_some, Option.getD_none, hs1] at h2
    have hren := hre name
    have e : ({ size := w.size, dogName := name, note := w.note, color := w.color } : Selection)
        = { w with dogName := name } := rfl
    rw [e] at h2
    have e2 : withDefaultColor (getOptions (some p)) { w with dogName := name } =
        { w with dogName := name } := by
      have := withDefaultColor_rename (getOptions (some p))
        { size := ((S id).getD {}).size, dogName := js "Max", note := ((S id).getD {}).note,
          color := ((S id).getD {}).color } name
      rw [hw] at this
      exact this
    rw [e2] at h2
    simpa [hc1] using h2.2.1
  -- the second add without entering the name again
  have third := addToCart_with_name PRODUCTS r1.2 id p (js "Max") hp hd hpr
    (by simpa [hs1] using hsz) (by simp [hs1, hMax])
  simp only [hs1, Option.getD_some] at third
  have e3 : withDefaultColor (getOptions (some p)) { w with dogName := js "Max" } =
      { w with dogName := js "Max" } := by
    have := withDefaultColor_rename (getOptions (some p))
      { size := ((S id).getD {}).size, dogName := js "Max", note := ((S id).getD {}).note,
        color := ((S id).getD {}).color } (js "Max")
    rw [hw] at this
    exact this
  rw [e3] at third
  refine ⟨{ id := id, quantity := 1, size := some w.size, dogName := some (js "Max"),
            note := some w.note, color := some w.color }, rfl, rfl, rfl, ?_, ?_, ?_, ?_⟩
  · simp only [List.foldl, applyOp, hst1, hc1]
  · simp only [List.foldl, applyOp, hst1]
    rw [second (js "max") hmax]
    simp [mergeIntoCart, incrementFirst, keyMatch, orEmpty, js, utf16]
  · simp only [List.foldl, applyOp, hst1]
    rw [second (js "Max") hMax]
    simp [mergeIntoCart, incrementFirst, keyMatch, orEmpty]
  · simp only [List.foldl, applyOp, hst1]
    rw [third.2.1, hc1]
    simp [mergeIntoCart, incrementFirst, keyMatch, orEmpty]

theorem names_are_case_sensitive_witness :
    ∃ line : CartLine, line.id = js "p" ∧ line.quantity = 1 ∧ line.dogName = some (js "Max") ∧
      ([CartOp.select (js "p") { dogName := some (js "Max") },
        CartOp.add [namedProduct] (js "p"),
        CartOp.select (js "p") { dogName := some (js "max") },
        CartOp.add [namedProduct] (js "p")].foldl applyOp
        { SELECTIONS := fun _ => none, CART := [] }).CART =
        [line, { line with dogName := some (js "max") }] :=
  (names_are_case_sensitive [namedProduct] (fun _ => none) (js "p") namedProduct rfl rfl rfl
    (fun h => absurd h (by decide))).1.imp
    (fun _ hx => ⟨hx.1, hx.2.1, hx.2.2.1, hx.2.2.2.2.1⟩)

/-- The image that `getDisplayImage` returns is empty only when the product has
no main image. -/
theorem getDisplayImage_eq_nil (product : GalleryProduct) (selectedColor : JSString)
    (h : getDisplayImage product selectedColor = []) : product.image = [] := by
  unfold getDisplayImage at h
  simp only [] at h
  cases hc : (product.options.getD {}).colors with
  | none => simpa [hc] using h
  | some colors =>
    rw [hc] at h
    simp only [] at h
    by_cases hs : truthy selectedColor = true
    · rw [if_pos hs] at h
      cases hf : colors.find? (fun x => x.value == selectedColor) with
      | none => simpa [hf] using h
      | some c =>
        rw [hf] at h
        simp only [] at h
        by_cases hi : truthy c.image = true
        · rw [if_pos hi] at h
          rw [h] at hi
          cases hi
        · rw [if_neg hi] at h
          exact h
    · rw [if_neg hs] at h
      exact h

/-- Without a swatch image for the selected color, `getDisplayImage` returns
the main image of the product. -/
theorem getDisplayImage_without_swatch (product : GalleryProduct) (selectedColor : JSString)
    (h : ∀ colors c, (product.options.getD {}).colors = some colors →
      colors.find? (fun x => x.value == selectedColor) = some c → c.image = []) :
    getDisplayImage product selectedColor = product.image := by
  unfold getDisplayImage
  simp only []
  cases hc : (product.options.getD {}).colors with
  | none => rfl
  | some colors =>
    simp only []
    by_cases hs : truthy selectedColor = true
    · rw [if_pos hs]
      cases hf : colors.find? (fun x => x.value == selectedColor) with
      | none => rfl
      | some c =>
        have := h colors c hc hf
        simp [this, truthy]
    · rw [if_neg hs]

/-- The loop over `product.images` appends to `out`, in their order, entries
of the list that are not empty and not yet in `out`. -/
theorem foldl_pushNew (list out0 : List JSString) :
    ∃ t, list.foldl pushNew out0 = out0 ++ t ∧ t.Sublist list ∧ (∀ s ∈ t, s ≠ []) ∧
      (out0.Nodup → (out0 ++ t).Nodup) := by
  induction list generalizing out0 with
  | nil => exact ⟨[], by simp, List.Sublist.refl _, by simp, by simp⟩
  | cons src rest ih =>
    by_cases hpush : (truthy src && !out0.contains src) = true
    · obtain ⟨t, ht, hsub, hne, hnd⟩ := ih (out0 ++ [src])
      have hsrc : src ≠ [] ∧ src ∉ out0 := by
        simp only [Bool.and_eq_true, Bool.not_eq_true', truthy] at hpush
        refine ⟨fun e => ?_, fun hm => ?_⟩
        · rw [e] at hpush; simp at hpush
        · have := hpush.2
          simp [hm] at this
      refine ⟨src :: t, ?_, hsub.cons₂ src, ?_, ?_⟩
      · simp only [List.foldl, pushNew, hpush, if_true]
        rw [ht]; simp
      · intro s hs
        rcases List.mem_cons.mp hs with rfl | hs
        · exact hsrc.1
        · exact hne s hs
      · intro h0
        have h1 : (out0 ++ [src]).Nodup := by
          rw [List.nodup_append]
          refine ⟨h0, List.nodup_singleton _, ?_⟩
          intro a ha hb
          rw [List.mem_singleton] at hb
          subst hb
          exact hsrc.2 ha
        have := hnd h1
        simpa using this
    · obtain ⟨t, ht, hsub, hne, hnd⟩ := ih out0
      refine ⟨t, ?_, hsub.cons src, hne, hnd⟩
      simp only [List.foldl, pushNew, hpush]
      exact ht

/-- The fallback step of `getGalleryImages` never adds anything, and the
final filter removes nothing: the gallery is the image of `getDisplayImage`,
when there is one, followed by the new entries of `product.images`, cut to 10
entries. -/
theorem getGalleryImages_eq (product : GalleryProduct) (selectedColor : JSString) :
    getGalleryImages product selectedColor =
      ((product.images.getD []).foldl pushNew
        (if truthy (getDisplayImage product selectedColor) then
          [getDisplayImage product selectedColor] else [])).take 10 := by
  unfold getGalleryImages
  simp only []
  obtain ⟨t, ht, -, hne, -⟩ := foldl_pushNew (product.images.getD [])
    (if truthy (getDisplayImage product selectedColor) then
      [getDisplayImage product selectedColor] else [])
  rw [ht]
  have hdead : (((if truthy (getDisplayImage product selectedColor) then
        [getDisplayImage product selectedColor] else []) ++ t).length == 0 &&
      truthy product.image) = false := by
    by_cases hs : truthy (getDisplayImage product selectedColor) = true
    · simp [hs]
    · have hnil : getDisplayImage product selectedColor = [] := by
        cases hg : getDisplayImage product selectedColor with
        | nil => rfl
        | cons a l => rw [hg] at hs; simp [truthy] at hs
      have := getDisplayImage_eq_nil product selectedColor hnil
      simp [this, truthy]
  rw [hdead]
  simp only [Bool.false_eq_true, if_false]
  congr 1
  rw [List.filter_eq_self]
  intro s hs
  rcases List.mem_append.mp hs with h | h
  · by_cases hsw : truthy (getDisplayImage product selectedColor) = true
    · rw [if_pos hsw] at h
      rw [List.mem_singleton] at h
      rw [h]; exact hsw
    · rw [if_neg hsw] at h
      cases h
  · have := hne s h
    cases s with
    | nil => exact absurd rfl this
    | cons a l => rfl

/-- C25. The gallery has at most 10 sources, none of them empty and none
twice, and it is the image of `getDisplayImage`, when there is one, followed by
sources of `product.images` in their original order. -/
theorem gallery_spec (product : GalleryProduct) (selectedColor : JSString) :
    (getGalleryImages product selectedColor).length ≤ 10 ∧
    (∀ src ∈ getGalleryImages product selectedColor, src ≠ []) ∧
    (getGalleryImages product selectedColor).Nodup ∧
    (∃ fromImages : List JSString, fromImages.Sublist (product.images.getD []) ∧
      (getGalleryImages product selectedColor = fromImages ∨
        getGalleryImages product selectedColor =
          getDisplayImage product selectedColor :: fromImages)) ∧
    getGalleryImages
      { images := some ((List.range 12).map (fun n => [97 + n]) ++ [[], [97], [120]]) } [] =
      (List.range 10).map (fun n => [97 + n]) := by
  refine ⟨?_, ?_, ?_, ?_, by decide⟩
  · rw [getGalleryImages_eq]; simp
  · rw [getGalleryImages_eq]
    obtain ⟨t, ht, -, hne, -⟩ := foldl_pushNew (product.images.getD [])
      (if truthy (getDisplayImage product selectedColor) then
        [getDisplayImage product selectedColor] else [])
    rw [ht]
    intro src hsrc
    have hm := List.mem_of_mem_take hsrc
    rcases List.mem_append.mp hm with h | h
    · by_cases hsw : truthy (getDisplayImage product selectedColor) = true
      · rw [if_pos hsw, List.mem_singleton] at h
        rw [h]
        intro e
        rw [e] at hsw
        cases hsw
      · rw [if_neg hsw] at h
        cases h
    · exact hne src h
  · rw [getGalleryImages_eq]
    obtain ⟨t, ht, -, -, hnd⟩ := foldl_pushNew (product.images.getD [])
      (if truthy (getDisplayImage product selectedColor) then
        [getDisplayImage product selectedColor] else [])
    rw [ht]
    apply List.Nodup.sublist (List.take_sublist _ _)
    apply hnd
    split_ifs
    · exact List.nodup_singleton _
    · exact List.nodup_nil
  · rw [getGalleryImages_eq]
    obtain ⟨t, ht, hsub, -, -⟩ := foldl_pushNew (product.images.getD [])
      (if truthy (getDisplayImage product selectedColor) then
        [getDisplayImage product selectedColor] else [])
    rw [ht]
    by_cases hsw : truthy (getDisplayImage product selectedColor) = true
    · rw [if_pos hsw]
      refine ⟨t.take 9, (List.take_sublist _ _).trans hsub, Or.inr ?_⟩
      simp
    · rw [if_neg hsw]
      exact ⟨t.take 10, (List.take_sublist _ _).trans hsub, Or.inl (by simp)⟩

/-- C26. The gallery does not follow the documented priority when the selected
color has no swatch image: `getDisplayImage` then returns the main image
`product.image`, which becomes the first entry, before `product.images`. For a
product with main image `main.jpg` and images `a.jpg`, `b.jpg`, the gallery for
the color blue (no swatch image) and for no color starts with `main.jpg`; for
the color red it starts with the swatch image. -/
theorem gallery_starts_with_main_image :
    getDisplayImage galleryProduct (js "blue") = js "main.jpg" ∧
    getGalleryImages galleryProduct (js "blue") = [js "main.jpg", js "a.jpg", js "b.jpg"] ∧
    getGalleryImages galleryProduct [] = [js "main.jpg", js "a.jpg", js "b.jpg"] ∧
    getGalleryImages galleryProduct (js "red") = [js "red.jpg", js "a.jpg", js "b.jpg"] ∧
    galleryProduct.images = some [js "a.jpg", js "b.jpg"] ∧
    getGalleryImages { galleryProduct with image := [] } (js "blue") =
      [js "a.jpg", js "b.jpg"] := by
  decide

/-- Whenever the product has a main image and the selected color has no swatch
image, the main image is the first entry of the gallery. -/
theorem gallery_head_without_swatch (product : GalleryProduct) (selectedColor : JSString)
    (himg : product.image ≠ [])
    (h : ∀ colors c, (product.options.getD {}).colors = some colors →
      colors.find? (fun x => x.value == selectedColor) = some c → c.image = []) :
    (getGalleryImages product selectedColor).head? = some product.image := by
  rw [getGalleryImages_eq, getDisplayImage_without_swatch product selectedColor h]
  have ht : truthy product.image = true := by
    cases hp : product.image with
    | nil => exact absurd hp himg
    | cons a l => rfl
  rw [if_pos ht]
  obtain ⟨t, ht2, -, -, -⟩ := foldl_pushNew (product.images.getD []) [product.image]
  rw [ht2]
  rfl

/-- C27. The function `normalizeDogName` is not idempotent on its results: the
name `"Captain Fluffy McBark"` is normalised to `"Captain Fluffy "` (15 code
units, ending in a space) and this result is normalised to `"Captain Fluffy"`.
So the re-validation by `addToCart` changes the name that the quick-view
handler normalised: the line committed carries `"Captain Fluffy"`. -/
theorem normalizeDogName_not_idempotent :
    normalizeDogName (js "Captain Fluffy McBark") = some (js "Captain Fluffy ") ∧
    normalizeDogName (js "Captain Fluffy ") = some (js "Captain Fluffy") ∧
    js "Captain Fluffy " ≠ js "Captain Fluffy" ∧
    normalizeDogName (trim (js "Captain Fluffy McBark")) = some (js "Captain Fluffy ") ∧
    (modalAddToCartClick [namedProduct] (freshState []) (some (js "p"))
      { dogName := js "Captain Fluffy McBark" }).1 = .added ∧
    (modalAddToCartClick [namedProduct] (freshState []) (some (js "p"))
      { dogName := js "Captain Fluffy McBark" }).2.CART = [lineNamed "Captain Fluffy"] := by
  decide

/-- The function `normalizeDogName` is idempotent on every result that does
not end in white space, in particular whenever the trimmed input has at most
15 code units. -/
theorem normalizeDogName_idem_of_trimmed (s n : JSString) (h : normalizeDogName s = some n)
    (ht : trim n = n) : normalizeDogName n = some n := by
  have hv : ¬ onlyWhiteSpace n := normalizeDogName_visible s n h
  have hlen := normalizeDogName_length s n h
  rw [normalizeDogName_of_visible n hv, ht]
  by_cases hb : blankOrNoneTest n = true
  · simp only [hb, if_true]
    have hs : ¬ onlyWhiteSpace s := by
      intro hc
      rw [normalizeDogName_of_onlyWhiteSpace s hc] at h
      cases h
    rw [normalizeDogName_of_visible s hs] at h
    by_cases hb2 : blankOrNoneTest (trim s) = true
    · rw [if_pos hb2] at h
      exact h
    · rw [if_neg hb2] at h
      by_cases hl : (trim s).length > 15
      · rw [if_pos hl] at h
        simp only [Option.some.injEq] at h
        -- a name cut to 15 code units is not one of the two tokens
        rw [← h] at hb
        have h15 : ((trim s).take 15).length = 15 := by
          rw [List.length_take]; omega
        rw [blankOrNoneTest_iff] at hb
        rcases hb with hb | hb
        · have := congrArg List.length hb
          simp only [List.length_map] at this
          rw [h15] at this
          exact absurd this (by decide)
        · have := congrArg List.length hb
          simp only [List.length_map] at this
          rw [h15] at this
          exact absurd this (by decide)
      · rw [if_neg hl] at h
        simp only [Option.some.injEq] at h
        rw [h] at hb2
        exact absurd hb hb2
  · have : ¬ n.length > 15 := by omega
    simp [hb, this]

/-- When `incrementFirst` finds no line, no line satisfies the predicate. -/
theorem incrementFirst_none_all (pred : CartLine → Bool) (l : List CartLine)
    (h : incrementFirst pred l = none) : ∀ x ∈ l, pred x = false := by
  intro x hx
  cases hk : pred x with
  | false => rfl
  | true =>
    obtain ⟨_, _, _, _, _, _, hinc⟩ := incrementFirst_of_mem pred l ⟨x, hx, hk⟩
    rw [hinc] at h
    cases h

/-- When `incrementFirst` finds a line, the cart differs in the quantity of
that line only. -/
theorem incrementFirst_some_shape (pred : CartLine → Bool) (l l2 : List CartLine)
    (h : incrementFirst pred l = some l2) :
    ∃ pre item post, l = pre ++ item :: post ∧
      l2 = pre ++ { item with quantity := item.quantity + 1 } :: post := by
  have hex : ∃ x ∈ l, pred x = true := by
    by_contra hc
    have hall : ∀ x ∈ l, pred x = false := by
      intro x hx
      cases hk : pred x with
      | false => rfl
      | true => exact absurd ⟨x, hx, hk⟩ hc
    rw [incrementFirst_eq_none pred l hall] at h
    cases h
  obtain ⟨pre, item, post, hl, _, _, hinc⟩ := incrementFirst_of_mem pred l hex
  rw [hinc] at h
  simp only [Option.some.injEq] at h
  exact ⟨pre, item, post, hl, h.symm⟩

/-- A relation between lines that does not read the quantity holds pairwise
in a cart after a change of one quantity if it held before. -/
theorem pairwise_requantify (R : CartLine → CartLine → Prop)
    (hl : ∀ a b q, R a b → R { a with quantity := q } b)
    (hr : ∀ a b q, R a b → R a { b with quantity := q })
    (pre post : List CartLine) (item : CartLine) (q : Int)
    (h : (pre ++ item :: post).Pairwise R) :
    (pre ++ { item with quantity := q } :: post).Pairwise R := by
  rw [List.pairwise_append] at h ⊢
  obtain ⟨h1, h2, h3⟩ := h
  rw [List.pairwise_cons] at h2 ⊢
  refine ⟨h1, ⟨fun b hb => hl _ _ q (h2.1 b hb), h2.2⟩, fun a ha b hb => ?_⟩
  rcases List.mem_cons.mp hb with rfl | hb
  · exact hr _ _ q (h3 a ha item (List.mem_cons_self _ _))
  · exact h3 a ha b (List.mem_cons_of_mem _ hb)

/-- The merge step of the product page keeps the lines of the cart unique. -/
theorem mergeLine_unique (line : CartLine) (CART : List CartLine) (h : UniqueLines CART) :
    UniqueLines (mergeLine line CART) := by
  unfold mergeLine
  cases hinc : incrementFirst (keyMatchLine line) CART with
  | some cart =>
    obtain ⟨pre, item, post, hl, hc⟩ := incrementFirst_some_shape _ _ _ hinc
    simp only []
    rw [hc]
    rw [hl] at h
    exact pairwise_requantify _ (fun a b q hab => hab) (fun a b q hab => hab) pre post item _ h
  | none =>
    simp only []
    have hall := incrementFirst_none_all _ _ hinc
    unfold UniqueLines at h ⊢
    rw [List.pairwise_append]
    refine ⟨h, List.pairwise_singleton _ _, fun a ha b hb => ?_⟩
    rw [List.mem_singleton] at hb
    subst hb
    intro hs
    have hk : keyMatchLine b a = true := by
      rw [keyMatchLine_iff]
      exact hs
    rw [hall a ha] at hk
    cases hk

/-- The merge step of the product page keeps the lines of the cart distinct
in the literal sense. -/
theorem mergeLine_distinct (line : CartLine) (CART : List CartLine) (h : DistinctLines CART) :
    DistinctLines (mergeLine line CART) := by
  unfold mergeLine
  cases hinc : incrementFirst (keyMatchLine line) CART with
  | some cart =>
    obtain ⟨pre, item, post, hl, hc⟩ := incrementFirst_some_shape _ _ _ hinc
    simp only []
    rw [hc]
    rw [hl] at h
    exact pairwise_requantify _ (fun a b q hab => hab) (fun a b q hab => hab) pre post item _ h
  | none =>
    simp only []
    have hall := incrementFirst_none_all _ _ hinc
    unfold DistinctLines at h ⊢
    rw [List.pairwise_append]
    refine ⟨h, List.pairwise_singleton _ _, fun a ha b hb => ?_⟩
    rw [List.mem_singleton] at hb
    subst hb
    intro hs
    have hk : keyMatchLine b a = true := by
      rw [keyMatchLine_iff]
      obtain ⟨e1, e2, e3, e4, e5⟩ := hs
      exact ⟨e1, by rw [e2], by rw [e3], by rw [e4], by rw [e5]⟩
    rw [hall a ha] at hk
    cases hk

/-- C28. Adding keeps the lines of the cart unique: when no two lines of the
cart have the same product id and the same four option fields, the same holds
for the cart after a successful `addToCart` (main.js) and after a successful
add on the product page (product.js). This is so whether an absent field
counts as the empty string, as the merge compares lines, or as different from
it. -/
theorem add_keeps_lines_unique (PRODUCTS : List Product) (st st2 : MainState) (id : JSString)
    (product : Product) (form : PageForm) (CART CART2 : List CartLine) :
    (addToCart PRODUCTS st id = (.added, st2) →
      (UniqueLines st.CART → UniqueLines st2.CART) ∧
      (DistinctLines st.CART → DistinctLines st2.CART)) ∧
    (pAddClick product form CART = (.added, CART2) →
      (UniqueLines CART → UniqueLines CART2) ∧
      (DistinctLines CART → DistinctLines CART2)) := by
  constructor
  · intro h
    obtain ⟨readySel, -, hc⟩ := addToCart_added PRODUCTS st st2 id h
    rw [hc, mergeIntoCart_eq_mergeLine]
    exact ⟨mergeLine_unique _ _, mergeLine_distinct _ _⟩
  · intro h
    obtain ⟨line, -, -, hc⟩ := pAddClick_added product form CART CART2 h
    rw [hc]
    exact ⟨mergeLine_unique _ _, mergeLine_distinct _ _⟩

theorem add_keeps_lines_unique_witness :
    UniqueLines [lineL, lineM] ∧
    addToCart [sizedProduct] (stateWith { size := js "M" } [lineL, lineM]) (js "p") =
      (.added, (addToCart [sizedProduct] (stateWith { size := js "M" } [lineL, lineM])
        (js "p")).2) ∧
    (addToCart [sizedProduct] (stateWith { size := js "M" } [lineL, lineM]) (js "p")).2.CART =
      [lineL, { lineM with quantity := 3 }] ∧
    UniqueLines (addToCart [sizedProduct] (stateWith { size := js "M" } [lineL, lineM])
      (js "p")).2.CART ∧
    pAddClick sizedProduct { sizeEl := some (js "S") } [lineL, lineM] =
      (.added, [lineL, lineM, { linePlain with size := some (js "S") }]) ∧
    UniqueLines [lineL, lineM, { linePlain with size := some (js "S") }] :=
  ⟨by decide, Prod.ext (by decide) rfl, by decide,
   ((add_keeps_lines_unique [sizedProduct] (stateWith { size := js "M" } [lineL, lineM])
      (addToCart [sizedProduct] (stateWith { size := js "M" } [lineL, lineM]) (js "p")).2
      (js "p") sizedProduct { sizeEl := some (js "S") } [lineL, lineM]
      [lineL, lineM, { linePlain with size := some (js "S") }]).1
      (Prod.ext (by decide) rfl)).1 (by decide),
   by decide,
   ((add_keeps_lines_unique [sizedProduct] (stateWith { size := js "M" } [lineL, lineM])
      (addToCart [sizedProduct] (stateWith { size := js "M" } [lineL, lineM]) (js "p")).2
      (js "p") sizedProduct { sizeEl := some (js "S") } [lineL, lineM]
      [lineL, lineM, { linePlain with size := some (js "S") }]).2
      (by decide)).1 (by decide)⟩

end Storefront
